import Mathlib

/-!
# Store rating platform: rating aggregate engine and its access gate

A shallow embedding of the server side of the rating platform
(`server/src/models`, `server/src/controllers`, `server/src/middleware`,
`server/src/routes`, `server/src/utils/validation.js`) and of the password
check of the client (`client/src/utils/helpers.js`).

* The database is an explicit value (`Database`) threaded through every
  operation; the three tables are lists of rows, and the auto-increment
  sequences are counters.
* `average_rating` is a `DECIMAL(3,2)` column: it is stored here as a natural
  number of hundredths (`4.00` is `400`).
* JavaScript numbers are IEEE-754 binary64.  The only non-integer arithmetic
  of the engine is `(sum / ratings.length).toFixed(2)`; it is modelled exactly
  (`fdiv`, `toFixed2`) with natural-number arithmetic.
* The rows of `ratings` carry `created_at` and `updated_at`; the instant that
  `new Date()` gives to a statement is the field `now` of the state, which no
  controller changes (`Call.tick` is time passing between calls).  The
  timestamps of users and stores and the rate limiters are left out.
* The built-in validators of Sequelize are embedded with the arguments
  Sequelize hands them (`extractValidatorArgs`, `validatorMin`, `validatorMax`,
  `validatorLen`).
* A string is its list of code points; `utf16Length` is the `length` of
  JavaScript.  The email rules of Joi and of validator.js, `bcrypt.hash` and
  `bcrypt.compare` are parameters of the functions that use them, and the
  token in the responses of registration and login is left out.
-/

namespace Roxiler

/-! ## Binary64 division and `toFixed(2)` -/

/-- A finite non-negative binary64 value, `mant * 2 ^ exp`. -/
structure Dbl where
  mant : Nat
  exp : Int
deriving DecidableEq, Repr

/-- The quotient `a / b` rounded to the nearest integer, ties to even: the
rounding of every IEEE-754 binary64 operation. -/
def roundNearestEven (a b : Nat) : Nat :=
  let q := a / b
  let r := a % b
  if 2 * r < b then q
  else if b < 2 * r then q + 1
  else if q % 2 = 0 then q else q + 1

/-- Number of halvings that bring `n` below 2, at most `fuel` of them. -/
def log2Aux : Nat → Nat → Nat
  | 0, _ => 0
  | fuel + 1, n => if 2 ≤ n then log2Aux fuel (n / 2) + 1 else 0

/-- Floor of the binary logarithm (`0` at `0`). -/
def ilog2 (n : Nat) : Nat := log2Aux n n

/-- The binary exponent `e` of a positive quotient: `2 ^ e ≤ s / n < 2 ^ (e + 1)`. -/
def binExp (s n : Nat) : Int :=
  if n ≤ s then (ilog2 (s / n) : Int)
  else
    let t := ilog2 (n / s)
    if s * 2 ^ t = n then -(t : Int) else -(t : Int) - 1

/-- JavaScript `s / n` for two non-negative integers that are exact doubles
(below `2 ^ 53`): the exact quotient rounded to a 53-bit significand, ties to
even.  A quotient of two such integers is never subnormal.  `n = 0` gives no
finite double; `updateRatingStats`, the only caller, divides only when
`ratings.length` is not `0`. -/
def fdiv (s n : Nat) : Dbl :=
  if s = 0 ∨ n = 0 then ⟨0, 0⟩
  else
    let e := binExp s n
    if e ≤ 52 then ⟨roundNearestEven (s * 2 ^ (52 - e).toNat) n, e - 52⟩
    else ⟨roundNearestEven s (n * 2 ^ (e - 52).toNat), e - 52⟩

/-- The method `Number.prototype.toFixed(2)`, read as a number of hundredths: the integer
`k` for which `k / 100 - x` is as close to zero as possible, the larger one
when there are two (ECMAScript, Number.prototype.toFixed, step 10.a). -/
def toFixed2 (x : Dbl) : Nat :=
  if 0 ≤ x.exp then 100 * x.mant * 2 ^ x.exp.toNat
  else (200 * x.mant + 2 ^ (-x.exp).toNat) / (2 * 2 ^ (-x.exp).toNat)

/-! ## Data model (`models/User.js`, `models/Store.js`, `models/Rating.js`) -/

/-- The `role` enum of `models/User.js`. -/
inductive Role
  | admin
  | user
  | store_owner
deriving DecidableEq, Repr

/-- The string a role is stored and printed as. -/
def Role.toString : Role → String
  | .admin => "admin"
  | .user => "user"
  | .store_owner => "store_owner"

/-- A row of `users`. -/
structure User where
  id : Nat
  name : String
  email : String
  password : String
  address : Option String
  role : Role
deriving DecidableEq, Repr

/-- A row of `stores`; `average_rating` in hundredths. -/
structure Store where
  id : Nat
  name : String
  email : String
  address : Option String
  owner_id : Nat
  average_rating : Nat
  total_ratings : Nat
deriving DecidableEq, Repr

/-- A row of `ratings`; the two timestamps are instants of the clock. -/
structure Rating where
  id : Nat
  user_id : Nat
  store_id : Nat
  rating : Nat
  created_at : Nat
  updated_at : Nat
deriving DecidableEq, Repr

/-- The database: the three tables and their auto-increment sequences, and the
reading `now` of the clock that stamps the rows written. -/
structure Database where
  users : List User
  stores : List Store
  ratings : List Rating
  nextUserId : Nat
  nextStoreId : Nat
  nextRatingId : Nat
  now : Nat
deriving DecidableEq, Repr

/-- Errors thrown by the persistence layer. -/
inductive DbError
  | validation
  | other
deriving DecidableEq, Repr

deriving instance DecidableEq for Except

/-- The lookup `Store.findByPk(id)`. -/
def Store.findByPk (db : Database) (id : Nat) : Option Store :=
  db.stores.find? (fun s => s.id == id)

/-- The lookup `User.findByPk(id)`. -/
def User.findByPk (db : Database) (id : Nat) : Option User :=
  db.users.find? (fun u => u.id == id)

/-- The lookup `Rating.findByPk(id)`. -/
def Rating.findByPk (db : Database) (id : Nat) : Option Rating :=
  db.ratings.find? (fun r => r.id == id)

/-- The query `Rating.findOne` with `where: user_id, store_id`. -/
def Rating.findOne (db : Database) (user_id store_id : Nat) : Option Rating :=
  db.ratings.find? (fun r => r.user_id == user_id && r.store_id == store_id)

/-- The query `Rating.findAll` with `where: store_id` and `attributes: ['rating']`. -/
def Rating.findAll (db : Database) (store_id : Nat) : List Nat :=
  (db.ratings.filter (fun r => r.store_id == store_id)).map (fun r => r.rating)

/-- The values `updateRatingStats` assigns to `average_rating` and
`total_ratings` from the fetched rating values.  The sum is the `reduce` of the
source; its additions are exact below `2 ^ 53`. -/
def ratingStats (ratings : List Nat) : Nat × Nat :=
  if ratings.length = 0 then (0, 0)
  else
    let sum := ratings.foldl (fun acc rating => acc + rating) 0
    (toFixed2 (fdiv sum ratings.length), ratings.length)

/-- The statement `UPDATE stores SET average_rating, total_ratings WHERE id`
that `save()` issues for a store instance. -/
def Database.setStoreStats (db : Database) (id avg total : Nat) : Database :=
  { db with stores := db.stores.map (fun s =>
      if s.id = id then { s with average_rating := avg, total_ratings := total } else s) }

/-- The database at the instant `now` of the clock, its tables untouched. -/
def Database.atTime (db : Database) (now : Nat) : Database := { db with now := now }

/-- The statement `INSERT INTO ratings`, with the next id of the sequence and
both timestamps at the instant of the save. -/
def Database.insertRating (db : Database) (user_id store_id rating : Nat) : Database :=
  { db with
    ratings := db.ratings ++ [⟨db.nextRatingId, user_id, store_id, rating, db.now, db.now⟩]
    nextRatingId := db.nextRatingId + 1 }

/-- The statement `UPDATE ratings SET rating, updated_at WHERE id`. -/
def Database.setRating (db : Database) (id rating : Nat) : Database :=
  { db with ratings := db.ratings.map (fun r =>
      if r.id = id then { r with rating := rating, updated_at := db.now } else r) }

/-- The statement `DELETE FROM ratings WHERE id`. -/
def Database.deleteRating (db : Database) (id : Nat) : Database :=
  { db with ratings := db.ratings.filter (fun r => r.id != id) }

/-- The arguments Sequelize hands a built-in validator declared with the
options `args` and `msg`: `_extractValidatorArgs` takes `test.args || test`,
so a declared `args: 0`, which is falsy, is replaced by the options object
itself (`none`); any other number is passed on. -/
def extractValidatorArgs (args : Nat) : Option Nat :=
  if args = 0 then none else some args

/-- The validator `min` of Sequelize, `number >= val`: with the options object
for `val` the comparison is with `NaN` and is false for every number. -/
def validatorMin (val : Option Nat) (number : Nat) : Bool :=
  match val with
  | none => false
  | some v => v ≤ number

/-- The validator `max` of Sequelize, `number <= val`. -/
def validatorMax (val : Option Nat) (number : Nat) : Bool :=
  match val with
  | none => false
  | some v => number ≤ v

/-- The validators of `Store.average_rating`, `min` with `args: 0` and `max`
with `args: 5`, on a value in hundredths. -/
def Store.averageRatingValid (average_rating : Nat) : Bool :=
  validatorMin ((extractValidatorArgs 0).map (fun v => 100 * v)) average_rating
    && validatorMax ((extractValidatorArgs 5).map (fun v => 100 * v)) average_rating

/-- The validator of `Store.total_ratings`, `min` with `args: 0`. -/
def Store.totalRatingsValid (total_ratings : Nat) : Bool :=
  validatorMin (extractValidatorArgs 0) total_ratings

/-- The method `Store.prototype.updateRatingStats`: recompute both aggregate
fields from the store's rating rows and `save()`.

The instance holds `average_rating` as the string the `DECIMAL` column is read
as, so the assignment of the string `toFixed(2)` returns changes the field
when the two differ, and the assignment of the number `0.00` for a store
without ratings always changes it.  When no field changed `save()` returns
without a query.  Otherwise it validates the changed fields, and only then
writes them to the row with the instance's primary key. -/
def Store.updateRatingStats (db : Database) (this : Store) : Except DbError Store × Database :=
  let ratings := Rating.findAll db this.id
  let stats := ratingStats ratings
  let averageChanged : Bool := ratings.length == 0 || stats.1 != this.average_rating
  let totalChanged : Bool := stats.2 != this.total_ratings
  if !averageChanged && !totalChanged then (.ok this, db)
  else if (averageChanged && !Store.averageRatingValid stats.1)
      || (totalChanged && !Store.totalRatingsValid stats.2) then (.error .validation, db)
  else
    (.ok { this with average_rating := stats.1, total_ratings := stats.2 },
     db.setStoreStats this.id stats.1 stats.2)

/-- The `Rating.afterCreate` hook. -/
def Rating.afterCreate (db : Database) (rating : Rating) : Except DbError Unit × Database :=
  match Store.findByPk db rating.store_id with
  | some store =>
    let updated := Store.updateRatingStats db store
    (updated.1.map (fun _ => ()), updated.2)
  | none => (.ok (), db)

/-- The `Rating.afterUpdate` hook. -/
def Rating.afterUpdate (db : Database) (rating : Rating) : Except DbError Unit × Database :=
  match Store.findByPk db rating.store_id with
  | some store =>
    let updated := Store.updateRatingStats db store
    (updated.1.map (fun _ => ()), updated.2)
  | none => (.ok (), db)

/-- The `Rating.afterDestroy` hook. -/
def Rating.afterDestroy (db : Database) (rating : Rating) : Except DbError Unit × Database :=
  match Store.findByPk db rating.store_id with
  | some store =>
    let updated := Store.updateRatingStats db store
    (updated.1.map (fun _ => ()), updated.2)
  | none => (.ok (), db)

/-- The call `Rating.create` of `user_id, store_id, rating`: the model validators
(`min: 1`, `max: 5`), the insert with the next id of the sequence, then the
`afterCreate` hook.  No transaction encloses the insert and the hook.  The
only caller has just found the store and no row of the pair, and its
`req.user` was loaded from `users`, so the foreign keys and the unique index
do not reject the insert. -/
def Rating.create (db : Database) (user_id store_id : Nat) (rating : Int) :
    Except DbError Rating × Database :=
  if rating < 1 ∨ 5 < rating then (.error .validation, db)
  else
    let row : Rating := ⟨db.nextRatingId, user_id, store_id, rating.toNat, db.now, db.now⟩
    let hook := Rating.afterCreate (db.insertRating user_id store_id rating.toNat) row
    (hook.1.map (fun _ => row), hook.2)

/-- The assignment `existingRating.rating = rating` followed by
`existingRating.save()`: when the value is unchanged `save` returns without a
query or a hook; otherwise the validators run, the row with the instance's
primary key is updated and the `afterUpdate` hook runs. -/
def Rating.save (db : Database) (existingRating : Rating) (rating : Int) :
    Except DbError Rating × Database :=
  if (existingRating.rating : Int) = rating then (.ok existingRating, db)
  else if rating < 1 ∨ 5 < rating then (.error .validation, db)
  else
    let row : Rating := { existingRating with rating := rating.toNat, updated_at := db.now }
    let hook := Rating.afterUpdate (db.setRating existingRating.id rating.toNat) row
    (hook.1.map (fun _ => row), hook.2)

/-- The call `rating.destroy()`: delete the row with the instance's primary
key, then the `afterDestroy` hook. -/
def Rating.destroy (db : Database) (rating : Rating) : Except DbError Unit × Database :=
  Rating.afterDestroy (db.deleteRating rating.id) rating

/-! ## Responses -/

/-- The `user` association of a rating, `attributes: ['id', 'name']`. -/
structure UserSummary where
  id : Nat
  name : String
deriving DecidableEq, Repr

/-- The `store` association of a rating,
`attributes: ['id', 'name', 'average_rating', 'total_ratings']`. -/
structure StoreSummary where
  id : Nat
  name : String
  average_rating : Nat
  total_ratings : Nat
deriving DecidableEq, Repr

/-- A rating with its two associations, as `submitRating` returns it. -/
structure RatingWithDetails where
  rating : Rating
  user : Option UserSummary
  store : Option StoreSummary
deriving DecidableEq, Repr

/-- The `owner` association of a store, `attributes: ['id', 'name', 'email']`. -/
structure OwnerSummary where
  id : Nat
  name : String
  email : String
deriving DecidableEq, Repr

/-- The `data` member of a response body. -/
inductive Payload
  | none
  | rating (r : Option RatingWithDetails)
  | store (s : Option Store) (owner : Option OwnerSummary)
deriving DecidableEq, Repr

/-- An HTTP response: status and the `success`, `message` and `data` members
of the JSON body (the `errors` array of a failed validation is left out). -/
structure Response where
  status : Nat
  success : Bool
  message : String
  data : Payload
deriving DecidableEq, Repr

/-- The lookup `Rating.findByPk(id)` with `include: [user, store]`. -/
def Rating.findByPkWithDetails (db : Database) (id : Nat) : Option RatingWithDetails :=
  match Rating.findByPk db id with
  | none => none
  | some r =>
    some ⟨r, (User.findByPk db r.user_id).map (fun u => ⟨u.id, u.name⟩),
      (Store.findByPk db r.store_id).map
        (fun s => ⟨s.id, s.name, s.average_rating, s.total_ratings⟩)⟩

/-! ## Controllers (`controllers/ratingController.js`, `controllers/storeController.js`) -/

/-- The response of `submitRating` once the rating is saved or the save has
thrown: the success response with the rating re-read from the database, or the
response of the `catch` block. -/
def ratingController.submitResponse (db : Database) (existed : Bool) :
    Except DbError Rating → Response
  | .ok ratingRecord =>
    ⟨if existed then 200 else 201, true,
      if existed then "Rating updated successfully." else "Rating submitted successfully.",
      .rating (Rating.findByPkWithDetails db ratingRecord.id)⟩
  | .error .validation => ⟨400, false, "Validation failed", .none⟩
  | .error .other => ⟨500, false, "Internal server error while submitting rating.", .none⟩

/-- The controller `ratingController.submitRating`, with `req.user = user` and
`req.body = (store_id, rating)`. -/
def ratingController.submitRating (db : Database) (user : User) (store_id : Nat) (rating : Int) :
    Response × Database :=
  match Store.findByPk db store_id with
  | none => (⟨404, false, "Store not found.", .none⟩, db)
  | some store =>
    if store.owner_id = user.id then
      (⟨400, false, "You cannot rate your own store.", .none⟩, db)
    else
      let existingRating := Rating.findOne db user.id store_id
      let saved :=
        match existingRating with
        | some existing => Rating.save db existing rating
        | none => Rating.create db user.id store_id rating
      (ratingController.submitResponse saved.2 existingRating.isSome saved.1, saved.2)

/-- A route parameter `:id`, a string, by what its two readers make of it:
`parseInt(id)` (`none` for `NaN`) and the integer the database reads from it
in `WHERE id = ...` (`none` when the database rejects the string, which makes
`findByPk` throw). -/
structure IdParam where
  parseInt : Option Int
  pk : Option Int
deriving DecidableEq, Repr

/-- The parameter written as the decimal numeral of `n`: the database rejects
a numeral beyond the `INTEGER` range. -/
def IdParam.ofNat (n : Nat) : IdParam :=
  ⟨some n, if n ≤ 2147483647 then some n else none⟩

/-- The lookup `Rating.findByPk(id)` with the route parameter: an error when
the database rejects the string, no row for a negative integer. -/
def Rating.findByParam (db : Database) (id : IdParam) : Except DbError (Option Rating) :=
  match id.pk with
  | none => .error .other
  | some k => .ok (if k < 0 then none else Rating.findByPk db k.toNat)

/-- The controller `ratingController.deleteRating`, with `req.user = user` and
`req.params.id = id`. -/
def ratingController.deleteRating (db : Database) (user : User) (id : IdParam) :
    Response × Database :=
  match Rating.findByParam db id with
  | .error _ => (⟨500, false, "Internal server error while deleting rating.", .none⟩, db)
  | .ok none => (⟨404, false, "Rating not found.", .none⟩, db)
  | .ok (some rating) =>
    if user.role ≠ Role.admin ∧ rating.user_id ≠ user.id then
      (⟨403, false, "You can only delete your own ratings.", .none⟩, db)
    else
      let destroyed := Rating.destroy db rating
      (match destroyed.1 with
        | .ok _ => ⟨200, true, "Rating deleted successfully.", .none⟩
        | .error _ => ⟨500, false, "Internal server error while deleting rating.", .none⟩,
       destroyed.2)

/-- The body of `POST /stores`. -/
structure StoreBody where
  name : String
  email : String
  address : Option String
  owner_id : Nat
deriving DecidableEq, Repr

/-- The body of `PUT /stores/:id`: each member may be absent (`undefined`);
`address` may also be `null`. -/
structure StoreUpdateBody where
  name : Option String
  email : Option String
  address : Option (Option String)
deriving DecidableEq, Repr

/-- The length that `isLength` of validator.js measures, which the validator
`len` of Sequelize calls: `str.length` less the surrogate pairs and less the
variation selectors U+FE0E and U+FE0F, so the code points other than these
two. -/
def isLengthCount (str : String) : Nat :=
  (str.toList.filter (fun c => c.toNat != 65038 && c.toNat != 65039)).length

/-- The validator `len` with `args: [min, max]`. -/
def validatorLen (min max : Nat) (str : String) : Bool :=
  min ≤ isLengthCount str && isLengthCount str ≤ max

/-- The `len: [20, 60]` validator of `Store.name`. -/
def Store.nameValid (name : String) : Bool :=
  validatorLen 20 60 name

/-- The `len: [0, 400]` validator of `Store.address` (not run on `null`). -/
def Store.addressValid : Option String → Bool
  | none => true
  | some a => validatorLen 0 400 a

/-- The lookup `Store.findByPk(id)` with `include: [owner]`. -/
def Store.findByPkWithOwner (db : Database) (id : Nat) : Payload :=
  match Store.findByPk db id with
  | none => .store none none
  | some s => .store (some s) ((User.findByPk db s.owner_id).map (fun u => ⟨u.id, u.name, u.email⟩))

/-- The controller `storeController.createStore`.  `isEmail` is the `isEmail` validator of the
validator.js library, which `Store.email` uses.  `Store.create` validates every
field of the new row, the defaults `0.00` and `0` of the two aggregate fields
included. -/
def storeController.createStore (isEmail : String → Bool) (db : Database) (body : StoreBody) :
    Response × Database :=
  match User.findByPk db body.owner_id with
  | none => (⟨404, false, "Store owner not found.", .none⟩, db)
  | some owner =>
    if owner.role ≠ Role.store_owner ∧ owner.role ≠ Role.admin then
      (⟨400, false, "Only users with store_owner or admin role can own a store.", .none⟩, db)
    else if (db.stores.find? (fun s => s.email == body.email)).isSome then
      (⟨409, false, "Store with this email already exists.", .none⟩, db)
    else if !(Store.nameValid body.name && isEmail body.email && Store.addressValid body.address
        && Store.averageRatingValid 0 && Store.totalRatingsValid 0) then
      (⟨400, false, "Validation failed", .none⟩, db)
    else
      let store : Store := ⟨db.nextStoreId, body.name, body.email, body.address, body.owner_id, 0, 0⟩
      let db1 := { db with stores := db.stores ++ [store], nextStoreId := db.nextStoreId + 1 }
      (⟨201, true, "Store created successfully.", Store.findByPkWithOwner db1 store.id⟩, db1)

/-- JavaScript truthiness of an optional string: present and not empty. -/
def truthy : Option String → Bool
  | none => false
  | some s => s != ""

/-- The controller `storeController.updateStore`, with `req.user = user`, `req.params.id = id`
and `req.body = body`. -/
def storeController.updateStore (isEmail : String → Bool) (db : Database) (user : User) (id : Nat)
    (body : StoreUpdateBody) : Response × Database :=
  match Store.findByPk db id with
  | none => (⟨404, false, "Store not found.", .none⟩, db)
  | some store =>
    if user.role ≠ Role.admin ∧ user.id ≠ store.owner_id then
      (⟨403, false, "You can only update your own store.", .none⟩, db)
    else if truthy body.email && body.email != some store.email &&
        (db.stores.find? (fun s => some s.email == body.email && s.id != id)).isSome then
      (⟨409, false, "Store with this email already exists.", .none⟩, db)
    else
      let name := if truthy body.name then body.name.getD store.name else store.name
      let email := if truthy body.email then body.email.getD store.email else store.email
      let address := match body.address with
        | none => store.address
        | some a => a
      if (name != store.name && !Store.nameValid name) || (email != store.email && !isEmail email)
          || (address != store.address && !Store.addressValid address) then
        (⟨400, false, "Validation failed", .none⟩, db)
      else
        let db1 := { db with stores := db.stores.map (fun s =>
          if s.id = store.id then { s with name := name, email := email, address := address } else s) }
        (⟨200, true, "Store updated successfully.", Store.findByPkWithOwner db1 store.id⟩, db1)

/-! ## Middleware and the `POST /ratings` route
(`middleware/auth.js`, `middleware/authorize.js`, `middleware/validation.js`,
`utils/validation.js`, `routes/ratings.js`) -/

/-- What `extractTokenFromHeader` and `verifyToken` make of the
`Authorization` header: no bearer token, a token that `verifyToken` rejects,
or a token whose payload carries `userId`. -/
inductive Credential
  | missing
  | invalid
  | valid (userId : Nat)
deriving DecidableEq, Repr

/-- The `authenticate` middleware: a response, or the user put in `req.user`.
`verifyToken` rethrows every failure as a plain `Error('Invalid token')`,
whose name is neither `JsonWebTokenError` nor `TokenExpiredError`. -/
def authenticate (db : Database) (cred : Credential) : Except Response User :=
  match cred with
  | .missing => .error ⟨401, false, "Access denied. No token provided.", .none⟩
  | .invalid => .error ⟨500, false, "Internal server error during authentication.", .none⟩
  | .valid userId =>
    match User.findByPk db userId with
    | none => .error ⟨401, false, "Access denied. User not found.", .none⟩
    | some user => .ok user

/-- The role gate `authorize(...allowedRoles)`: a response, or `next()`. -/
def authorize (allowedRoles : List Role) (user : Option User) : Except Response Unit :=
  match user with
  | none => .error ⟨401, false, "Access denied. User not authenticated.", .none⟩
  | some u =>
    if allowedRoles.contains u.role then .ok ()
    else .error ⟨403, false,
      "Access denied. Required role: " ++ String.intercalate " or " (allowedRoles.map Role.toString)
        ++ ". Your role: " ++ u.role.toString, .none⟩

/-- The gate `requireAdmin = authorize('admin')`. -/
def requireAdmin : Option User → Except Response Unit := authorize [Role.admin]

/-- The gate `requireUser = authorize('user', 'admin')`. -/
def requireUser : Option User → Except Response Unit := authorize [Role.user, Role.admin]

/-- The gate `requireStoreOwner = authorize('store_owner', 'admin')`. -/
def requireStoreOwner : Option User → Except Response Unit :=
  authorize [Role.store_owner, Role.admin]

/-- The gate `requireUserOrStoreOwner = authorize('user', 'store_owner', 'admin')`. -/
def requireUserOrStoreOwner : Option User → Except Response Unit :=
  authorize [Role.user, Role.store_owner, Role.admin]

/-- The body of `POST /ratings`: for each member the number `Joi.number()`
reads from it, `none` when the member is absent or not a number. -/
structure RatingBody where
  store_id : Option ℚ
  rating : Option ℚ
deriving DecidableEq, Repr

/-- The middleware `sanitizeInput` rewrites string members only; the members of a rating body
are numbers. -/
def sanitizeInput (body : RatingBody) : RatingBody := body

/-- The schema check `ratingSchema.validate`: the validated value, or `none` when Joi reports an
error.  `store_id` is a required positive integer, `rating` a required integer
between 1 and 5; `Joi.number()` also refuses numbers beyond the safe integers. -/
def ratingSchema (body : RatingBody) : Option (Nat × Int) :=
  match body.store_id, body.rating with
  | some store_id, some rating =>
    if store_id.isInt ∧ 0 < store_id ∧ store_id ≤ 9007199254740991
        ∧ rating.isInt ∧ 1 ≤ rating ∧ rating ≤ 5 then
      some (store_id.num.toNat, rating.num)
    else none
  | _, _ => none

/-- The `validate(schema)` middleware on `req.body`: a 400 response, or the
validated value that replaces `req.body`. -/
def validate (schema : RatingBody → Option (Nat × Int)) (body : RatingBody) :
    Except Response (Nat × Int) :=
  match schema body with
  | none => .error ⟨400, false, "Validation failed", .none⟩
  | some value => .ok value

/-- The route `router.post('/', strictLimiter, authenticate, requireUser,
sanitizeInput, validate(ratingSchema), ratingController.submitRating)`, for a
request within the rate limits. -/
def postRatings (db : Database) (cred : Credential) (body : RatingBody) : Response × Database :=
  match authenticate db cred with
  | .error res => (res, db)
  | .ok user =>
    match requireUser (some user) with
    | .error res => (res, db)
    | .ok _ =>
      match validate ratingSchema (sanitizeInput body) with
      | .error res => (res, db)
      | .ok (store_id, rating) => ratingController.submitRating db user store_id rating

/-! ## Sequences of controller calls -/

/-- A call of one of the four state-changing rating and store controllers, or
time passing. -/
inductive Call
  | submitRating (user : User) (store_id : Nat) (rating : Int)
  | deleteRating (user : User) (id : IdParam)
  | createStore (body : StoreBody)
  | updateStore (user : User) (id : Nat) (body : StoreUpdateBody)
  | tick (now : Nat)
deriving DecidableEq, Repr

/-- The database after one call. -/
def Call.run (isEmail : String → Bool) (db : Database) : Call → Database
  | .submitRating user store_id rating => (ratingController.submitRating db user store_id rating).2
  | .deleteRating user id => (ratingController.deleteRating db user id).2
  | .createStore body => (storeController.createStore isEmail db body).2
  | .updateStore user id body => (storeController.updateStore isEmail db user id body).2
  | .tick now => db.atTime now

/-- The database after a sequence of calls, executed one at a time. -/
def runCalls (isEmail : String → Bool) (db : Database) (calls : List Call) : Database :=
  calls.foldl (Call.run isEmail) db

/-! ## Properties of states -/

/-- The values of the rating rows of a store. -/
def storeValues (ratings : List Rating) (store_id : Nat) : List Nat :=
  (ratings.filter (fun r => r.store_id == store_id)).map (fun r => r.rating)

/-- The value `avg` (in hundredths) is the mean of `values` rounded to two decimals: it lies
within half a hundredth of the exact mean, `|avg / 100 - sum / count| ≤ 1 / 200`,
written without division. -/
def IsMean2 (avg : Nat) (values : List Nat) : Prop :=
  2 * (avg * values.length) ≤ 200 * values.sum + values.length ∧
    200 * values.sum ≤ 2 * (avg * values.length) + values.length

instance (avg : Nat) (values : List Nat) : Decidable (IsMean2 avg values) := by
  unfold IsMean2; infer_instance

/-- The exact mean `sum / count` rounded to two decimals, ties half-up, in
hundredths: the floor of `100 * sum / count + 1 / 2`. -/
def roundHalfUp2 (sum count : Nat) : Nat := (200 * sum + count) / (2 * count)

/-- The exact mean `sum / count` lies exactly halfway between two hundredths. -/
def IsTie2 (sum count : Nat) : Prop := (200 * sum) % (2 * count) = count

instance (sum count : Nat) : Decidable (IsTie2 sum count) := by
  unfold IsTie2; infer_instance

/-- The aggregate of one store agrees with the rating rows: `total_ratings` is
their count and `average_rating` their two-decimal mean, `0.00` and `0` when
there are none. -/
def StoreConsistent (ratings : List Rating) (S : Store) : Prop :=
  S.total_ratings = (storeValues ratings S.id).length ∧
    if (storeValues ratings S.id).length = 0 then S.average_rating = 0
    else IsMean2 S.average_rating (storeValues ratings S.id)

instance (ratings : List Rating) (S : Store) : Decidable (StoreConsistent ratings S) := by
  unfold StoreConsistent; infer_instance

/-- The aggregate invariant: every store agrees with its rating rows. -/
def AggregateConsistent (db : Database) : Prop :=
  ∀ S ∈ db.stores, StoreConsistent db.ratings S

instance (db : Database) : Decidable (AggregateConsistent db) := by
  unfold AggregateConsistent; infer_instance

/-- Every rating row holds an integer from 1 to 5 (the validators of
`Rating.rating`). -/
def ValidRatings (db : Database) : Prop :=
  ∀ r ∈ db.ratings, 1 ≤ r.rating ∧ r.rating ≤ 5

instance (db : Database) : Decidable (ValidRatings db) := by
  unfold ValidRatings; infer_instance

/-- The primary key of `ratings`: no two rows share an id. -/
def RatingKeysDistinct (db : Database) : Prop :=
  (db.ratings.map (fun r => r.id)).Nodup

instance (db : Database) : Decidable (RatingKeysDistinct db) := by
  unfold RatingKeysDistinct; infer_instance

/-- The number of rating rows of a `(user_id, store_id)` pair. -/
def ratingCount (db : Database) (user_id store_id : Nat) : Nat :=
  (db.ratings.filter (fun r => r.user_id == user_id && r.store_id == store_id)).length

/-- Uniqueness: at most one rating row per `(user_id, store_id)`. -/
def UniquePerUserStore (db : Database) : Prop :=
  ∀ user_id store_id, ratingCount db user_id store_id ≤ 1

/-- The foreign key `ratings.store_id`: every rating row refers to a store. -/
def RatingsReferToStores (db : Database) : Prop :=
  ∀ r ∈ db.ratings, (Store.findByPk db r.store_id).isSome

instance (db : Database) : Decidable (RatingsReferToStores db) := by
  unfold RatingsReferToStores; infer_instance

/-- No rating row was written by the owner of the store it rates. -/
def NoOwnerRating (db : Database) : Prop :=
  ∀ r ∈ db.ratings, ∀ S, Store.findByPk db r.store_id = some S → r.user_id ≠ S.owner_id

instance (db : Database) : Decidable (NoOwnerRating db) :=
  inferInstanceAs (Decidable
    (∀ r ∈ db.ratings, ∀ S ∈ Store.findByPk db r.store_id, r.user_id ≠ S.owner_id))

/-- Database `db'` is `X` after a rating hook, at most: untouched, or with the
aggregate of one store overwritten. -/
def AfterHook (X db' : Database) : Prop :=
  db' = X ∨ ∃ id a n, db' = X.setStoreStats id a n

/-- Every rating row refers to a store, and its author is not the owner of
that store: `RatingsReferToStores` and `NoOwnerRating` together. -/
def OwnerFree (db : Database) : Prop :=
  ∀ r ∈ db.ratings, ∃ S, Store.findByPk db r.store_id = some S ∧ r.user_id ≠ S.owner_id

/-! ## Example states -/

/-- A store with id 1 owned by user 1, with no ratings recorded. -/
def tieStore : Store := ⟨1, "The Corner Bookshop Ltd", "books@example.com", none, 1, 0, 0⟩

/-- Forty rating rows of store 1, by users 10 to 49: one rating 2 and
thirty-nine ratings 1, of exact mean 41 / 40 = 1.025. -/
def fortyRatings : List Rating :=
  (List.range 40).map (fun i => ⟨i + 1, i + 10, 1, if i = 0 then 2 else 1, 10, 10⟩)

/-- The database holding `tieStore` and `fortyRatings`. -/
def tieDb : Database := ⟨[], [tieStore], fortyRatings, 1, 2, 41, 50⟩

/-- An administrator. -/
def admin0 : User :=
  ⟨1, "Platform Administrator", "admin@example.com", "Admin#2024", none, Role.admin⟩

/-- The store owner who owns `shop`. -/
def owner0 : User :=
  ⟨2, "Olivia Owner Of The Shop", "olivia@example.com", "Owner#2024", none, Role.store_owner⟩

/-- A normal user. -/
def alice : User :=
  ⟨3, "Alice Anderson Of Avalon", "alice@example.com", "Alice#2024", none, Role.user⟩

/-- A second normal user. -/
def bob : User :=
  ⟨4, "Robert Brown Of Brighton", "bob@example.com", "Bobby#2024", none, Role.user⟩

/-- A store owner who does not own `shop`. -/
def carol : User :=
  ⟨5, "Carol Carter Of Carlisle", "carol@example.com", "Carol#2024", none, Role.store_owner⟩

/-- A store owned by `owner0`, with no ratings recorded. -/
def shop : Store := ⟨1, "The Corner Bookshop Ltd", "books@example.com", none, 2, 0, 0⟩

/-- A database with five users, one store and no ratings. -/
def db0 : Database := ⟨[admin0, owner0, alice, bob, carol], [shop], [], 6, 2, 1, 50⟩

/-- The store `shop` with the aggregate of a rating 5 and a rating 3. -/
def shop2 : Store := { shop with average_rating := 400, total_ratings := 2 }

/-- A database in which `shop` holds a rating 5 by `alice` and a rating 3 by
`bob` and the aggregate `4.00` and `2` that goes with them. -/
def db2 : Database :=
  ⟨[admin0, owner0, alice, bob, carol], [shop2], [⟨1, 3, 1, 5, 10, 10⟩, ⟨2, 4, 1, 3, 20, 20⟩],
    6, 2, 3, 50⟩

/-- A validator standing for `isEmail`: an address with an `@`. -/
def hasAt (email : String) : Bool := email.toList.contains '@'

/-- A sequence of calls on `db0`: two submissions by `alice`, one by `bob`, a
refused submission by the owner, a store creation, a rename, time passing, and
a deletion. -/
def someCalls : List Call :=
  [Call.submitRating alice 1 5, Call.submitRating bob 1 3, Call.submitRating alice 1 1,
    Call.submitRating owner0 1 5,
    Call.createStore ⟨"The Second Hand Record Shop", "records@example.com", none, 5⟩,
    Call.updateStore owner0 1 ⟨some "The Corner Bookshop Limited", none, none⟩,
    Call.tick 60,
    Call.deleteRating admin0 (IdParam.ofNat 2)]

/-! ## The `DELETE /ratings/:id` route, the unique index, store request bodies
and `deleteUser` (`routes/ratings.js`, `models/Rating.js`,
`controllers/storeController.js`, `controllers/userController.js`) -/

/-- The route `router.delete('/:id', authenticate, requireUserOrStoreOwner,
ratingController.deleteRating)`, for a request within the rate limits. -/
def deleteRatingsId (db : Database) (cred : Credential) (id : IdParam) : Response × Database :=
  match authenticate db cred with
  | .error res => (res, db)
  | .ok user =>
    match requireUserOrStoreOwner (some user) with
    | .error res => (res, db)
    | .ok _ => ratingController.deleteRating db user id

/-- The member `rating` of a body holds an integer from 1 to 5. -/
def IsValidRating (rating : Option ℚ) : Prop :=
  ∃ v : Int, 1 ≤ v ∧ v ≤ 5 ∧ rating = some (v : ℚ)

/-- The call `Rating.create` on a table that may already hold a row of the
pair: after the validators, the unique index `unique_user_store_rating`
rejects the insert with a `SequelizeUniqueConstraintError`, whose name is not
`SequelizeValidationError`.  The rejected insert has taken its id from the
sequence, which does not give it back. -/
def Rating.createUnique (db : Database) (user_id store_id : Nat) (rating : Int) :
    Except DbError Rating × Database :=
  if rating < 1 ∨ 5 < rating then (.error .validation, db)
  else if (Rating.findOne db user_id store_id).isSome then
    (.error .other, { db with nextRatingId := db.nextRatingId + 1 })
  else Rating.create db user_id store_id rating

/-- The controller `ratingController.submitRating` when other requests ran
between its lookups and its write: `db` is the database that `Store.findByPk`
and `Rating.findOne` read, `db'` the database that the save or the create acts
on.  A request that writes nothing leaves `db'`. -/
def ratingController.submitRatingAt (db db' : Database) (user : User) (store_id : Nat)
    (rating : Int) : Response × Database :=
  match Store.findByPk db store_id with
  | none => (⟨404, false, "Store not found.", .none⟩, db')
  | some store =>
    if store.owner_id = user.id then
      (⟨400, false, "You cannot rate your own store.", .none⟩, db')
    else
      let existingRating := Rating.findOne db user.id store_id
      let saved :=
        match existingRating with
        | some existing => Rating.save db' existing rating
        | none => Rating.createUnique db' user.id store_id rating
      (ratingController.submitResponse saved.2 existingRating.isSome saved.1, saved.2)

/-- The JSON body of `POST /stores` once the route's schema has checked that
the four members of a store are there, with the two aggregate fields a sender
may have added. -/
structure CreateStoreRequest where
  name : String
  email : String
  address : Option String
  owner_id : Nat
  average_rating : Option Nat
  total_ratings : Option Nat
deriving DecidableEq, Repr

/-- The members `name, email, address, owner_id` that `createStore` takes out
of `req.body`. -/
def CreateStoreRequest.body (req : CreateStoreRequest) : StoreBody :=
  ⟨req.name, req.email, req.address, req.owner_id⟩

/-- The JSON body of `PUT /stores/:id`: every member may be absent; a sender
may have added `owner_id` and the two aggregate fields. -/
structure UpdateStoreRequest where
  name : Option String
  email : Option String
  address : Option (Option String)
  owner_id : Option Nat
  average_rating : Option Nat
  total_ratings : Option Nat
deriving DecidableEq, Repr

/-- The members `name, email, address` that `updateStore` takes out of
`req.body`. -/
def UpdateStoreRequest.body (req : UpdateStoreRequest) : StoreUpdateBody :=
  ⟨req.name, req.email, req.address⟩

/-- The statement `DELETE FROM users WHERE id` with the cascades the schema
declares (`onDelete: 'CASCADE'` on `stores.owner_id`, `ratings.user_id` and
`ratings.store_id`): the stores the user owns go, and so do the ratings the
user wrote and the ratings of those stores.  The database runs the cascades;
no model hook is run for the rows they remove. -/
def Database.deleteUser (db : Database) (id : Nat) : Database :=
  { db with
    users := db.users.filter (fun u => u.id != id)
    stores := db.stores.filter (fun s => s.owner_id != id)
    ratings := db.ratings.filter (fun r =>
      r.user_id != id && !(db.stores.any (fun s => s.id == r.store_id && s.owner_id == id))) }

/-- The controller `userController.deleteUser`, with `req.user = user` and
`req.params.id = id`. -/
def userController.deleteUser (db : Database) (user : User) (id : IdParam) :
    Response × Database :=
  if id.parseInt = some (user.id : Int) then
    (⟨400, false, "You cannot delete your own account.", .none⟩, db)
  else
    match id.pk with
    | none => (⟨500, false, "Internal server error while deleting user.", .none⟩, db)
    | some k =>
      match (if k < 0 then none else User.findByPk db k.toNat) with
      | none => (⟨404, false, "User not found.", .none⟩, db)
      | some found => (⟨200, true, "User deleted successfully.", .none⟩, db.deleteUser found.id)

/-! ## More example states -/

/-- The store `shop` holding a rating of 9 that was not written through the
controllers; its stored aggregate is still `(0.00, 0)`. -/
def oddDb : Database :=
  ⟨[admin0, owner0, alice, bob, carol], [shop], [⟨1, 4, 1, 9, 10, 10⟩], 6, 2, 2, 50⟩

/-- The store `shop` holding two ratings of 9 that were not written through
the controllers, by `bob` and by `alice`. -/
def oddDb2 : Database :=
  ⟨[admin0, owner0, alice, bob, carol], [shop], [⟨1, 4, 1, 9, 10, 10⟩, ⟨2, 3, 1, 9, 20, 20⟩],
    6, 2, 3, 50⟩

/-- The database `db0` after a concurrent request of `alice` has inserted her
rating 2 of `shop`. -/
def raceDb : Database :=
  ⟨[admin0, owner0, alice, bob, carol], [shop], [⟨1, 3, 1, 2, 40, 40⟩], 6, 2, 2, 50⟩

/-- The database `db0` with a rating 5 of `shop` by `alice` and a rating 3 by
`bob`, and the aggregate of `shop` still `0.00` and `0`. -/
def staleDb : Database :=
  ⟨[admin0, owner0, alice, bob, carol], [shop], [⟨1, 3, 1, 5, 50, 50⟩, ⟨2, 4, 1, 3, 50, 50⟩],
    6, 2, 3, 50⟩

/-- The store `tieStore` with the aggregate `1.02` and `40`. -/
def tieStore102 : Store := { tieStore with average_rating := 102, total_ratings := 40 }

/-- The database `tieDb` with the aggregate `1.02` and `40` stored. -/
def tieDb102 : Database := { tieDb with stores := [tieStore102] }

/-- First step of the scenario on `db0`, at the instant 50: `alice` submits 5
for `shop`. -/
def scenario1 : Response × Database := ratingController.submitRating db0 alice 1 5

/-- Second step, at the instant 60: `bob` submits 3 for `shop`. -/
def scenario2 : Response × Database :=
  ratingController.submitRating (scenario1.2.atTime 60) bob 1 3

/-- Third step, at the instant 70: `alice` submits 1 for `shop`. -/
def scenario3 : Response × Database :=
  ratingController.submitRating (scenario2.2.atTime 70) alice 1 1

/-- Fourth step, at the instant 80: the administrator deletes the rating of
`bob`, which has id 2. -/
def scenario4 : Response × Database :=
  ratingController.deleteRating (scenario3.2.atTime 80) admin0 (IdParam.ofNat 2)

/-- A body of `POST /stores` that also carries the two aggregate fields. -/
def pushyCreate : CreateStoreRequest :=
  ⟨"The Second Hand Record Shop", "records@example.com", none, 5, some 500, some 99⟩

/-- A body of `PUT /stores/1` that also carries `owner_id` and the two
aggregate fields. -/
def pushyUpdate : UpdateStoreRequest :=
  ⟨some "The Corner Bookshop Limited", none, none, some 3, some 500, some 99⟩

/-! ## Strings, registration, login and the `PUT /stores/:id` route
(`middleware/validation.js`, `utils/validation.js`, `models/User.js`,
`controllers/authController.js`, `routes/auth.js`, `routes/stores.js`,
`client/src/utils/helpers.js`) -/

/-- The characters that the class `\s` of a JavaScript regular expression
matches: white space and line terminators.  `String.prototype.trim` strips the
same characters. -/
def isWhiteSpace (c : Char) : Bool :=
  [9, 10, 11, 12, 13, 32, 160, 5760, 8232, 8233, 8239, 8287, 12288, 65279].contains c.toNat
    || (8192 ≤ c.toNat && c.toNat ≤ 8202)

/-- The line terminators, which `.` of a regular expression does not match. -/
def isLineTerminator (c : Char) : Bool :=
  [10, 13, 8232, 8233].contains c.toNat

/-- The class `[A-Z]`. -/
def isUpper (c : Char) : Bool := 65 ≤ c.toNat && c.toNat ≤ 90

/-- The class `[a-zA-Z]`. -/
def isLetter (c : Char) : Bool := isUpper c || (97 ≤ c.toNat && c.toNat ≤ 122)

/-- The class of special characters that the three password
rules share, by code point: `! @ # $ % ^ & * ( ) , . ? " :`, the two braces,
`|`, `<` and `>`. -/
def isSpecialChar (c : Char) : Bool :=
  [33, 64, 35, 36, 37, 94, 38, 42, 40, 41, 44, 46, 63, 34, 58, 123, 125, 124, 60, 62].contains
    c.toNat

/-- The value of `str.length` in JavaScript: the number of UTF-16 code units. -/
def utf16Length (str : String) : Nat :=
  (str.toList.map (fun c => if c.toNat < 65536 then 1 else 2)).sum

/-- The method `trim()`, also the replacement `.replace(/^\s+|\s+$/g, '')`. -/
def trim (cs : List Char) : List Char :=
  ((cs.dropWhile isWhiteSpace).reverse.dropWhile isWhiteSpace).reverse

/-- The replacement `.replace(/\s+/g, ' ')`: every run of white space becomes
one space.  The flag tells that the character before was white space. -/
def collapseSpaces : Bool → List Char → List Char
  | _, [] => []
  | inRun, c :: cs =>
    if isWhiteSpace c then
      if inRun then collapseSpaces true cs else ' ' :: collapseSpaces true cs
    else c :: collapseSpaces false cs

/-- The function `sanitizeString` of `sanitizeInput`: trim, remove every `<`
and `>`, trim again, collapse runs of white space. -/
def sanitizeString (str : String) : String :=
  String.mk (collapseSpaces false
    (trim ((trim str.toList).filter (fun c => c != '<' && c != '>'))))

/-- The client's `validatePassword(password).isValid` for a string: no error
is pushed when the length is 8 to 16 and the two classes are met. -/
def validatePassword (password : String) : Bool :=
  !(password == "" || utf16Length password < 8) && !(16 < utf16Length password)
    && password.toList.any isUpper && password.toList.any isSpecialChar

/-- The rule of `name` in `userRegistrationSchema`:
`min(20).max(60).pattern(/^[a-zA-Z\s]+$/)`. -/
def joiName (name : String) : Bool :=
  20 ≤ utf16Length name && utf16Length name ≤ 60 && name != ""
    && name.toList.all (fun c => isLetter c || isWhiteSpace c)

/-- The rule of `password` in `userRegistrationSchema`: `min(8).max(16)` and
the pattern with the two lookaheads `(?=.*[A-Z])` and `(?=.*[...])`, each of
which searches the text before the first line terminator. -/
def joiPassword (password : String) : Bool :=
  8 ≤ utf16Length password && utf16Length password ≤ 16
    && (password.toList.takeWhile (fun c => !isLineTerminator c)).any isUpper
    && (password.toList.takeWhile (fun c => !isLineTerminator c)).any isSpecialChar

/-- The rule of `address` in `userRegistrationSchema`: optional; a string that
is present is not empty (`Joi.string()`) and has at most 400 code units. -/
def joiAddress : Option String → Bool
  | none => true
  | some a => a != "" && utf16Length a ≤ 400

/-- The role a string names, if any. -/
def Role.ofString (s : String) : Option Role :=
  if s = "admin" then some Role.admin
  else if s = "user" then some Role.user
  else if s = "store_owner" then some Role.store_owner
  else none

/-- The JSON body of `POST /auth/register`: each member is a string or absent. -/
structure RegisterBody where
  name : Option String
  email : Option String
  password : Option String
  address : Option String
  role : Option String
deriving DecidableEq, Repr

/-- The middleware `sanitizeInput` on a registration body: every string member
goes through `sanitizeString`. -/
def RegisterBody.sanitizeInput (body : RegisterBody) : RegisterBody :=
  ⟨body.name.map sanitizeString, body.email.map sanitizeString,
    body.password.map sanitizeString, body.address.map sanitizeString,
    body.role.map sanitizeString⟩

/-- The members `name, email, password, address, role` that `register` takes
out of `req.body`. -/
structure Registration where
  name : String
  email : String
  password : String
  address : Option String
  role : Option Role
deriving DecidableEq, Repr

/-- The schema check `userRegistrationSchema.validate`: the validated value, or
`none` when Joi reports an error.  `joiEmail` is the rule `Joi.string().email()`.
An absent `role` is filled in with the default `'user'`. -/
def userRegistrationSchema (joiEmail : String → Bool) (body : RegisterBody) :
    Option Registration :=
  match body.name, body.email, body.password with
  | some name, some email, some password =>
    if joiName name && (email != "" && joiEmail email) && joiPassword password
        && joiAddress body.address then
      match body.role with
      | none => some ⟨name, email, password, body.address, some Role.user⟩
      | some r => (Role.ofString r).map (fun role => ⟨name, email, password, body.address, some role⟩)
    else none
  | _, _, _ => none

/-- The validator `isAlpha` of the validator.js library with its default
locale, the expression `/^[A-Z]+$/i`: one or more letters and nothing else. -/
def isAlpha (str : String) : Bool :=
  str != "" && str.toList.all isLetter

/-- The validators `len: [20, 60]` and `isAlpha` of `User.name`. -/
def User.nameValid (name : String) : Bool :=
  validatorLen 20 60 name && isAlpha name

/-- The validators `len: [8, 16]` and `isStrongPassword` of `User.password`,
run on the password as given, before `beforeCreate` hashes it. -/
def User.passwordValid (password : String) : Bool :=
  validatorLen 8 16 password
    && password.toList.any isUpper && password.toList.any isSpecialChar

/-- The validator `len: [0, 400]` of `User.address` (not run on `null`). -/
def User.addressValid : Option String → Bool
  | none => true
  | some a => validatorLen 0 400 a

/-- The validation that `User.create` runs before the insert: the validators
of `name`, `email`, `password` and `address`.  `isEmail` is the `isEmail`
validator of validator.js. -/
def User.validate (isEmail : String → Bool) (name email password : String)
    (address : Option String) : Bool :=
  User.nameValid name && isEmail email && User.passwordValid password
    && User.addressValid address

/-- The `user` object in the data of a registration or login response. -/
structure AccountSummary where
  id : Nat
  name : String
  email : String
  address : Option String
  role : Role
deriving DecidableEq, Repr

/-- A response of the authentication routes: status, `success`, `message` and
the `user` of `data`.  The token in `data` is not represented. -/
structure AuthResponse where
  status : Nat
  success : Bool
  message : String
  user : Option AccountSummary
deriving DecidableEq, Repr

/-- The lookup `User.findOne` with `where: email`. -/
def User.findOne (db : Database) (email : String) : Option User :=
  db.users.find? (fun u => u.email == email)

/-- The controller `authController.register`, with `req.body = body`: the
lookup by email, then `User.create` (validation, `beforeCreate`, insert with
the next id of the sequence).  `hash` is what `bcrypt.hash` returns for the
password in `beforeCreate`. -/
def authController.register (isEmail : String → Bool) (hash : String → String) (db : Database)
    (body : Registration) : AuthResponse × Database :=
  if (User.findOne db body.email).isSome then
    (⟨409, false, "User with this email already exists.", none⟩, db)
  else if !User.validate isEmail body.name body.email body.password body.address then
    (⟨400, false, "Validation failed", none⟩, db)
  else
    let user : User := ⟨db.nextUserId, body.name, body.email, hash body.password, body.address,
      body.role.getD Role.user⟩
    (⟨201, true, "User registered successfully.",
        some ⟨user.id, user.name, user.email, user.address, user.role⟩⟩,
      { db with users := db.users ++ [user], nextUserId := db.nextUserId + 1 })

/-- The route `router.post('/register', authLimiter, sanitizeInput,
validate(userRegistrationSchema), authController.register)`, for a request
within the rate limits.  No middleware of the route reads a credential. -/
def postRegister (joiEmail isEmail : String → Bool) (hash : String → String) (db : Database)
    (body : RegisterBody) : AuthResponse × Database :=
  match userRegistrationSchema joiEmail body.sanitizeInput with
  | none => (⟨400, false, "Validation failed", none⟩, db)
  | some value => authController.register isEmail hash db value

/-- The controller `authController.login`, with `email` and `password` taken
out of `req.body`.  `compare candidate stored` is `bcrypt.compare`, as
`comparePassword` calls it. -/
def authController.login (compare : String → String → Bool) (db : Database)
    (email password : String) : AuthResponse :=
  match User.findOne db email with
  | none => ⟨401, false, "Invalid email or password.", none⟩
  | some user =>
    if !compare password user.password then ⟨401, false, "Invalid email or password.", none⟩
    else ⟨200, true, "Login successful.",
      some ⟨user.id, user.name, user.email, user.address, user.role⟩⟩

/-- The JSON body of `POST /auth/login`: each member is a string or absent. -/
structure LoginBody where
  email : Option String
  password : Option String
deriving DecidableEq, Repr

/-- The middleware `sanitizeInput` on a login body. -/
def LoginBody.sanitizeInput (body : LoginBody) : LoginBody :=
  ⟨body.email.map sanitizeString, body.password.map sanitizeString⟩

/-- The schema check `userLoginSchema.validate` on a sanitized body: both
members are required strings, not empty, and `email` meets `joiEmail`. -/
def userLoginSchema (joiEmail : String → Bool) (body : LoginBody) : Option (String × String) :=
  match body.email, body.password with
  | some email, some password =>
    if email != "" && joiEmail email && password != "" then some (email, password) else none
  | _, _ => none

/-- The route `router.post('/login', loginLimiter, sanitizeInput,
validate(userLoginSchema), authController.login)`, for a request within the
rate limits. -/
def postLogin (joiEmail : String → Bool) (compare : String → String → Bool) (db : Database)
    (body : LoginBody) : AuthResponse :=
  match userLoginSchema joiEmail body.sanitizeInput with
  | none => ⟨400, false, "Validation failed", none⟩
  | some (email, password) => authController.login compare db email password

/-- The value of a digit in `parseInt`: `0` to `9`, then the letters in either
case from 10 on. -/
def digitValue (c : Char) : Option Nat :=
  if 48 ≤ c.toNat ∧ c.toNat ≤ 57 then some (c.toNat - 48)
  else if 97 ≤ c.toNat ∧ c.toNat ≤ 122 then some (c.toNat - 87)
  else if 65 ≤ c.toNat ∧ c.toNat ≤ 90 then some (c.toNat - 55)
  else none

/-- The longest prefix of digits of the radix, as values. -/
def leadingDigits (radix : Nat) : List Char → List Nat
  | [] => []
  | c :: cs =>
    match digitValue c with
    | none => []
    | some d => if d < radix then d :: leadingDigits radix cs else []

/-- The JavaScript function `parseInt(string)` with no radix: leading white
space is skipped, a sign is read, a prefix `0x` or `0X` selects radix 16, and
the longest prefix of digits is the value; `none` stands for `NaN`.  The value
is the mathematical integer; `parseInt` rounds it to a double, which changes
nothing for the comparison `===` with an id below 2^53. -/
def parseInt (string : String) : Option Int :=
  let s := string.toList.dropWhile isWhiteSpace
  let negative := s.head? == some '-'
  let s := if s.head? == some '-' || s.head? == some '+' then s.tail else s
  let hex := match s with
    | '0' :: x :: _ => x == 'x' || x == 'X'
    | _ => false
  let radix := if hex then 16 else 10
  let digits := leadingDigits radix (if hex then s.drop 2 else s)
  if digits.isEmpty then none
  else
    let value : Int := digits.foldl (fun acc d => acc * radix + d) 0
    some (if negative then -value else value)

/-- The middleware `sanitizeInput` on the body of `PUT /stores/:id`. -/
def StoreUpdateBody.sanitizeInput (body : StoreUpdateBody) : StoreUpdateBody :=
  ⟨body.name.map sanitizeString, body.email.map sanitizeString,
    body.address.map (Option.map sanitizeString)⟩

/-- The route `router.put('/:id', authenticate, requireUserOrStoreOwner,
sanitizeInput, storeController.updateStore)`, for a request within the rate
limits. -/
def putStoresId (isEmail : String → Bool) (db : Database) (cred : Credential) (id : Nat)
    (body : StoreUpdateBody) : Response × Database :=
  match authenticate db cred with
  | .error res => (res, db)
  | .ok user =>
    match requireUserOrStoreOwner (some user) with
    | .error res => (res, db)
    | .ok _ => storeController.updateStore isEmail db user id body.sanitizeInput

/-- The two databases differ at most in the rating rows of store `t` and in
the two aggregate fields of store `t`: the users are the same, the rating rows
of the other stores are the same, and the stores are the same once the
aggregate of store `t` is left out. -/
def LocalTo (t : Nat) (db db' : Database) : Prop :=
  db'.users = db.users ∧
    db'.ratings.filter (fun r => r.store_id != t) = db.ratings.filter (fun r => r.store_id != t) ∧
    db'.stores.map (fun s =>
        if s.id = t then { s with average_rating := 0, total_ratings := 0 } else s) =
      db.stores.map (fun s =>
        if s.id = t then { s with average_rating := 0, total_ratings := 0 } else s)

instance (t : Nat) (db db' : Database) : Decidable (LocalTo t db db') := by
  unfold LocalTo; infer_instance

/-! ## Example requests -/

/-- A registration whose name has letters and spaces. -/
def doraBody : RegisterBody :=
  ⟨some "Dora Dalton Of Dorchester", some "dora@example.com", some "Dora#2024", none, none⟩

/-- A registration whose name has letters only and which asks for the role
`admin`. -/
def eveBody : RegisterBody :=
  ⟨some "EvelynEverettOfEvesham", some "eve@example.com", some "Eve#2024!", none, some "admin"⟩

/-- A registration that asks for the role `admin` under the email of `alice`. -/
def takenBody : RegisterBody :=
  ⟨some "AliceAndersonOfAvalon", some "alice@example.com", some "Alice#2024", none, some "admin"⟩

/-- A stand-in for `bcrypt.hash`. -/
def hash0 (password : String) : String := "bcrypt:" ++ password

/-- A stand-in for `bcrypt.compare`: the stored string is the candidate. -/
def compare0 (candidate stored : String) : Bool := candidate == stored

/-- Two stores with one rating each: `alice` rated `shop` 5 and `bob` rated the
second store, owned by `carol`, 3. -/
def twoShops : Database :=
  ⟨[admin0, owner0, alice, bob, carol],
    [{ shop with average_rating := 500, total_ratings := 1 },
      ⟨2, "The Second Hand Record Shop", "records@example.com", none, 5, 300, 1⟩],
    [⟨1, 3, 1, 5, 10, 10⟩, ⟨2, 4, 2, 3, 20, 20⟩], 6, 3, 3, 50⟩

/-! ## Arithmetic of the recomputation -/

/-- The rounded quotient is within one half of the exact quotient. -/
theorem roundNearestEven_bounds (a b : Nat) (hb : 0 < b) :
    2 * (roundNearestEven a b * b) ≤ 2 * a + b ∧ 2 * a ≤ 2 * (roundNearestEven a b * b) + b := by
  have h1 : b * (a / b) + a % b = a := Nat.div_add_mod a b
  have h2 : a % b < b := Nat.mod_lt a hb
  have h3 : (a / b + 1) * b = b * (a / b) + b := by ring
  have h4 : a / b * b = b * (a / b) := by ring
  unfold roundNearestEven
  simp only
  split_ifs <;> simp only [h3, h4] <;> omega

/-- The shape of `toFixed2 (fdiv s n)` for a quotient of binary exponent `e`. -/
theorem toFixed2_fdiv_eq (s n e : Nat) (hn : 0 < n) (hs : n ≤ s) (he : ilog2 (s / n) = e)
    (he52 : e < 52) :
    toFixed2 (fdiv s n) =
      (200 * roundNearestEven (s * 2 ^ (52 - e)) n + 2 ^ (52 - e)) / (2 * 2 ^ (52 - e)) := by
  have hs0 : s ≠ 0 := by omega
  have hn0 : n ≠ 0 := by omega
  have h1 : ((52 : Int) - (e : Int)).toNat = 52 - e := by omega
  have h2 : (-((e : Int) - 52)).toNat = 52 - e := by omega
  have h3 : ¬ (0 ≤ (e : Int) - 52) := by omega
  unfold fdiv binExp
  simp only [hs0, hn0, or_self, if_false, hs, if_true, he]
  have h4 : (e : Int) ≤ 52 := by omega
  simp only [h4, if_true, toFixed2, h1, h2]
  simp only [h3, if_false]

/-- Quotients from 1 to 5 have binary exponent at most 2. -/
theorem ilog2_small (q : Nat) (h1 : 1 ≤ q) (h5 : q ≤ 5) :
    ilog2 q ≤ 2 := by
  interval_cases q <;> decide

/-- For a quotient between 1 and 5, `toFixed2 (fdiv s n)` is within half a
hundredth of the exact quotient. -/
theorem toFixed2_fdiv_near (s n : Nat) (hn : 0 < n) (hlo : n ≤ s) (hhi : s ≤ 5 * n)
    (hsize : n < 2 ^ 40) :
    2 * (toFixed2 (fdiv s n) * n) ≤ 200 * s + n ∧ 200 * s ≤ 2 * (toFixed2 (fdiv s n) * n) + n := by
  have hq1 : 1 ≤ s / n := (Nat.one_le_div_iff hn).2 hlo
  have hq5 : s / n ≤ 5 := by
    apply Nat.div_le_of_le_mul; simpa [Nat.mul_comm] using hhi
  have he := ilog2_small (s / n) hq1 hq5
  obtain ⟨e, hee⟩ : ∃ e, ilog2 (s / n) = e := ⟨_, rfl⟩
  rw [hee] at he
  rw [toFixed2_fdiv_eq s n e hn hlo hee (by omega)]
  obtain ⟨k, hk⟩ : ∃ k, 52 - e = k := ⟨_, rfl⟩
  have hk50 : 50 ≤ k := by omega
  rw [hk]
  generalize hD : 2 ^ k = D
  have hDge : 2 ^ 50 ≤ D := by
    rw [← hD]; exact Nat.pow_le_pow_right (by norm_num) hk50
  obtain ⟨hm1, hm2⟩ := roundNearestEven_bounds (s * D) n hn
  generalize roundNearestEven (s * D) n = m at hm1 hm2 ⊢
  have hDpos : 0 < 2 * D := by omega
  generalize hN : (200 * m + D) / (2 * D) = N
  have hN1 : 2 * D * N ≤ 200 * m + D := by
    rw [← hN]; exact Nat.mul_div_le _ _
  have hN2 : 200 * m + D < 2 * D * N + 2 * D := by
    rw [← hN]
    have := Nat.lt_mul_div_succ (200 * m + D) hDpos
    linarith
  -- multiply the floor bounds by n
  have hN1n : 2 * D * N * n ≤ (200 * m + D) * n := Nat.mul_le_mul_right n hN1
  have hN2n : (200 * m + D) * n < (2 * D * N + 2 * D) * n := Nat.mul_lt_mul_of_pos_right hN2 hn
  have hsz : n < 2 ^ 40 := hsize
  constructor
  · by_contra hc
    have hc' : 200 * s + n + 1 ≤ 2 * (N * n) := by omega
    have := Nat.mul_le_mul_left D hc'
    nlinarith
  · by_contra hc
    have hc' : 2 * (N * n) + n + 1 ≤ 200 * s := by omega
    have := Nat.mul_le_mul_left D hc'
    nlinarith

/-- Two known doubles: `1 / 10` is `0x3FB999999999999A` and `1 / 3` is
`0x3FD5555555555555`. -/
theorem fdiv_known_values :
    fdiv 1 10 = ⟨0x1999999999999A, -56⟩ ∧ fdiv 1 3 = ⟨0x15555555555555, -54⟩ := by
  decide

/-- The `reduce` of `updateRatingStats` is the sum of the values. -/
theorem foldl_add_eq_sum (vs : List Nat) (a : Nat) :
    vs.foldl (fun acc rating => acc + rating) a = a + vs.sum := by
  induction vs generalizing a with
  | nil => simp
  | cons v vs ih => simp [ih, Nat.add_assoc]

/-- The sum of values from 1 to 5 lies between the count and five times the count. -/
theorem sum_bounds (vs : List Nat) (h : ∀ v ∈ vs, 1 ≤ v ∧ v ≤ 5) :
    vs.length ≤ vs.sum ∧ vs.sum ≤ 5 * vs.length := by
  induction vs with
  | nil => simp
  | cons v vs ih =>
    have hv := h v (List.mem_cons_self v vs)
    have := ih (fun w hw => h w (List.mem_cons_of_mem v hw))
    simp only [List.length_cons, List.sum_cons]
    omega

/-- The predicate `IsMean2` says that `avg / 100` is within `1 / 200` of the
exact mean. -/
theorem isMean2_iff_abs (avg : Nat) (vs : List Nat) (hne : vs.length ≠ 0) :
    IsMean2 avg vs ↔ |(avg : ℚ) / 100 - (vs.sum : ℚ) / (vs.length : ℚ)| ≤ 1 / 200 := by
  have hpos : (0 : ℚ) < (vs.length : ℚ) := by
    exact_mod_cast Nat.pos_of_ne_zero hne
  unfold IsMean2
  rw [abs_le, div_sub_div _ _ (by norm_num : (100 : ℚ) ≠ 0) (ne_of_gt hpos),
    le_div_iff₀ (by positivity), div_le_iff₀ (by positivity)]
  constructor
  · rintro ⟨h1, h2⟩
    have h1' : (2 : ℚ) * (avg * vs.length) ≤ 200 * vs.sum + vs.length := by exact_mod_cast h1
    have h2' : (200 : ℚ) * vs.sum ≤ 2 * (avg * vs.length) + vs.length := by exact_mod_cast h2
    constructor <;> nlinarith
  · rintro ⟨h1, h2⟩
    constructor
    · have : (2 : ℚ) * (avg * vs.length) ≤ 200 * vs.sum + vs.length := by nlinarith
      exact_mod_cast this
    · have : (200 : ℚ) * vs.sum ≤ 2 * (avg * vs.length) + vs.length := by nlinarith
      exact_mod_cast this

/-- The function `roundHalfUp2` is the floor of `100 * sum / count + 1 / 2`. -/
theorem roundHalfUp2_eq_floor (sum count : Nat) (hc : 0 < count) :
    roundHalfUp2 sum count = ⌊(100 : ℚ) * sum / count + 1 / 2⌋₊ := by
  have hpos : (0 : ℚ) < (count : ℚ) := by exact_mod_cast hc
  have : (100 : ℚ) * sum / count + 1 / 2 = ((200 * sum + count : ℕ) : ℚ) / ((2 * count : ℕ) : ℚ) := by
    push_cast
    field_simp
    ring
  rw [this, Nat.floor_div_eq_div]
  rfl

/-- The two values `updateRatingStats` computes, for valid rating values. -/
theorem ratingStats_spec (vs : List Nat) (h : ∀ v ∈ vs, 1 ≤ v ∧ v ≤ 5) (hsize : vs.length < 2 ^ 40) :
    (ratingStats vs).2 = vs.length ∧
      (vs.length = 0 → (ratingStats vs).1 = 0) ∧
      (vs.length ≠ 0 → IsMean2 (ratingStats vs).1 vs) ∧
      (ratingStats vs).1 ≤ 500 := by
  by_cases h0 : vs.length = 0
  · simp [ratingStats, h0]
  · obtain ⟨hlo, hhi⟩ := sum_bounds vs h
    have hpos : 0 < vs.length := Nat.pos_of_ne_zero h0
    have hnear := toFixed2_fdiv_near vs.sum vs.length hpos hlo hhi hsize
    have hst : ratingStats vs = (toFixed2 (fdiv vs.sum vs.length), vs.length) := by
      simp [ratingStats, h0, foldl_add_eq_sum]
    rw [hst]
    refine ⟨rfl, fun h => absurd h h0, fun _ => hnear, ?_⟩
    simp only
    by_contra hc
    have h501 : 501 * vs.length ≤ toFixed2 (fdiv vs.sum vs.length) * vs.length :=
      Nat.mul_le_mul_right _ (by omega)
    omega

/-- A value within half a hundredth of the mean is the half-up rounding of the
mean, or the hundredth below it when the mean is an exact tie. -/
theorem isMean2_halfUp (avg : Nat) (vs : List Nat) (hne : vs.length ≠ 0) (h : IsMean2 avg vs) :
    avg = roundHalfUp2 vs.sum vs.length ∨
      (IsTie2 vs.sum vs.length ∧ avg + 1 = roundHalfUp2 vs.sum vs.length) := by
  obtain ⟨h1, h2⟩ := h
  have hn : 0 < vs.length := Nat.pos_of_ne_zero hne
  have h2n : 0 < 2 * vs.length := by omega
  unfold roundHalfUp2 IsTie2
  generalize vs.sum = s at *
  generalize vs.length = n at *
  generalize hH : (200 * s + n) / (2 * n) = H
  have hH1 : 2 * (H * n) ≤ 200 * s + n := by
    have := Nat.div_mul_le_self (200 * s + n) (2 * n)
    rw [hH] at this
    calc 2 * (H * n) = H * (2 * n) := by ring
      _ ≤ 200 * s + n := this
  have hH2 : 200 * s + n < 2 * (H * n) + 2 * n := by
    have := Nat.lt_mul_div_succ (200 * s + n) h2n
    rw [hH] at this
    calc 200 * s + n < 2 * n * (H + 1) := this
      _ = 2 * (H * n) + 2 * n := by ring
  have hle : avg ≤ H := by
    by_contra hc
    have : (H + 1) * n ≤ avg * n := Nat.mul_le_mul_right n (by omega)
    have e : (H + 1) * n = H * n + n := by ring
    omega
  have hge : H ≤ avg + 1 := by
    by_contra hc
    have : (avg + 2) * n ≤ H * n := Nat.mul_le_mul_right n (by omega)
    have e : (avg + 2) * n = avg * n + 2 * n := by ring
    omega
  rcases Nat.lt_or_ge avg H with hlt | hge'
  · right
    have hHeq : H = avg + 1 := by omega
    subst hHeq
    have e : (avg + 1) * n = avg * n + n := by ring
    refine ⟨?_, rfl⟩
    have hs : 200 * s = n + 2 * n * avg := by
      have e2 : 2 * n * avg = 2 * (avg * n) := by ring
      omega
    rw [hs, Nat.add_mul_mod_self_left]
    exact Nat.mod_eq_of_lt (by omega)
  · left
    omega

/-- The values of a store's rows are valid when every row is. -/
theorem findAll_valid (db : Database) (hv : ValidRatings db) (t : Nat) :
    ∀ v ∈ Rating.findAll db t, 1 ≤ v ∧ v ≤ 5 := by
  intro v hvmem
  simp only [Rating.findAll, List.mem_map, List.mem_filter] at hvmem
  obtain ⟨r, ⟨hr, -⟩, rfl⟩ := hvmem
  exact hv r hr

/-- A store has no more rows than the table. -/
theorem findAll_length_le (db : Database) (t : Nat) :
    (Rating.findAll db t).length ≤ db.ratings.length := by
  simp only [Rating.findAll, List.length_map]
  exact List.length_filter_le _ _

/-- The store found by primary key has that key. -/
theorem findByPk_id (db : Database) (t : Nat) (S : Store) (h : Store.findByPk db t = some S) :
    S.id = t := by
  have := List.find?_some h
  simpa using this

/-- The store found by primary key is a row of the table. -/
theorem findByPk_mem (db : Database) (t : Nat) (S : Store) (h : Store.findByPk db t = some S) :
    S ∈ db.stores := List.mem_of_find?_eq_some h

/-! ## The recomputation and the validators of the aggregate -/

/-- The validator `min` of `average_rating` and `total_ratings` refuses every
value, since its threshold is the options object. -/
theorem store_validators_refuse (value : Nat) :
    Store.averageRatingValid value = false ∧ Store.totalRatingsValid value = false := by
  simp [Store.averageRatingValid, Store.totalRatingsValid, extractValidatorArgs, validatorMin]

/-- The method `updateRatingStats` returns the instance as it was when the
rows give the stored aggregate, and fails otherwise; it never writes. -/
theorem updateRatingStats_eq (db : Database) (S : Store) :
    Store.updateRatingStats db S =
      if Rating.findAll db S.id ≠ [] ∧
          ratingStats (Rating.findAll db S.id) = (S.average_rating, S.total_ratings) then
        (.ok S, db)
      else (.error .validation, db) := by
  unfold Store.updateRatingStats
  simp only [(store_validators_refuse _).1, (store_validators_refuse _).2]
  by_cases hne : Rating.findAll db S.id = []
  · simp [hne]
  · have hlen : (Rating.findAll db S.id).length ≠ 0 := by
      simpa [List.length_eq_zero] using hne
    by_cases h1 : (ratingStats (Rating.findAll db S.id)).1 = S.average_rating
    · by_cases h2 : (ratingStats (Rating.findAll db S.id)).2 = S.total_ratings
      · have : ratingStats (Rating.findAll db S.id) = (S.average_rating, S.total_ratings) :=
          Prod.ext h1 h2
        simp [hne, hlen, h1, h2, this]
      · have : ratingStats (Rating.findAll db S.id) ≠ (S.average_rating, S.total_ratings) :=
          fun h => h2 (by rw [h])
        simp [hne, hlen, h1, h2, this]
    · have : ratingStats (Rating.findAll db S.id) ≠ (S.average_rating, S.total_ratings) :=
        fun h => h1 (by rw [h])
      simp [hne, hlen, h1, this]

/-- The method `updateRatingStats` leaves the database as it was. -/
theorem updateRatingStats_db (db : Database) (S : Store) :
    (Store.updateRatingStats db S).2 = db := by
  rw [updateRatingStats_eq]
  split_ifs <;> rfl

/-- C2. The recomputation does not do what its name says: `updateRatingStats`
never changes the database; whenever the store has no rows, or its rows give
another average or count than the stored ones, `save()` is refused by the
validator `min` and the call fails, and when the rows give the stored values
it returns the store as it was.  So the outcome depends on the aggregate
stored before: on the rows 5 and 3 the call fails with `0.00` and `0` stored
and returns with `4.00` and `2` stored. -/
theorem updateRatingStats_rejects_change :
    (∀ (db : Database) (this : Store), (Store.updateRatingStats db this).2 = db) ∧
    (∀ (db : Database) (this : Store),
      (Rating.findAll db this.id = [] ∨
          ratingStats (Rating.findAll db this.id) ≠ (this.average_rating, this.total_ratings)) →
        (Store.updateRatingStats db this).1 = .error .validation) ∧
    (∀ (db : Database) (this : Store),
      Rating.findAll db this.id ≠ [] →
        ratingStats (Rating.findAll db this.id) = (this.average_rating, this.total_ratings) →
        (Store.updateRatingStats db this).1 = .ok this) ∧
    Rating.findAll staleDb shop.id = [5, 3] ∧
    Rating.findAll db2 shop2.id = [5, 3] ∧
    ratingStats [5, 3] = (400, 2) ∧
    Store.findByPk staleDb 1 = some shop ∧
    Store.updateRatingStats staleDb shop = (.error .validation, staleDb) ∧
    Store.findByPk db2 1 = some shop2 ∧
    Store.updateRatingStats db2 shop2 = (.ok shop2, db2) ∧
    Store.findByPk db0 1 = some shop ∧
    Rating.findAll db0 shop.id = [] ∧
    Store.updateRatingStats db0 shop = (.error .validation, db0) := by
  refine ⟨updateRatingStats_db, ?_, ?_, by decide, by decide, by decide, by decide, by decide,
    by decide, by decide, by decide, by decide, by decide⟩
  · intro db this h
    rw [updateRatingStats_eq]
    rcases h with h | h
    · simp [h]
    · simp [h]
  · intro db this hne h
    rw [updateRatingStats_eq]
    simp [hne, h]

/-- C3, as amended. For every non-empty collection of ratings with values in
[1,5], the `average_rating` that `updateRatingStats` computes with `toFixed(2)`
and assigns lies within half a hundredth of the exact mean; it equals the mean
rounded to two decimals half-up, except that at an exact tie (third decimal
digit 5 and nothing after it) it may be the hundredth below.  It is the value
the store holds whenever the call returns. -/
theorem updateRatingStats_average_rounding (db : Database) (this : Store)
    (hvalid : ∀ v ∈ Rating.findAll db this.id, 1 ≤ v ∧ v ≤ 5)
    (hne : Rating.findAll db this.id ≠ [])
    (hsize : (Rating.findAll db this.id).length < 2 ^ 31) :
    IsMean2 (ratingStats (Rating.findAll db this.id)).1 (Rating.findAll db this.id) ∧
      ((ratingStats (Rating.findAll db this.id)).1 =
          roundHalfUp2 (Rating.findAll db this.id).sum (Rating.findAll db this.id).length ∨
        (IsTie2 (Rating.findAll db this.id).sum (Rating.findAll db this.id).length ∧
          (ratingStats (Rating.findAll db this.id)).1 + 1 =
            roundHalfUp2 (Rating.findAll db this.id).sum (Rating.findAll db this.id).length)) ∧
      (∀ S : Store, (Store.updateRatingStats db this).1 = .ok S →
        S.average_rating = (ratingStats (Rating.findAll db this.id)).1) := by
  have hsize' : (Rating.findAll db this.id).length < 2 ^ 40 := by
    have : (2 : Nat) ^ 31 ≤ 2 ^ 40 := by norm_num
    omega
  have hlen : (Rating.findAll db this.id).length ≠ 0 := by
    simpa [List.length_eq_zero] using hne
  have hmean := (ratingStats_spec _ hvalid hsize').2.2.1 hlen
  refine ⟨hmean, isMean2_halfUp _ _ hlen hmean, ?_⟩
  intro S hS
  rw [updateRatingStats_eq] at hS
  split_ifs at hS with h
  cases hS
  rw [h.2]

set_option maxRecDepth 100000 in
/-- C3 fails as stated: forty valid ratings of sum 41 have exact mean 1.025,
which half-up rounding takes to 1.03, but `updateRatingStats` computes 1.02,
and a store that holds 1.02 for these rows is returned unchanged; two hundred
ratings of sum 201 (mean 1.005) give 1.00, not 1.01.  Eight ratings of sum 9
(mean 1.125, an exact double) do give 1.13. -/
theorem updateRatingStats_tie_not_half_up :
    (∀ v ∈ Rating.findAll tieDb102 tieStore102.id, 1 ≤ v ∧ v ≤ 5) ∧
    (Rating.findAll tieDb102 tieStore102.id).sum = 41 ∧
    (Rating.findAll tieDb102 tieStore102.id).length = 40 ∧
    (ratingStats (Rating.findAll tieDb102 tieStore102.id)).1 = 102 ∧
    Store.findByPk tieDb102 1 = some tieStore102 ∧
    Store.updateRatingStats tieDb102 tieStore102 = (.ok tieStore102, tieDb102) ∧
    tieStore102.average_rating = 102 ∧
    roundHalfUp2 41 40 = 103 ∧
    (ratingStats (2 :: List.replicate 199 1)).1 = 100 ∧ roundHalfUp2 201 200 = 101 ∧
    (ratingStats (2 :: List.replicate 7 1)).1 = 113 ∧ roundHalfUp2 9 8 = 113 := by
  decide

set_option maxRecDepth 100000 in
/-- The forty rows of `tieDb102`, whose mean is an exact tie: the computed
value is 1.02, one hundredth below the half-up rounding. -/
theorem updateRatingStats_average_rounding_witness :
    (∀ v ∈ Rating.findAll tieDb102 tieStore102.id, 1 ≤ v ∧ v ≤ 5) ∧
    Rating.findAll tieDb102 tieStore102.id ≠ [] ∧
    (Rating.findAll tieDb102 tieStore102.id).length < 2 ^ 31 ∧
    (IsMean2 (ratingStats (Rating.findAll tieDb102 tieStore102.id)).1
        (Rating.findAll tieDb102 tieStore102.id) ∧
      ((ratingStats (Rating.findAll tieDb102 tieStore102.id)).1 =
          roundHalfUp2 (Rating.findAll tieDb102 tieStore102.id).sum
            (Rating.findAll tieDb102 tieStore102.id).length ∨
        (IsTie2 (Rating.findAll tieDb102 tieStore102.id).sum
            (Rating.findAll tieDb102 tieStore102.id).length ∧
          (ratingStats (Rating.findAll tieDb102 tieStore102.id)).1 + 1 =
            roundHalfUp2 (Rating.findAll tieDb102 tieStore102.id).sum
              (Rating.findAll tieDb102 tieStore102.id).length)) ∧
      (∀ S : Store, (Store.updateRatingStats tieDb102 tieStore102).1 = .ok S →
        S.average_rating = (ratingStats (Rating.findAll tieDb102 tieStore102.id)).1)) ∧
    (Store.updateRatingStats tieDb102 tieStore102).1 = .ok tieStore102 :=
  ⟨by decide, by decide, by decide,
    updateRatingStats_average_rounding tieDb102 tieStore102 (by decide) (by decide) (by decide),
    by decide⟩

/-- C21. For rating values in [1,5] the recomputed values do lie in the range
of the columns (`total_ratings` is the number of rows, `average_rating` is
`0.00` without rows and between `1.00` and `5.00` with rows), and yet the
validators of the Store model refuse them: the validator `min` with `args: 0`
refuses every value it is run on, so `updateRatingStats` fails whenever the
average or the count changed, as on `db0` for the store without rows and on
`staleDb` for the rows 5 and 3. -/
theorem updateRatingStats_validators_reject :
    (∀ vs : List Nat, (∀ v ∈ vs, 1 ≤ v ∧ v ≤ 5) → vs.length < 2 ^ 31 →
      (ratingStats vs).2 = vs.length ∧ (ratingStats vs).1 ≤ 500 ∧
        (vs = [] → (ratingStats vs).1 = 0) ∧ (vs ≠ [] → 100 ≤ (ratingStats vs).1)) ∧
    (∀ value : Nat,
      Store.averageRatingValid value = false ∧ Store.totalRatingsValid value = false) ∧
    (∀ (db : Database) (this : Store),
      ratingStats (Rating.findAll db this.id) ≠ (this.average_rating, this.total_ratings) →
        Store.updateRatingStats db this = (.error .validation, db)) ∧
    (∀ v ∈ Rating.findAll db0 shop.id, 1 ≤ v ∧ v ≤ 5) ∧
    ratingStats (Rating.findAll db0 shop.id) = (0, 0) ∧
    Store.updateRatingStats db0 shop = (.error .validation, db0) ∧
    (∀ v ∈ Rating.findAll staleDb shop.id, 1 ≤ v ∧ v ≤ 5) ∧
    ratingStats (Rating.findAll staleDb shop.id) = (400, 2) ∧
    Store.updateRatingStats staleDb shop = (.error .validation, staleDb) := by
  refine ⟨?_, store_validators_refuse, ?_, by decide, by decide, by decide, by decide,
    by decide, by decide⟩
  · intro vs hvalid hsize
    have hsize' : vs.length < 2 ^ 40 := lt_trans hsize (by norm_num)
    obtain ⟨hcount, hzero, hmean, h500⟩ := ratingStats_spec vs hvalid hsize'
    refine ⟨hcount, h500, ?_, ?_⟩
    · intro hnil
      exact hzero (by rw [hnil]; rfl)
    · intro hne
      have hlen : vs.length ≠ 0 := fun h0 => hne (List.length_eq_zero.mp h0)
      obtain ⟨-, hhi⟩ := hmean hlen
      obtain ⟨hlo, -⟩ := sum_bounds _ hvalid
      by_contra hlt
      have h99 : (ratingStats vs).1 ≤ 99 := by omega
      have := Nat.mul_le_mul_right vs.length h99
      omega
  · intro db this h
    rw [updateRatingStats_eq]
    simp [h]

/-! ## What each call can change -/

/-- Rows with distinct primary keys: a row is determined by its id. -/
theorem eq_of_id_eq (db : Database) (hpk : RatingKeysDistinct db) (r r' : Rating)
    (hr : r ∈ db.ratings) (hr' : r' ∈ db.ratings) (h : r.id = r'.id) : r = r' :=
  List.inj_on_of_nodup_map hpk hr hr' h

/-- The row `Rating.findOne` returns is a row of the table, of that user and store. -/
theorem findOne_some (db : Database) (u t : Nat) (e : Rating) (h : Rating.findOne db u t = some e) :
    e ∈ db.ratings ∧ e.user_id = u ∧ e.store_id = t := by
  have h1 := List.mem_of_find?_eq_some h
  have h2 := List.find?_some h
  simp only [Bool.and_eq_true, beq_iff_eq] at h2
  exact ⟨h1, h2.1, h2.2⟩

/-- The row `Rating.findByPk` returns is a row of the table with that id. -/
theorem ratingFindByPk_some (db : Database) (id : Nat) (r : Rating)
    (h : Rating.findByPk db id = some r) : r ∈ db.ratings ∧ r.id = id := by
  have h1 := List.mem_of_find?_eq_some h
  have h2 := List.find?_some h
  simp only [beq_iff_eq] at h2
  exact ⟨h1, h2⟩

/-- The method `updateRatingStats` leaves the database or overwrites one aggregate. -/
theorem updateRatingStats_effect (db : Database) (S : Store) :
    AfterHook db (Store.updateRatingStats db S).2 :=
  Or.inl (updateRatingStats_db db S)

/-- A rating hook leaves the database or overwrites one aggregate. -/
theorem hook_effect (db : Database) (r : Rating) : AfterHook db (Rating.afterCreate db r).2 := by
  unfold Rating.afterCreate
  cases h : Store.findByPk db r.store_id with
  | none => exact Or.inl rfl
  | some S => exact updateRatingStats_effect db S

/-- What `Rating.create` does to the database. -/
theorem create_effect (db : Database) (u t : Nat) (v : Int) :
    (Rating.create db u t v).2 = db ∨
      (1 ≤ v ∧ v ≤ 5 ∧ AfterHook (db.insertRating u t v.toNat) (Rating.create db u t v).2) := by
  unfold Rating.create
  by_cases hbad : v < 1 ∨ 5 < v
  · rw [if_pos hbad]; exact Or.inl rfl
  · rw [if_neg hbad]
    exact Or.inr ⟨by omega, by omega, hook_effect _ _⟩

/-- What `Rating.save` does to the database. -/
theorem save_effect (db : Database) (e : Rating) (v : Int) :
    (Rating.save db e v).2 = db ∨
      (1 ≤ v ∧ v ≤ 5 ∧ AfterHook (db.setRating e.id v.toNat) (Rating.save db e v).2) := by
  unfold Rating.save
  by_cases hsame : (e.rating : Int) = v
  · rw [if_pos hsame]; exact Or.inl rfl
  · rw [if_neg hsame]
    by_cases hbad : v < 1 ∨ 5 < v
    · rw [if_pos hbad]; exact Or.inl rfl
    · rw [if_neg hbad]
      exact Or.inr ⟨by omega, by omega, hook_effect _ _⟩

/-- What `Rating.destroy` does to the database. -/
theorem destroy_effect (db : Database) (r : Rating) :
    AfterHook (db.deleteRating r.id) (Rating.destroy db r).2 :=
  hook_effect (db.deleteRating r.id) r

/-- What `submitRating` does to the database: nothing, or an insert of a row
for a store that exists and that the caller does not own, when the caller had
no row for it, or an update of the caller's row; then the hook. -/
theorem submitRating_effect (db : Database) (user : User) (t : Nat) (v : Int) :
    (ratingController.submitRating db user t v).2 = db ∨
      (∃ S, Store.findByPk db t = some S ∧ S.owner_id ≠ user.id ∧
        Rating.findOne db user.id t = none ∧ 1 ≤ v ∧ v ≤ 5 ∧
        AfterHook (db.insertRating user.id t v.toNat)
          (ratingController.submitRating db user t v).2) ∨
      (∃ e, Rating.findOne db user.id t = some e ∧ 1 ≤ v ∧ v ≤ 5 ∧
        AfterHook (db.setRating e.id v.toNat) (ratingController.submitRating db user t v).2) := by
  unfold ratingController.submitRating
  cases hS : Store.findByPk db t with
  | none => exact Or.inl rfl
  | some S =>
    simp only
    by_cases hown : S.owner_id = user.id
    · rw [if_pos hown]; exact Or.inl rfl
    · rw [if_neg hown]
      cases hex : Rating.findOne db user.id t with
      | none =>
        rcases create_effect db user.id t v with h | ⟨h1, h5, h⟩
        · exact Or.inl h
        · exact Or.inr (Or.inl ⟨S, rfl, hown, rfl, h1, h5, h⟩)
      | some e =>
        rcases save_effect db e v with h | ⟨h1, h5, h⟩
        · exact Or.inl h
        · exact Or.inr (Or.inr ⟨e, rfl, h1, h5, h⟩)

/-- The rating that the parameter of `deleteRating` identifies. -/
theorem findByParam_some (db : Database) (id : IdParam) (r : Rating)
    (h : Rating.findByParam db id = .ok (some r)) :
    r ∈ db.ratings ∧ id.pk = some (r.id : Int) := by
  unfold Rating.findByParam at h
  cases hpk : id.pk with
  | none => simp [hpk] at h
  | some k =>
    simp only [hpk, Except.ok.injEq] at h
    by_cases hk : k < 0
    · simp [hk] at h
    · simp only [hk, if_false] at h
      obtain ⟨hmem, hid⟩ := ratingFindByPk_some db k.toNat r h
      refine ⟨hmem, ?_⟩
      rw [hid]
      congr 1
      omega

/-- What `deleteRating` does to the database: nothing, or the deletion of the
rows with the id of a row of the table; then the hook. -/
theorem deleteRating_effect (db : Database) (user : User) (id : IdParam) :
    (ratingController.deleteRating db user id).2 = db ∨
      ∃ r ∈ db.ratings, Rating.findByParam db id = .ok (some r) ∧
        AfterHook (db.deleteRating r.id) (ratingController.deleteRating db user id).2 := by
  unfold ratingController.deleteRating
  cases hr : Rating.findByParam db id with
  | error e => exact Or.inl rfl
  | ok found =>
    cases found with
    | none => exact Or.inl rfl
    | some r =>
      obtain ⟨hmem, -⟩ := findByParam_some db id r hr
      simp only
      by_cases hden : user.role ≠ Role.admin ∧ r.user_id ≠ user.id
      · rw [if_pos hden]; exact Or.inl rfl
      · rw [if_neg hden]
        exact Or.inr ⟨r, hmem, rfl, destroy_effect db r⟩

/-- What `createStore` does to the database: nothing, or one new store with no
ratings recorded, appended with the next id of the sequence. -/
theorem createStore_effect (isEmail : String → Bool) (db : Database) (body : StoreBody) :
    (storeController.createStore isEmail db body).2 = db ∨
      ∃ S : Store, (storeController.createStore isEmail db body).2 =
        { db with stores := db.stores ++ [S], nextStoreId := db.nextStoreId + 1 } := by
  unfold storeController.createStore
  cases User.findByPk db body.owner_id with
  | none => exact Or.inl rfl
  | some owner =>
    simp only
    split_ifs <;> first | exact Or.inl rfl | exact Or.inr ⟨_, rfl⟩

/-- What `updateStore` does to the database: nothing, or new `name`, `email`
and `address` for the rows with the given id. -/
theorem updateStore_effect (isEmail : String → Bool) (db : Database) (user : User) (id : Nat)
    (body : StoreUpdateBody) :
    (storeController.updateStore isEmail db user id body).2 = db ∨
      ∃ (i : Nat) (name email : String) (address : Option String),
        (storeController.updateStore isEmail db user id body).2 =
          { db with stores := db.stores.map (fun s =>
              if s.id = i then { s with name := name, email := email, address := address }
              else s) } := by
  unfold storeController.updateStore
  cases Store.findByPk db id with
  | none => exact Or.inl rfl
  | some store =>
    simp only
    split_ifs <;> first | exact Or.inl rfl | exact Or.inr ⟨_, _, _, _, rfl⟩

/-- A hook does not touch the rating rows. -/
theorem afterHook_ratings (X db' : Database) (h : AfterHook X db') : db'.ratings = X.ratings := by
  rcases h with rfl | ⟨_, _, _, rfl⟩ <;> rfl

/-- No row is found for a pair exactly when the pair has no rows. -/
theorem findOne_none_iff (db : Database) (u t : Nat) :
    Rating.findOne db u t = none ↔ ratingCount db u t = 0 := by
  simp [Rating.findOne, ratingCount, List.find?_eq_none, List.filter_eq_nil_iff]

/-- An insert adds one row to the pair it is for and none to the others. -/
theorem ratingCount_insertRating (db : Database) (u0 t0 v u t : Nat) :
    ratingCount (db.insertRating u0 t0 v) u t =
      ratingCount db u t + if u0 = u ∧ t0 = t then 1 else 0 := by
  by_cases h : u0 = u ∧ t0 = t
  · simp [ratingCount, Database.insertRating, List.filter_append, h]
  · have : ¬ (u0 = u ∧ t0 = t) := h
    simp only [ratingCount, Database.insertRating, List.filter_append, List.length_append, h,
      if_false, Nat.add_zero, Nat.add_right_eq_self, List.length_eq_zero]
    simp only [List.filter_eq_nil_iff, List.mem_singleton, Bool.and_eq_true, beq_iff_eq]
    rintro r rfl
    exact this

/-- An update of a rating value changes the row count of no pair. -/
theorem ratingCount_setRating (db : Database) (id v u t : Nat) :
    ratingCount (db.setRating id v) u t = ratingCount db u t := by
  simp only [ratingCount, Database.setRating, List.filter_map, List.length_map]
  congr 2
  funext r
  by_cases h : r.id = id <;> simp [h]

/-- A deletion increases the row count of no pair. -/
theorem ratingCount_deleteRating (db : Database) (id u t : Nat) :
    ratingCount (db.deleteRating id) u t ≤ ratingCount db u t := by
  simp only [ratingCount, Database.deleteRating]
  rw [List.filter_comm]
  exact List.length_filter_le _ _

/-- The row counts depend on the rating rows only. -/
theorem ratingCount_congr (db db' : Database) (h : db'.ratings = db.ratings) (u t : Nat) :
    ratingCount db' u t = ratingCount db u t := by
  simp only [ratingCount, h]

/-- One call preserves uniqueness. -/
theorem unique_step (isEmail : String → Bool) (db : Database) (h : UniquePerUserStore db)
    (call : Call) : UniquePerUserStore (call.run isEmail db) := by
  intro u t
  cases call with
  | submitRating user s v =>
    simp only [Call.run]
    rcases submitRating_effect db user s v with he | ⟨S, -, -, hnone, -, -, he⟩ | ⟨e, -, -, -, he⟩
    · rw [he]; exact h u t
    · rw [ratingCount_congr _ _ (afterHook_ratings _ _ he), ratingCount_insertRating]
      by_cases hp : user.id = u ∧ s = t
      · obtain ⟨rfl, rfl⟩ := hp
        have := (findOne_none_iff db user.id s).1 hnone
        simp [this]
      · simp only [hp, if_false, Nat.add_zero]; exact h u t
    · rw [ratingCount_congr _ _ (afterHook_ratings _ _ he), ratingCount_setRating]
      exact h u t
  | deleteRating user id =>
    simp only [Call.run]
    rcases deleteRating_effect db user id with he | ⟨r, -, -, he⟩
    · rw [he]; exact h u t
    · rw [ratingCount_congr _ _ (afterHook_ratings _ _ he)]
      exact le_trans (ratingCount_deleteRating db r.id u t) (h u t)
  | createStore body =>
    simp only [Call.run]
    rcases createStore_effect isEmail db body with he | ⟨S, he⟩ <;> rw [he]
    · exact h u t
    · exact h u t
  | updateStore user id body =>
    simp only [Call.run]
    rcases updateStore_effect isEmail db user id body with he | ⟨_, _, _, _, he⟩ <;> rw [he]
    · exact h u t
    · exact h u t
  | tick now => exact h u t

/-- C5. Uniqueness is a reachable-state invariant: from any state with at
most one rating row per `(user_id, store_id)`, every state reached by any
sequence of `submitRating` and `deleteRating` calls (and of `createStore` and
`updateStore` calls), executed one at a time, has at most one rating row per
`(user_id, store_id)`. -/
theorem uniqueness_reachable (isEmail : String → Bool) (db : Database)
    (h : UniquePerUserStore db) (calls : List Call) :
    UniquePerUserStore (runCalls isEmail db calls) := by
  induction calls generalizing db with
  | nil => exact h
  | cons c cs ih => exact ih (c.run isEmail db) (unique_step isEmail db h c)

/-- The invariant `OwnerFree` is the foreign key together with `NoOwnerRating`. -/
theorem ownerFree_iff (db : Database) :
    OwnerFree db ↔ RatingsReferToStores db ∧ NoOwnerRating db := by
  constructor
  · intro h
    refine ⟨fun r hr => ?_, fun r hr S hS => ?_⟩
    · obtain ⟨S, hS, -⟩ := h r hr
      simp [hS]
    · obtain ⟨S', hS', hne⟩ := h r hr
      rw [hS] at hS'
      cases hS'
      exact hne
  · rintro ⟨hfk, hno⟩ r hr
    have := hfk r hr
    rw [Option.isSome_iff_exists] at this
    obtain ⟨S, hS⟩ := this
    exact ⟨S, hS, hno r hr S hS⟩

/-- Rewriting store rows without touching `id` and `owner_id` keeps the invariant. -/
theorem ownerFree_mapStores (db : Database) (f : Store → Store)
    (hid : ∀ s, (f s).id = s.id) (hown : ∀ s, (f s).owner_id = s.owner_id)
    (h : OwnerFree db) : OwnerFree { db with stores := db.stores.map f } := by
  intro r hr
  obtain ⟨S, hS, hne⟩ := h r hr
  refine ⟨f S, ?_, by rw [hown]; exact hne⟩
  simp only [Store.findByPk, List.find?_map] at hS ⊢
  have : ((fun s : Store => s.id == r.store_id) ∘ f) = (fun s : Store => s.id == r.store_id) := by
    funext s; simp [hid]
  rw [this, hS]
  rfl

/-- A hook keeps the invariant. -/
theorem ownerFree_afterHook (X db' : Database) (he : AfterHook X db') (h : OwnerFree X) :
    OwnerFree db' := by
  rcases he with rfl | ⟨id, a, n, rfl⟩
  · exact h
  · apply ownerFree_mapStores X _ _ _ h
    · intro s; by_cases hs : s.id = id <;> simp [hs]
    · intro s; by_cases hs : s.id = id <;> simp [hs]

/-- One call preserves the invariant. -/
theorem ownerFree_step (isEmail : String → Bool) (db : Database) (h : OwnerFree db)
    (call : Call) : OwnerFree (call.run isEmail db) := by
  cases call with
  | submitRating user s v =>
    simp only [Call.run]
    rcases submitRating_effect db user s v with he | ⟨S, hS, hown, -, -, -, he⟩ | ⟨e, -, -, -, he⟩
    · rw [he]; exact h
    · apply ownerFree_afterHook _ _ he
      intro r hr
      simp only [Database.insertRating, List.mem_append, List.mem_singleton] at hr
      rcases hr with hr | rfl
      · exact h r hr
      · exact ⟨S, hS, fun e => hown e.symm⟩
    · apply ownerFree_afterHook _ _ he
      intro r hr
      simp only [Database.setRating, List.mem_map] at hr
      obtain ⟨r0, hr0, rfl⟩ := hr
      obtain ⟨S, hS, hne⟩ := h r0 hr0
      refine ⟨S, ?_, ?_⟩
      · by_cases hid : r0.id = e.id <;> simpa [hid] using hS
      · by_cases hid : r0.id = e.id <;> simpa [hid] using hne
  | deleteRating user id =>
    simp only [Call.run]
    rcases deleteRating_effect db user id with he | ⟨r, -, -, he⟩
    · rw [he]; exact h
    · apply ownerFree_afterHook _ _ he
      intro r hr
      simp only [Database.deleteRating, List.mem_filter] at hr
      exact h r hr.1
  | createStore body =>
    simp only [Call.run]
    rcases createStore_effect isEmail db body with he | ⟨S, he⟩ <;> rw [he]
    · exact h
    · intro r hr
      obtain ⟨S0, hS0, hne⟩ := h r hr
      refine ⟨S0, ?_, hne⟩
      simp only [Store.findByPk] at hS0 ⊢
      rw [List.find?_append, hS0]
      rfl
  | updateStore user id body =>
    simp only [Call.run]
    rcases updateStore_effect isEmail db user id body with he | ⟨i, _, _, _, he⟩ <;> rw [he]
    · exact h
    · apply ownerFree_mapStores db _ _ _ h
      · intro s; by_cases hs : s.id = i <;> simp [hs]
      · intro s; by_cases hs : s.id = i <;> simp [hs]
  | tick now => exact h

/-- C9. No rating by the owner is a reachable-state invariant: from any state
of the schema (every rating row refers to a store) in which no rating row has
`user_id` equal to the `owner_id` of its store, every state reached by any
sequence of `submitRating`, `deleteRating`, `createStore` and `updateStore`
calls still has no such row, and every rating row still refers to a store. -/
theorem no_owner_rating_reachable (isEmail : String → Bool) (db : Database)
    (hfk : RatingsReferToStores db) (hno : NoOwnerRating db) (calls : List Call) :
    NoOwnerRating (runCalls isEmail db calls) ∧
      RatingsReferToStores (runCalls isEmail db calls) := by
  have key : ∀ (cs : List Call) (d : Database), OwnerFree d → OwnerFree (runCalls isEmail d cs) := by
    intro cs
    induction cs with
    | nil => intro d hd; exact hd
    | cons c cs ih => intro d hd; exact ih (c.run isEmail d) (ownerFree_step isEmail d hd c)
  have := (ownerFree_iff _).1 (key calls db ((ownerFree_iff db).2 ⟨hfk, hno⟩))
  exact ⟨this.2, this.1⟩

/-- C8. Self-rating rejection: for every store `T` and every caller whose id
is `T.owner_id`, `submitRating` with any rating value is refused with the
self-rating denial (HTTP 400, "You cannot rate your own store."); the database
is unchanged: no rating row is created or modified and the aggregate of `T` is
untouched. -/
theorem submitRating_self_rating_rejected (db : Database) (user : User) (store_id : Nat)
    (T : Store) (rating : Int) (hT : Store.findByPk db store_id = some T)
    (hown : user.id = T.owner_id) :
    ratingController.submitRating db user store_id rating =
      (⟨400, false, "You cannot rate your own store.", .none⟩, db) := by
  unfold ratingController.submitRating
  rw [hT]
  simp only
  rw [if_pos hown.symm]

/-! ## The hooks never write -/

/-- A rating hook returns the database as it found it. -/
theorem hook_db (db : Database) (r : Rating) : (Rating.afterCreate db r).2 = db := by
  unfold Rating.afterCreate
  cases Store.findByPk db r.store_id with
  | none => rfl
  | some S => exact updateRatingStats_db db S

/-- The database after `Rating.create`: the row is inserted when the value is
valid, whatever the hook answers. -/
theorem create_db (db : Database) (u t : Nat) (v : Int) :
    (Rating.create db u t v).2 = if v < 1 ∨ 5 < v then db else db.insertRating u t v.toNat := by
  unfold Rating.create
  split_ifs
  · rfl
  · exact hook_db _ _

/-- The database after the save of a found row. -/
theorem save_db (db : Database) (e : Rating) (v : Int) :
    (Rating.save db e v).2 =
      if (e.rating : Int) = v ∨ v < 1 ∨ 5 < v then db else db.setRating e.id v.toNat := by
  unfold Rating.save
  by_cases hsame : (e.rating : Int) = v
  · simp [hsame]
  · by_cases hbad : v < 1 ∨ 5 < v
    · simp [hsame, hbad]
    · rw [if_neg hsame, if_neg hbad, if_neg (by tauto)]
      exact hook_db _ _

/-- The database after `destroy`: the row is deleted, whatever the hook answers. -/
theorem destroy_db (db : Database) (r : Rating) :
    (Rating.destroy db r).2 = db.deleteRating r.id :=
  hook_db _ _

/-- The database after `submitRating`. -/
theorem submitRating_db (db : Database) (user : User) (t : Nat) (v : Int) :
    (ratingController.submitRating db user t v).2 =
      match Store.findByPk db t with
      | none => db
      | some T =>
        if T.owner_id = user.id then db
        else
          match Rating.findOne db user.id t with
          | some e => (Rating.save db e v).2
          | none => (Rating.create db user.id t v).2 := by
  unfold ratingController.submitRating
  cases Store.findByPk db t with
  | none => rfl
  | some T =>
    simp only
    split_ifs
    · rfl
    · cases Rating.findOne db user.id t <;> rfl

/-- No `submitRating` call changes a store. -/
theorem submitRating_stores (db : Database) (user : User) (t : Nat) (v : Int) :
    (ratingController.submitRating db user t v).2.stores = db.stores := by
  rw [submitRating_db]
  cases Store.findByPk db t with
  | none => rfl
  | some T =>
    simp only
    split_ifs
    · rfl
    · cases Rating.findOne db user.id t with
      | none => simp only [create_db]; split_ifs <;> rfl
      | some e => simp only [save_db]; split_ifs <;> rfl

/-- No `deleteRating` call changes a store. -/
theorem deleteRating_stores (db : Database) (user : User) (id : IdParam) :
    (ratingController.deleteRating db user id).2.stores = db.stores := by
  rcases deleteRating_effect db user id with he | ⟨r, -, hr, -⟩
  · rw [he]
  · unfold ratingController.deleteRating
    rw [hr]
    simp only
    split_ifs
    · rfl
    · simp only [destroy_db]; rfl

/-- The response of `submitRating` to a first submission whose hook fails. -/
theorem submitRating_create_fails (db : Database) (user : User) (t : Nat) (T : Store) (v : Int)
    (hT : Store.findByPk db t = some T) (hown : T.owner_id ≠ user.id)
    (hex : Rating.findOne db user.id t = none) (h1 : 1 ≤ v) (h5 : v ≤ 5)
    (hstale : ratingStats (Rating.findAll (db.insertRating user.id t v.toNat) t) ≠
      (T.average_rating, T.total_ratings)) :
    ratingController.submitRating db user t v =
      (⟨400, false, "Validation failed", .none⟩, db.insertRating user.id t v.toNat) := by
  have hT' : Store.findByPk (db.insertRating user.id t v.toNat) t = some T := hT
  have hid := findByPk_id db t T hT
  have hupd : Store.updateRatingStats (db.insertRating user.id t v.toNat) T =
      (.error .validation, db.insertRating user.id t v.toNat) := by
    rw [updateRatingStats_eq, hid]
    simp [hstale]
  unfold ratingController.submitRating
  rw [hT]
  simp only
  rw [if_neg hown, hex]
  simp only [Rating.create]
  rw [if_neg (by omega)]
  simp only [Rating.afterCreate, hT', hupd]
  rfl

/-- The values of a store after an insert of a row for it. -/
theorem findAll_insertRating (db : Database) (u t v : Nat) :
    Rating.findAll (db.insertRating u t v) t = Rating.findAll db t ++ [v] := by
  simp [Rating.findAll, Database.insertRating, List.filter_append]

/-- C1. The aggregate of a store is not maintained: no `submitRating` and no
`deleteRating` call ever changes a store, while the accepted ones change its
rows.  On `db0`, where every aggregate is right, the first rating of `shop` is
inserted and answered 400, and `shop` keeps `0.00` and `0` with one row; on
`db2`, where every aggregate is right, the administrator's deletion of the
rating 5 is carried out and answered 500, and `shop` keeps `4.00` and `2` with
the single rating 3. -/
theorem aggregate_not_maintained :
    (∀ (db : Database) (user : User) (t : Nat) (v : Int),
      (ratingController.submitRating db user t v).2.stores = db.stores) ∧
    (∀ (db : Database) (user : User) (id : IdParam),
      (ratingController.deleteRating db user id).2.stores = db.stores) ∧
    AggregateConsistent db0 ∧ ValidRatings db0 ∧ RatingKeysDistinct db0 ∧
    ratingController.submitRating db0 alice 1 4 =
      (⟨400, false, "Validation failed", .none⟩,
        { db0 with ratings := [⟨1, 3, 1, 4, 50, 50⟩], nextRatingId := 2 }) ∧
    ¬ AggregateConsistent (ratingController.submitRating db0 alice 1 4).2 ∧
    AggregateConsistent db2 ∧ ValidRatings db2 ∧ RatingKeysDistinct db2 ∧
    ratingController.deleteRating db2 admin0 (IdParam.ofNat 1) =
      (⟨500, false, "Internal server error while deleting rating.", .none⟩,
        { db2 with ratings := [⟨2, 4, 1, 3, 20, 20⟩] }) ∧
    ¬ AggregateConsistent (ratingController.deleteRating db2 admin0 (IdParam.ofNat 1)).2 := by
  refine ⟨submitRating_stores, deleteRating_stores, by decide, by decide, by decide, by decide,
    by decide, by decide, by decide, by decide, by decide, by decide⟩

/-- C7. A first submission that passes all checks is not reported as created:
whenever the stored `total_ratings` of the store is the number of its rows, the
row is inserted and the answer is 400 'Validation failed', as for `alice` on
`db0`.  A resubmission with another value is carried out and answered 400 as
well on `db2`, where the recomputed average differs from the stored one. -/
theorem submitRating_created_reports_failure :
    (∀ (db : Database) (user : User) (t : Nat) (T : Store) (v : Int),
      Store.findByPk db t = some T → T.owner_id ≠ user.id →
      Rating.findOne db user.id t = none → 1 ≤ v → v ≤ 5 →
      T.total_ratings = (Rating.findAll db t).length →
      ratingController.submitRating db user t v =
          (⟨400, false, "Validation failed", .none⟩, db.insertRating user.id t v.toNat) ∧
        (Rating.findAll (ratingController.submitRating db user t v).2 t).length =
          (Rating.findAll db t).length + 1) ∧
    Store.findByPk db0 1 = some shop ∧ shop.owner_id ≠ alice.id ∧
    Rating.findOne db0 alice.id 1 = none ∧
    shop.total_ratings = (Rating.findAll db0 1).length ∧
    ratingController.submitRating db0 alice 1 4 =
      (⟨400, false, "Validation failed", .none⟩, db0.insertRating 3 1 4) ∧
    (db0.insertRating 3 1 4).ratings = [⟨1, 3, 1, 4, 50, 50⟩] ∧
    Rating.findOne db2 alice.id 1 = some ⟨1, 3, 1, 5, 10, 10⟩ ∧
    ratingController.submitRating db2 alice 1 1 =
      (⟨400, false, "Validation failed", .none⟩, db2.setRating 1 1) ∧
    (db2.setRating 1 1).ratings = [⟨1, 3, 1, 1, 10, 50⟩, ⟨2, 4, 1, 3, 20, 20⟩] := by
  refine ⟨?_, by decide, by decide, by decide, by decide, by decide, by decide, by decide,
    by decide, by decide⟩
  intro db user t T v hT hown hex h1 h5 htotal
  have hres := submitRating_create_fails db user t T v hT hown hex h1 h5 (by
    rw [findAll_insertRating]
    intro h
    have h2 := congrArg Prod.snd h
    simp only [ratingStats, List.length_append, List.length_singleton] at h2
    rw [if_neg (by omega)] at h2
    simp only at h2
    omega)
  rw [hres]
  exact ⟨rfl, by rw [findAll_insertRating]; simp⟩

/-- C4. The scenario on `db0` with `alice`, `bob` and `shop`, a store without
ratings that neither of them owns: every step changes the rating rows as
asked, but the three submissions are answered 400 'Validation failed' and the
deletion 500, and `shop` keeps `0.00` and `0` throughout. -/
theorem scenario_two_users :
    Store.findByPk db0 1 = some shop ∧ shop.average_rating = 0 ∧ shop.total_ratings = 0 ∧
    Rating.findAll db0 1 = [] ∧ shop.owner_id ≠ alice.id ∧ shop.owner_id ≠ bob.id ∧
    scenario1.1 = ⟨400, false, "Validation failed", .none⟩ ∧
    scenario1.2.ratings = [⟨1, 3, 1, 5, 50, 50⟩] ∧
    Store.findByPk scenario1.2 1 = some shop ∧
    scenario2.1 = ⟨400, false, "Validation failed", .none⟩ ∧
    scenario2.2.ratings = [⟨1, 3, 1, 5, 50, 50⟩, ⟨2, 4, 1, 3, 60, 60⟩] ∧
    Store.findByPk scenario2.2 1 = some shop ∧
    scenario3.1 = ⟨400, false, "Validation failed", .none⟩ ∧
    scenario3.2.ratings = [⟨1, 3, 1, 1, 50, 70⟩, ⟨2, 4, 1, 3, 60, 60⟩] ∧
    Store.findByPk scenario3.2 1 = some shop ∧
    scenario4.1 = ⟨500, false, "Internal server error while deleting rating.", .none⟩ ∧
    scenario4.2.ratings = [⟨1, 3, 1, 1, 50, 70⟩] ∧
    Store.findByPk scenario4.2 1 = some shop := by
  decide

/-! ## Submitting twice -/

/-- Rewriting store rows without touching `id` commutes with the lookup by
primary key. -/
theorem findByPk_mapStores (db : Database) (f : Store → Store) (hid : ∀ s, (f s).id = s.id)
    (t : Nat) :
    Store.findByPk { db with stores := db.stores.map f } t = (Store.findByPk db t).map f := by
  simp only [Store.findByPk, List.find?_map]
  have : ((fun s : Store => s.id == t) ∘ f) = (fun s : Store => s.id == t) := by
    funext s; simp [hid]
  rw [this]

/-- A hook keeps every store and its owner. -/
theorem findByPk_afterHook (X db' : Database) (he : AfterHook X db') (t : Nat) (S : Store)
    (hS : Store.findByPk X t = some S) :
    ∃ S', Store.findByPk db' t = some S' ∧ S'.owner_id = S.owner_id := by
  rcases he with rfl | ⟨id, a, n, rfl⟩
  · exact ⟨S, hS, rfl⟩
  · have := findByPk_mapStores X
      (fun s => if s.id = id then { s with average_rating := a, total_ratings := n } else s)
      (by intro s; by_cases hs : s.id = id <;> simp [hs]) t
    simp only [Database.setStoreStats]
    rw [this, hS]
    refine ⟨_, rfl, ?_⟩
    by_cases hs : S.id = id <;> simp [hs]

/-- When at most one row satisfies `p`, the rows that do are the first one found. -/
theorem filter_eq_singleton (l : List Rating) (p : Rating → Bool) (e : Rating)
    (hfind : l.find? p = some e) (hlen : (l.filter p).length ≤ 1) : l.filter p = [e] := by
  have hmem : e ∈ l.filter p :=
    List.mem_filter.2 ⟨List.mem_of_find?_eq_some hfind, List.find?_some hfind⟩
  match hfl : l.filter p, hlen, hmem with
  | [], _, hm => cases hm
  | [x], _, hm => simp only [List.mem_singleton] at hm; rw [hm]
  | x :: y :: _, hl, _ => simp at hl

/-- A resubmission of the stored value: nothing is written, and the response
is the updated one. -/
theorem submitRating_same_eq (db : Database) (user : User) (t : Nat) (S : Store) (v : Int)
    (e : Rating) (hS : Store.findByPk db t = some S) (hown : S.owner_id ≠ user.id)
    (hex : Rating.findOne db user.id t = some e) (hsame : (e.rating : Int) = v) :
    ratingController.submitRating db user t v =
      (⟨200, true, "Rating updated successfully.",
        .rating (Rating.findByPkWithDetails db e.id)⟩, db) := by
  unfold ratingController.submitRating
  rw [hS]
  simp only
  rw [if_neg hown, hex]
  simp only [Rating.save, hsame, if_true]
  rfl

/-- The state after a submission that passes the checks: the store is still there with the
same owner, and the caller's only row for it holds the submitted value. -/
theorem submitRating_first_state (db : Database) (user : User) (t : Nat) (T : Store) (v : Int)
    (hT : Store.findByPk db t = some T) (hown : T.owner_id ≠ user.id)
    (h1 : 1 ≤ v) (h5 : v ≤ 5) (huniq : ratingCount db user.id t ≤ 1) :
    ∃ S1 e1, Store.findByPk (ratingController.submitRating db user t v).2 t = some S1 ∧
      S1.owner_id = T.owner_id ∧
      Rating.findOne (ratingController.submitRating db user t v).2 user.id t = some e1 ∧
      (e1.rating : Int) = v ∧
      ((ratingController.submitRating db user t v).2.ratings.filter
        (fun r => r.user_id == user.id && r.store_id == t)).map (fun r => r.rating)
          = [v.toNat] := by
  have hvn : ((v.toNat : Nat) : Int) = v := Int.toNat_of_nonneg (by omega)
  cases hex : Rating.findOne db user.id t with
  | none =>
    have hsnd : AfterHook (db.insertRating user.id t v.toNat)
        (ratingController.submitRating db user t v).2 := by
      unfold ratingController.submitRating
      rw [hT]
      simp only
      rw [if_neg hown, hex]
      simp only [Rating.create]
      rw [if_neg (by omega)]
      exact hook_effect _ _
    obtain ⟨S1, hS1, hown1⟩ := findByPk_afterHook _ _ hsnd t T hT
    have hrs := afterHook_ratings _ _ hsnd
    have hnone : db.ratings.find? (fun r => r.user_id == user.id && r.store_id == t) = none := hex
    have hfil : db.ratings.filter (fun r => r.user_id == user.id && r.store_id == t) = [] := by
      rw [List.filter_eq_nil_iff]
      rw [List.find?_eq_none] at hnone
      exact hnone
    refine ⟨S1, ⟨db.nextRatingId, user.id, t, v.toNat, db.now, db.now⟩, hS1, hown1, ?_, hvn, ?_⟩
    · simp [Rating.findOne, hrs, Database.insertRating, List.find?_append, hnone]
    · simp [hrs, Database.insertRating, List.filter_append, hfil]
  | some e =>
    have hfind : db.ratings.find? (fun r => r.user_id == user.id && r.store_id == t) = some e :=
      hex
    have hfil := filter_eq_singleton db.ratings _ e hfind huniq
    by_cases hsame : (e.rating : Int) = v
    · rw [submitRating_same_eq db user t T v e hT hown hex hsame]
      refine ⟨T, e, hT, rfl, hex, hsame, ?_⟩
      simp only [hfil, List.map_cons, List.map_nil]
      congr 1
      omega
    · have hsnd : AfterHook (db.setRating e.id v.toNat)
          (ratingController.submitRating db user t v).2 := by
        unfold ratingController.submitRating
        rw [hT]
        simp only
        rw [if_neg hown, hex]
        simp only [Rating.save]
        rw [if_neg hsame, if_neg (by omega)]
        exact hook_effect _ _
      obtain ⟨S1, hS1, hown1⟩ := findByPk_afterHook _ _ hsnd t T hT
      have hrs := afterHook_ratings _ _ hsnd
      have hcomp : ((fun r : Rating => r.user_id == user.id && r.store_id == t) ∘
          (fun r : Rating =>
            if r.id = e.id then { r with rating := v.toNat, updated_at := db.now } else r))
          = (fun r : Rating => r.user_id == user.id && r.store_id == t) := by
        funext r
        by_cases h : r.id = e.id <;> simp [h]
      refine ⟨S1, { e with rating := v.toNat, updated_at := db.now }, hS1, hown1, ?_, hvn, ?_⟩
      · simp only [Rating.findOne, hrs, Database.setRating, List.find?_map, hcomp, hfind]
        simp
      · simp only [hrs, Database.setRating, List.filter_map, hcomp, hfil]
        simp

/-- C6. Idempotence of submit: for every caller, every store not owned by the
caller and every valid value `v`, after `submitRating(caller, store, v)` is
called twice in a row, the second call at any later instant, the caller has
exactly one rating row for the store, holding `v`; the second call changes
nothing, so the store's `(average_rating, total_ratings)` after it equal those
after the first call; and the second call reports updated, not created. -/
theorem submitRating_idempotent (db : Database) (user : User) (store_id : Nat) (T : Store)
    (rating : Int) (later : Nat) (hT : Store.findByPk db store_id = some T)
    (hown : T.owner_id ≠ user.id)
    (h1 : 1 ≤ rating) (h5 : rating ≤ 5) (huniq : ratingCount db user.id store_id ≤ 1) :
    ((ratingController.submitRating
        ((ratingController.submitRating db user store_id rating).2.atTime later)
          user store_id rating).2.ratings.filter
          (fun r => r.user_id == user.id && r.store_id == store_id)).map (fun r => r.rating)
        = [rating.toNat] ∧
    (Store.findByPk (ratingController.submitRating
        ((ratingController.submitRating db user store_id rating).2.atTime later)
          user store_id rating).2
        store_id).map (fun s => (s.average_rating, s.total_ratings))
      = (Store.findByPk (ratingController.submitRating db user store_id rating).2 store_id).map
          (fun s => (s.average_rating, s.total_ratings)) ∧
    (ratingController.submitRating
        ((ratingController.submitRating db user store_id rating).2.atTime later)
          user store_id rating).2
      = (ratingController.submitRating db user store_id rating).2.atTime later ∧
    (ratingController.submitRating
        ((ratingController.submitRating db user store_id rating).2.atTime later)
          user store_id rating).1.status
      = 200 ∧
    (ratingController.submitRating
        ((ratingController.submitRating db user store_id rating).2.atTime later)
          user store_id rating).1.message
      = "Rating updated successfully." := by
  obtain ⟨S1, e1, hS1, hown1, hex1, hval1, hrows⟩ :=
    submitRating_first_state db user store_id T rating hT hown h1 h5 huniq
  have hsecond := submitRating_same_eq
    ((ratingController.submitRating db user store_id rating).2.atTime later) user store_id S1
    rating e1 hS1 (by rw [hown1]; exact hown) hex1 hval1
  rw [hsecond]
  exact ⟨hrows, rfl, rfl, rfl, rfl⟩

/-- The double submission of C6 by `alice` on `db0`, with the value 4, the
second one at the instant 60 and at the instant of the first. -/
theorem submitRating_idempotent_witness :
    Store.findByPk db0 1 = some shop ∧ shop.owner_id ≠ alice.id ∧
    ratingCount db0 alice.id 1 ≤ 1 ∧
    (((ratingController.submitRating
        ((ratingController.submitRating db0 alice 1 4).2.atTime 60) alice 1 4).2.ratings.filter
          (fun r => r.user_id == alice.id && r.store_id == 1)).map (fun r => r.rating)
        = [(4 : Int).toNat] ∧
    (Store.findByPk (ratingController.submitRating
        ((ratingController.submitRating db0 alice 1 4).2.atTime 60) alice 1 4).2
        1).map (fun s => (s.average_rating, s.total_ratings))
      = (Store.findByPk (ratingController.submitRating db0 alice 1 4).2 1).map
          (fun s => (s.average_rating, s.total_ratings)) ∧
    (ratingController.submitRating
        ((ratingController.submitRating db0 alice 1 4).2.atTime 60) alice 1 4).2
      = (ratingController.submitRating db0 alice 1 4).2.atTime 60 ∧
    (ratingController.submitRating
        ((ratingController.submitRating db0 alice 1 4).2.atTime 60) alice 1 4).1.status
      = 200 ∧
    (ratingController.submitRating
        ((ratingController.submitRating db0 alice 1 4).2.atTime 60) alice 1 4).1.message
      = "Rating updated successfully.") ∧
    (ratingController.submitRating db0 alice 1 4).2.atTime 50 =
      (ratingController.submitRating db0 alice 1 4).2 ∧
    ratingController.submitRating (ratingController.submitRating db0 alice 1 4).2 alice 1 4 =
      (⟨200, true, "Rating updated successfully.",
        .rating (Rating.findByPkWithDetails (ratingController.submitRating db0 alice 1 4).2 1)⟩,
        (ratingController.submitRating db0 alice 1 4).2) :=
  ⟨by decide, by decide, by decide,
    submitRating_idempotent db0 alice 1 shop 4 60 (by decide) (by decide) (by decide) (by decide)
      (by decide),
    by decide, by decide⟩

/-- The invariant of C5 on `db0` and after the calls `someCalls`. -/
theorem uniqueness_reachable_witness :
    UniquePerUserStore db0 ∧ UniquePerUserStore (runCalls hasAt db0 someCalls) :=
  ⟨fun _ _ => Nat.zero_le 1,
    uniqueness_reachable hasAt db0 (fun _ _ => Nat.zero_le 1) someCalls⟩

/-- The invariant of C9 on `db2` and after the calls `someCalls`. -/
theorem no_owner_rating_reachable_witness :
    RatingsReferToStores db2 ∧ NoOwnerRating db2 ∧
    NoOwnerRating (runCalls hasAt db2 someCalls) ∧
    RatingsReferToStores (runCalls hasAt db2 someCalls) :=
  ⟨by decide, by decide, no_owner_rating_reachable hasAt db2 (by decide) (by decide) someCalls⟩

/-- The refusal of C8 for the owner of `shop` on `db0`. -/
theorem submitRating_self_rating_rejected_witness :
    Store.findByPk db0 1 = some shop ∧ owner0.id = shop.owner_id ∧
    ratingController.submitRating db0 owner0 1 4 =
      (⟨400, false, "You cannot rate your own store.", .none⟩, db0) :=
  ⟨by decide, by decide,
    submitRating_self_rating_rejected db0 owner0 1 shop 4 (by decide) (by decide)⟩

/-! ## The `POST /ratings` route -/

/-- The schema accepts an existing store id and an integer rating from 1 to 5. -/
theorem ratingSchema_accepts (t : Nat) (v : Int) (ht0 : 0 < t) (htmax : t ≤ 9007199254740991)
    (h1 : 1 ≤ v) (h5 : v ≤ 5) :
    ratingSchema ⟨some (t : ℚ), some (v : ℚ)⟩ = some (t, v) := by
  have c1 : (0 : ℚ) < (t : ℚ) := by exact_mod_cast ht0
  have c2 : (t : ℚ) ≤ 9007199254740991 := by exact_mod_cast htmax
  have c3 : (1 : ℚ) ≤ (v : ℚ) := by exact_mod_cast h1
  have c4 : (v : ℚ) ≤ 5 := by exact_mod_cast h5
  simp [ratingSchema, Rat.isInt, c1, c2, c3, c4]

/-- After a submission that passes the checks the caller has a row for the
store with the submitted value, whatever the hook answers. -/
theorem submitRating_row_stored (db : Database) (user : User) (t : Nat) (T : Store) (v : Int)
    (hT : Store.findByPk db t = some T) (hown : T.owner_id ≠ user.id)
    (h1 : 1 ≤ v) (h5 : v ≤ 5) :
    ∃ r ∈ (ratingController.submitRating db user t v).2.ratings,
      r.user_id = user.id ∧ r.store_id = t ∧ (r.rating : Int) = v := by
  have hvn : ((v.toNat : Nat) : Int) = v := Int.toNat_of_nonneg (by omega)
  rw [submitRating_db, hT]
  simp only
  rw [if_neg hown]
  cases hex : Rating.findOne db user.id t with
  | none =>
    simp only [create_db]
    rw [if_neg (by omega)]
    exact ⟨⟨db.nextRatingId, user.id, t, v.toNat, db.now, db.now⟩,
      by simp [Database.insertRating], rfl, rfl, hvn⟩
  | some e =>
    obtain ⟨he, heu, het⟩ := findOne_some db user.id t e hex
    simp only [save_db]
    by_cases hsame : (e.rating : Int) = v
    · rw [if_pos (Or.inl hsame)]
      exact ⟨e, he, heu, het, hsame⟩
    · rw [if_neg (by omega)]
      refine ⟨{ e with rating := v.toNat, updated_at := db.now }, ?_, heu, het, hvn⟩
      simp only [Database.setRating, List.mem_map]
      exact ⟨e, he, by simp⟩

/-- C10, as amended. An authenticated caller whose role is user or admin gets
past the role middleware and the validation of `POST /ratings` with a valid
rating for an existing store they do not own: the pipeline hands the request
to `submitRating`, and after the call the caller has a rating row for the
store with the submitted value.  A caller whose role is store_owner is
refused by the role middleware (`requireUser` admits `user` and `admin` only)
with 403, and nothing changes. -/
theorem postRatings_roles (db : Database) (userId : Nat) (user : User) (store_id : Nat)
    (T : Store) (rating : Int) (hu : User.findByPk db userId = some user)
    (hT : Store.findByPk db store_id = some T) (hown : T.owner_id ≠ user.id)
    (ht0 : 0 < store_id) (htmax : store_id ≤ 9007199254740991)
    (h1 : 1 ≤ rating) (h5 : rating ≤ 5) :
    ((user.role = Role.user ∨ user.role = Role.admin) →
      postRatings db (.valid userId) ⟨some (store_id : ℚ), some (rating : ℚ)⟩
        = ratingController.submitRating db user store_id rating ∧
      ∃ r ∈ (postRatings db (.valid userId) ⟨some (store_id : ℚ), some (rating : ℚ)⟩).2.ratings,
        r.user_id = user.id ∧ r.store_id = store_id ∧ (r.rating : Int) = rating) ∧
    (user.role = Role.store_owner →
      postRatings db (.valid userId) ⟨some (store_id : ℚ), some (rating : ℚ)⟩
        = (⟨403, false,
            "Access denied. Required role: user or admin. Your role: store_owner", .none⟩, db)) := by
  have hschema := ratingSchema_accepts store_id rating ht0 htmax h1 h5
  constructor
  · intro hrole
    have hpost : postRatings db (.valid userId) ⟨some (store_id : ℚ), some (rating : ℚ)⟩
        = ratingController.submitRating db user store_id rating := by
      have hreq : requireUser (some user) = .ok () := by
        rcases hrole with h | h <;> simp [requireUser, authorize, h]
      simp only [postRatings, authenticate, hu, hreq, validate, sanitizeInput, hschema]
    rw [hpost]
    exact ⟨rfl, submitRating_row_stored db user store_id T rating hT hown h1 h5⟩
  · intro hrole
    have hreq : requireUser (some user) = .error ⟨403, false,
        "Access denied. Required role: user or admin. Your role: store_owner", .none⟩ := by
      simp only [requireUser, authorize, hrole]
      decide
    simp only [postRatings, authenticate, hu, hreq]

/-- C10 fails as stated: `carol` is authenticated with role store_owner, the
store `shop` exists and is owned by someone else, and rating 4 passes the
schema, yet the `POST /ratings` pipeline answers 403 and stores no rating,
where the same request of `alice`, a normal user, stores her rating. -/
theorem postRatings_store_owner_refused :
    User.findByPk db0 5 = some carol ∧ carol.role = Role.store_owner ∧
    Store.findByPk db0 1 = some shop ∧ shop.owner_id ≠ carol.id ∧
    ratingSchema ⟨some 1, some 4⟩ = some (1, 4) ∧
    postRatings db0 (.valid 5) ⟨some 1, some 4⟩ =
      (⟨403, false, "Access denied. Required role: user or admin. Your role: store_owner",
        .none⟩, db0) ∧
    (postRatings db0 (.valid 5) ⟨some 1, some 4⟩).2.ratings = [] ∧
    (postRatings db0 (.valid 3) ⟨some 1, some 4⟩).2.ratings = [⟨1, 3, 1, 4, 50, 50⟩] := by
  decide

/-- The pipeline of C10 for `alice`, a normal user, rating `shop` 4 on `db0`. -/
theorem postRatings_roles_witness :
    User.findByPk db0 3 = some alice ∧
    Store.findByPk db0 1 = some shop ∧ shop.owner_id ≠ alice.id ∧
    (((alice.role = Role.user ∨ alice.role = Role.admin) →
      postRatings db0 (.valid 3) ⟨some ((1 : Nat) : ℚ), some ((4 : Int) : ℚ)⟩
        = ratingController.submitRating db0 alice 1 4 ∧
      ∃ r ∈ (postRatings db0 (.valid 3) ⟨some ((1 : Nat) : ℚ), some ((4 : Int) : ℚ)⟩).2.ratings,
        r.user_id = alice.id ∧ r.store_id = 1 ∧ (r.rating : Int) = 4) ∧
    (alice.role = Role.store_owner →
      postRatings db0 (.valid 3) ⟨some ((1 : Nat) : ℚ), some ((4 : Int) : ℚ)⟩
        = (⟨403, false,
            "Access denied. Required role: user or admin. Your role: store_owner", .none⟩,
          db0))) ∧
    (alice.role = Role.user ∨ alice.role = Role.admin) :=
  ⟨by decide, by decide, by decide,
    postRatings_roles db0 3 alice 1 shop 4 (by decide) (by decide)
      (by decide) (by decide) (by decide) (by decide) (by decide),
    by decide⟩

/-! ## Denials and not-found answers of the rating controllers -/

/-- Every role passes the gate of `DELETE /ratings/:id`. -/
theorem requireUserOrStoreOwner_ok (user : User) :
    requireUserOrStoreOwner (some user) = .ok () := by
  cases h : user.role <;> simp [requireUserOrStoreOwner, authorize, h]

/-- For an authenticated caller the route `DELETE /ratings/:id` is the controller. -/
theorem deleteRatingsId_eq (db : Database) (userId : Nat) (user : User) (id : IdParam)
    (hu : User.findByPk db userId = some user) :
    deleteRatingsId db (.valid userId) id = ratingController.deleteRating db user id := by
  simp only [deleteRatingsId, authenticate, hu, requireUserOrStoreOwner_ok]

/-- The lookup by a parameter that the database reads as the id of a row. -/
theorem findByParam_of_pk (db : Database) (id : IdParam) (k : Nat)
    (hpk : id.pk = some (k : Int)) : Rating.findByParam db id = .ok (Rating.findByPk db k) := by
  unfold Rating.findByParam
  rw [hpk]
  simp

/-- An allowed deletion deletes the row and answers 200 or 500. -/
theorem deleteRating_allowed (db : Database) (user : User) (id : IdParam) (r : Rating)
    (hr : Rating.findByParam db id = .ok (some r))
    (hallow : user.role = Role.admin ∨ r.user_id = user.id) :
    (ratingController.deleteRating db user id).2 = db.deleteRating r.id ∧
      ((ratingController.deleteRating db user id).1 =
          ⟨200, true, "Rating deleted successfully.", .none⟩ ∨
        (ratingController.deleteRating db user id).1 =
          ⟨500, false, "Internal server error while deleting rating.", .none⟩) := by
  unfold ratingController.deleteRating
  rw [hr]
  simp only
  rw [if_neg (by tauto)]
  refine ⟨destroy_db db r, ?_⟩
  cases (Rating.destroy db r).1 with
  | ok _ => exact Or.inl rfl
  | error _ => exact Or.inr rfl

/-- C11. For every authenticated caller and every existing rating,
`deleteRating` removes the rating if and only if the caller's role is admin or
the rating's `user_id` is the caller's id: the database is then the one before
the call without the rows of that id, and the answer is 200 or 500; in every
other case it fails with 403 "You can only delete your own ratings." and the
database, so the rating row and the aggregate of its store, is unchanged.  The
route `DELETE /ratings/:id` admits every role and hands an authenticated
caller to the controller. -/
theorem deleteRating_authorization (db : Database) (user : User) (id : IdParam) (r : Rating)
    (hr : Rating.findByParam db id = .ok (some r)) :
    (Rating.findByParam (ratingController.deleteRating db user id).2 id = .ok none ↔
      (user.role = Role.admin ∨ r.user_id = user.id)) ∧
    ((user.role = Role.admin ∨ r.user_id = user.id) →
      (∀ x ∈ (ratingController.deleteRating db user id).2.ratings, x.id ≠ r.id) ∧
      (ratingController.deleteRating db user id).2 = db.deleteRating r.id ∧
      (ratingController.deleteRating db user id).2.stores = db.stores ∧
      ((ratingController.deleteRating db user id).1 =
          ⟨200, true, "Rating deleted successfully.", .none⟩ ∨
        (ratingController.deleteRating db user id).1 =
          ⟨500, false, "Internal server error while deleting rating.", .none⟩)) ∧
    (¬ (user.role = Role.admin ∨ r.user_id = user.id) →
      ratingController.deleteRating db user id =
        (⟨403, false, "You can only delete your own ratings.", .none⟩, db)) ∧
    (∀ userId, User.findByPk db userId = some user →
      deleteRatingsId db (.valid userId) id = ratingController.deleteRating db user id) := by
  obtain ⟨-, hpk⟩ := findByParam_some db id r hr
  have hdenied : ¬ (user.role = Role.admin ∨ r.user_id = user.id) →
      ratingController.deleteRating db user id =
        (⟨403, false, "You can only delete your own ratings.", .none⟩, db) := by
    intro hden
    unfold ratingController.deleteRating
    rw [hr]
    simp only
    rw [if_pos (by tauto)]
  have hgone : (user.role = Role.admin ∨ r.user_id = user.id) →
      ∀ x ∈ (ratingController.deleteRating db user id).2.ratings, x.id ≠ r.id := by
    intro hallow x hx
    rw [(deleteRating_allowed db user id r hr hallow).1] at hx
    simp only [Database.deleteRating, List.mem_filter] at hx
    simpa using hx.2
  refine ⟨⟨fun hnone => ?_, fun hallow => ?_⟩,
    fun hallow => ⟨hgone hallow, (deleteRating_allowed db user id r hr hallow).1,
      deleteRating_stores db user id, (deleteRating_allowed db user id r hr hallow).2⟩,
    hdenied, fun userId hu => deleteRatingsId_eq db userId user id hu⟩
  · by_contra hden
    rw [hdenied hden, hr] at hnone
    cases hnone
  · rw [findByParam_of_pk _ id r.id hpk]
    congr 1
    simp only [Rating.findByPk, List.find?_eq_none]
    intro x hx
    simpa using hgone hallow x hx

/-- The authorization of C11 on `db2`, for the rating 1 of `alice`: `bob` is
refused, `alice` and the administrator remove it. -/
theorem deleteRating_authorization_witness :
    Rating.findByParam db2 (IdParam.ofNat 1) = .ok (some ⟨1, 3, 1, 5, 10, 10⟩) ∧
    ratingController.deleteRating db2 bob (IdParam.ofNat 1) =
      (⟨403, false, "You can only delete your own ratings.", .none⟩, db2) ∧
    Rating.findByParam (ratingController.deleteRating db2 alice (IdParam.ofNat 1)).2
      (IdParam.ofNat 1) = .ok none ∧
    (ratingController.deleteRating db2 admin0 (IdParam.ofNat 1)).2 = db2.deleteRating 1 ∧
    (db2.deleteRating 1).ratings = [⟨2, 4, 1, 3, 20, 20⟩] :=
  ⟨by decide,
    (deleteRating_authorization db2 bob (IdParam.ofNat 1) ⟨1, 3, 1, 5, 10, 10⟩
      (by decide)).2.2.1 (by decide),
    (deleteRating_authorization db2 alice (IdParam.ofNat 1) ⟨1, 3, 1, 5, 10, 10⟩
      (by decide)).1.2 (by decide),
    ((deleteRating_authorization db2 admin0 (IdParam.ofNat 1) ⟨1, 3, 1, 5, 10, 10⟩
      (by decide)).2.1 (by decide)).2.1,
    by decide⟩

/-- C14, as amended. For every id parameter that the database reads as an
integer identifying no rating row, `deleteRating` fails with 404 "Rating not
found." whatever the caller's role; for every id parameter that the database
cannot read as an `INTEGER`, the lookup throws and `deleteRating` answers 500
"Internal server error while deleting rating."; in both cases the database, so
the set of rating rows and every store's aggregate, is unchanged.  The route
hands every authenticated caller to the controller. -/
theorem deleteRating_not_found (db : Database) (user : User) (id : IdParam) :
    (∀ k : Int, id.pk = some k → (k < 0 ∨ ∀ r ∈ db.ratings, (r.id : Int) ≠ k) →
      ratingController.deleteRating db user id =
        (⟨404, false, "Rating not found.", .none⟩, db)) ∧
    (id.pk = none →
      ratingController.deleteRating db user id =
        (⟨500, false, "Internal server error while deleting rating.", .none⟩, db)) ∧
    (∀ userId, User.findByPk db userId = some user →
      deleteRatingsId db (.valid userId) id = ratingController.deleteRating db user id) := by
  refine ⟨?_, ?_, fun userId hu => deleteRatingsId_eq db userId user id hu⟩
  · intro k hpk hnone
    have hfind : Rating.findByParam db id = .ok none := by
      unfold Rating.findByParam
      rw [hpk]
      simp only
      by_cases hk : k < 0
      · simp [hk]
      · simp only [hk, if_false]
        congr 1
        simp only [Rating.findByPk, List.find?_eq_none]
        intro r hr
        rcases hnone with h | h
        · exact absurd h hk
        · have := h r hr
          simp only [beq_iff_eq]
          intro heq
          apply this
          rw [heq]
          omega
    unfold ratingController.deleteRating
    rw [hfind]
  · intro hpk
    have hfind : Rating.findByParam db id = .error .other := by
      unfold Rating.findByParam
      rw [hpk]
    unfold ratingController.deleteRating
    rw [hfind]

/-- C14 fails as stated: the id `2147483648` identifies no rating row of `db2`,
yet the database cannot read it as an `INTEGER`, the lookup throws, and the
administrator is answered 500, not 404.  The id `9`, which identifies no row
either, is answered 404. -/
theorem deleteRating_unreadable_id :
    (∀ r ∈ db2.ratings, r.id ≠ 2147483648) ∧
    IdParam.ofNat 2147483648 = ⟨some 2147483648, none⟩ ∧
    ratingController.deleteRating db2 admin0 (IdParam.ofNat 2147483648) =
      (⟨500, false, "Internal server error while deleting rating.", .none⟩, db2) ∧
    deleteRatingsId db2 (.valid 1) (IdParam.ofNat 2147483648) =
      (⟨500, false, "Internal server error while deleting rating.", .none⟩, db2) ∧
    ratingController.deleteRating db2 admin0 (IdParam.ofNat 9) =
      (⟨404, false, "Rating not found.", .none⟩, db2) := by
  decide

/-- The answers of C14 for the administrator on `db2`, which has no rating 9:
404 for the parameter `9` and for a negative id, 500 for a parameter that is
not a numeral. -/
theorem deleteRating_not_found_witness :
    (∀ r ∈ db2.ratings, (r.id : Int) ≠ 9) ∧
    ratingController.deleteRating db2 admin0 (IdParam.ofNat 9) =
      (⟨404, false, "Rating not found.", .none⟩, db2) ∧
    ratingController.deleteRating db2 admin0 ⟨some (-1), some (-1)⟩ =
      (⟨404, false, "Rating not found.", .none⟩, db2) ∧
    ratingController.deleteRating db2 admin0 ⟨none, none⟩ =
      (⟨500, false, "Internal server error while deleting rating.", .none⟩, db2) ∧
    deleteRatingsId db2 (.valid 1) (IdParam.ofNat 9) =
      ratingController.deleteRating db2 admin0 (IdParam.ofNat 9) :=
  ⟨by decide,
    (deleteRating_not_found db2 admin0 (IdParam.ofNat 9)).1 9 (by decide) (Or.inr (by decide)),
    (deleteRating_not_found db2 admin0 ⟨some (-1), some (-1)⟩).1 (-1) rfl (Or.inl (by decide)),
    (deleteRating_not_found db2 admin0 ⟨none, none⟩).2.1 rfl,
    (deleteRating_not_found db2 admin0 (IdParam.ofNat 9)).2.2 1 (by decide)⟩

/-- C13. For every `store_id` that does not identify an existing store,
`submitRating` with any rating value fails with 404 "Store not found.", and the
database is unchanged: no rating row is created or changed and no store
aggregate is written. -/
theorem submitRating_store_not_found (db : Database) (user : User) (store_id : Nat)
    (rating : Int) (hnone : ∀ s ∈ db.stores, s.id ≠ store_id) :
    ratingController.submitRating db user store_id rating =
      (⟨404, false, "Store not found.", .none⟩, db) := by
  have hfind : Store.findByPk db store_id = none := by
    simp only [Store.findByPk, List.find?_eq_none]
    intro s hs
    simpa using hnone s hs
  unfold ratingController.submitRating
  rw [hfind]

/-- The answer of C13 for `alice` rating the store 7, which `db0` does not have. -/
theorem submitRating_store_not_found_witness :
    (∀ s ∈ db0.stores, s.id ≠ 7) ∧
    ratingController.submitRating db0 alice 7 4 =
      (⟨404, false, "Store not found.", .none⟩, db0) :=
  ⟨by decide, submitRating_store_not_found db0 alice 7 4 (by decide)⟩

/-! ## Invalid rating values at the route -/

/-- The schema refuses every body whose rating is not an integer from 1 to 5. -/
theorem ratingSchema_refuses (body : RatingBody) (hbad : ¬ IsValidRating body.rating) :
    ratingSchema body = none := by
  unfold ratingSchema
  cases hs : body.store_id with
  | none => rfl
  | some sid =>
    cases hq : body.rating with
    | none => rfl
    | some q =>
      simp only
      rw [if_neg]
      rintro ⟨-, -, -, hint, h1, h5⟩
      apply hbad
      have hden : q.den = 1 := by simpa [Rat.isInt] using hint
      have hq' : ((q.num : Int) : ℚ) = q := (Rat.den_eq_one_iff q).1 hden
      refine ⟨q.num, ?_, ?_, ?_⟩
      · have : (1 : ℚ) ≤ ((q.num : Int) : ℚ) := by rw [hq']; exact h1
        exact_mod_cast this
      · have : ((q.num : Int) : ℚ) ≤ 5 := by rw [hq']; exact h5
        exact_mod_cast this
      · rw [hq, hq']

/-- C12. A submission is accepted only when its rating value is an integer in
the closed range [1,5]: for every other value the `POST /ratings` pipeline
answers without success and leaves the database unchanged; for a caller who
passes authentication and the role gate the answer is 400 "Validation failed",
given by the validation middleware, so the controller does not run; and the
answer is the same whatever the stores and the ratings tables hold. -/
theorem postRatings_invalid_rating (db : Database) (cred : Credential) (body : RatingBody)
    (hbad : ¬ IsValidRating body.rating) :
    (postRatings db cred body).2 = db ∧
    (postRatings db cred body).1.success = false ∧
    (∀ user, authenticate db cred = .ok user →
      (user.role = Role.user ∨ user.role = Role.admin) →
      postRatings db cred body = (⟨400, false, "Validation failed", .none⟩, db)) ∧
    (∀ (stores : List Store) (ratings : List Rating),
      (postRatings { db with stores := stores, ratings := ratings } cred body).1
        = (postRatings db cred body).1) := by
  have hschema := ratingSchema_refuses body hbad
  have hval : validate ratingSchema (sanitizeInput body)
      = .error ⟨400, false, "Validation failed", .none⟩ := by
    simp only [validate, sanitizeInput, hschema]
  have hgate : ∀ user : User, (requireUser (some user) = .ok ()) ∨
      (∃ msg, requireUser (some user) = .error ⟨403, false, msg, .none⟩) := by
    intro user
    simp only [requireUser, authorize]
    split_ifs
    · exact Or.inl rfl
    · exact Or.inr ⟨_, rfl⟩
  have hshape : ∀ d : Database, d.users = db.users →
      postRatings d cred body =
        ((match authenticate db cred with
          | .error res => res
          | .ok user =>
            match requireUser (some user) with
            | .error res => res
            | .ok _ => ⟨400, false, "Validation failed", .none⟩), d) := by
    intro d hd
    have hauth : authenticate d cred = authenticate db cred := by
      cases cred <;> simp only [authenticate, User.findByPk, hd]
    unfold postRatings
    rw [hauth]
    cases hA : authenticate db cred with
    | error res => rfl
    | ok user =>
      simp only
      rcases hgate user with hok | ⟨msg, herr⟩
      · simp only [hok, hval]
      · simp only [herr]
  have hfalse : (match authenticate db cred with
      | .error res => res
      | .ok user =>
        match requireUser (some user) with
        | .error res => res
        | .ok _ => (⟨400, false, "Validation failed", .none⟩ : Response)).success = false := by
    cases hA : authenticate db cred with
    | error res =>
      cases cred with
      | missing => simp only [authenticate] at hA; cases hA; rfl
      | invalid => simp only [authenticate] at hA; cases hA; rfl
      | valid userId =>
        simp only [authenticate] at hA
        cases hu : User.findByPk db userId with
        | none => rw [hu] at hA; cases hA; rfl
        | some u => rw [hu] at hA; cases hA
    | ok user =>
      simp only
      rcases hgate user with hok | ⟨msg, herr⟩
      · simp only [hok]
      · simp only [herr]
  refine ⟨by rw [hshape db rfl], by rw [hshape db rfl]; exact hfalse, ?_, fun stores ratings => ?_⟩
  · intro user hA hrole
    have hreq : requireUser (some user) = .ok () := by
      rcases hrole with h | h <;> simp [requireUser, authorize, h]
    simp only [postRatings, hA, hreq, hval]
  · rw [hshape { db with stores := stores, ratings := ratings } rfl, hshape db rfl]

/-- The values 0, 6 and 3.5, and an absent value, are not valid ratings. -/
theorem not_isValidRating_examples :
    ¬ IsValidRating (some 0) ∧ ¬ IsValidRating (some 6) ∧ ¬ IsValidRating (some (7 / 2)) ∧
    ¬ IsValidRating none := by
  refine ⟨?_, ?_, ?_, ?_⟩
  · rintro ⟨v, h1, h5, h⟩
    have : (v : ℚ) = 0 := (Option.some.inj h).symm
    have : v = 0 := by exact_mod_cast this
    omega
  · rintro ⟨v, h1, h5, h⟩
    have : (v : ℚ) = 6 := (Option.some.inj h).symm
    have : v = 6 := by exact_mod_cast this
    omega
  · rintro ⟨v, h1, h5, h⟩
    have h' : (v : ℚ) = 7 / 2 := (Option.some.inj h).symm
    interval_cases v <;> norm_num at h'
  · rintro ⟨v, -, -, h⟩
    cases h

/-- The refusal of C12 for `alice` posting the ratings 3.5, 0 and 6 on `db0`. -/
theorem postRatings_invalid_rating_witness :
    ¬ IsValidRating (some (7 / 2)) ∧
    postRatings db0 (.valid 3) ⟨some 1, some (7 / 2)⟩
      = (⟨400, false, "Validation failed", .none⟩, db0) ∧
    postRatings db0 (.valid 3) ⟨some 1, some 0⟩
      = (⟨400, false, "Validation failed", .none⟩, db0) ∧
    postRatings db0 (.valid 3) ⟨some 1, some 6⟩
      = (⟨400, false, "Validation failed", .none⟩, db0) :=
  ⟨not_isValidRating_examples.2.2.1,
    (postRatings_invalid_rating db0 (.valid 3) ⟨some 1, some (7 / 2)⟩
      not_isValidRating_examples.2.2.1).2.2.1 alice (by decide) (by decide),
    (postRatings_invalid_rating db0 (.valid 3) ⟨some 1, some 0⟩
      not_isValidRating_examples.1).2.2.1 alice (by decide) (by decide),
    (postRatings_invalid_rating db0 (.valid 3) ⟨some 1, some 6⟩
      not_isValidRating_examples.2.1).2.2.1 alice (by decide) (by decide)⟩

/-! ## The frame of an update -/

/-- With distinct primary keys, the row found by its id is the row itself. -/
theorem ratingFindByPk_of_mem (db : Database) (hpk : RatingKeysDistinct db) (e : Rating)
    (he : e ∈ db.ratings) : Rating.findByPk db e.id = some e := by
  cases h : Rating.findByPk db e.id with
  | none =>
    simp only [Rating.findByPk, List.find?_eq_none] at h
    have := h e he
    simp at this
  | some x =>
    obtain ⟨hx, hid⟩ := ratingFindByPk_some db e.id x h
    rw [eq_of_id_eq db hpk x e hx he hid]

/-- C15. When `submitRating` finds an existing rating row for (caller id,
store_id) and the submitted value is valid, the rating table after the call is
the table before it with that one row holding the submitted value: the row
keeps its id, user_id, store_id and created_at, its updated_at is the instant
of the save when the value changed and is as before when it did not, no other
row is changed, and no row is created or removed. -/
theorem submitRating_update_frame (db : Database) (hpk : RatingKeysDistinct db) (user : User)
    (store_id : Nat) (T : Store) (rating : Int) (e : Rating)
    (hT : Store.findByPk db store_id = some T) (hown : T.owner_id ≠ user.id)
    (hex : Rating.findOne db user.id store_id = some e) (h1 : 1 ≤ rating) (h5 : rating ≤ 5) :
    (ratingController.submitRating db user store_id rating).2.ratings
      = db.ratings.map (fun r =>
          if r = e then
            ⟨e.id, e.user_id, e.store_id, rating.toNat, e.created_at,
              if (e.rating : Int) = rating then e.updated_at else db.now⟩
          else r) ∧
    Rating.findByPk (ratingController.submitRating db user store_id rating).2 e.id
      = some ⟨e.id, e.user_id, e.store_id, rating.toNat, e.created_at,
          if (e.rating : Int) = rating then e.updated_at else db.now⟩ ∧
    (∀ r ∈ db.ratings, r ≠ e →
      r ∈ (ratingController.submitRating db user store_id rating).2.ratings) ∧
    (ratingController.submitRating db user store_id rating).2.ratings.length
      = db.ratings.length ∧
    (ratingController.submitRating db user store_id rating).2.nextRatingId
      = db.nextRatingId := by
  obtain ⟨hemem, -, -⟩ := findOne_some db _ _ e hex
  have hvn : ((rating.toNat : Nat) : Int) = rating := Int.toNat_of_nonneg (by omega)
  have hdb : (ratingController.submitRating db user store_id rating).2 =
      if (e.rating : Int) = rating then db else db.setRating e.id rating.toNat := by
    rw [submitRating_db, hT]
    simp only
    rw [if_neg hown, hex]
    simp only [save_db]
    by_cases hsame : (e.rating : Int) = rating
    · simp [hsame]
    · rw [if_neg (by omega), if_neg hsame]
  -- the rows and the sequence after the call
  have hrows : (ratingController.submitRating db user store_id rating).2.ratings
        = db.ratings.map (fun r =>
            if r = e then
              ⟨e.id, e.user_id, e.store_id, rating.toNat, e.created_at,
                if (e.rating : Int) = rating then e.updated_at else db.now⟩
            else r) ∧
      (ratingController.submitRating db user store_id rating).2.nextRatingId
        = db.nextRatingId := by
    rw [hdb]
    by_cases hsame : (e.rating : Int) = rating
    · rw [if_pos hsame]
      refine ⟨?_, rfl⟩
      have he : (⟨e.id, e.user_id, e.store_id, rating.toNat, e.created_at,
          if (e.rating : Int) = rating then e.updated_at else db.now⟩ : Rating) = e := by
        have : rating.toNat = e.rating := by omega
        rw [this, if_pos hsame]
      simp only [he]
      conv_lhs => rw [← List.map_id db.ratings]
      apply List.map_congr_left
      intro r _
      by_cases h : r = e <;> simp [h]
    · rw [if_neg hsame]
      refine ⟨?_, rfl⟩
      simp only [Database.setRating, if_neg hsame]
      apply List.map_congr_left
      intro r hr
      by_cases h : r = e
      · subst h; simp
      · have hid : r.id ≠ e.id := fun hid => h (eq_of_id_eq db hpk r e hr hemem hid)
        simp [h, hid]
  refine ⟨hrows.1, ?_, ?_, ?_, hrows.2⟩
  · have hfind := ratingFindByPk_of_mem db hpk e hemem
    simp only [Rating.findByPk] at hfind ⊢
    rw [hrows.1, List.find?_map]
    have hcomp : ((fun r : Rating => r.id == e.id) ∘
        (fun r : Rating =>
          if r = e then
            ⟨e.id, e.user_id, e.store_id, rating.toNat, e.created_at,
              if (e.rating : Int) = rating then e.updated_at else db.now⟩
          else r))
        = (fun r : Rating => r.id == e.id) := by
      funext r
      by_cases h : r = e
      · subst h; simp
      · simp [h]
    rw [hcomp, hfind]
    simp
  · intro r hr hne
    rw [hrows.1, List.mem_map]
    exact ⟨r, hr, by simp [hne]⟩
  · rw [hrows.1, List.length_map]

/-- The frame of C15 for `alice` changing her rating of `shop` from 5 to 2 on
`db2`: her row, created at the instant 10, is updated at the instant 50. -/
theorem submitRating_update_frame_witness :
    RatingKeysDistinct db2 ∧ Store.findByPk db2 1 = some shop2 ∧ shop2.owner_id ≠ alice.id ∧
    Rating.findOne db2 alice.id 1 = some ⟨1, 3, 1, 5, 10, 10⟩ ∧
    ((ratingController.submitRating db2 alice 1 2).2.ratings
      = db2.ratings.map (fun r =>
          if r = ⟨1, 3, 1, 5, 10, 10⟩ then
            ⟨1, 3, 1, (2 : Int).toNat, 10, if ((5 : Nat) : Int) = 2 then 10 else db2.now⟩
          else r) ∧
    Rating.findByPk (ratingController.submitRating db2 alice 1 2).2 1
      = some ⟨1, 3, 1, (2 : Int).toNat, 10, if ((5 : Nat) : Int) = 2 then 10 else db2.now⟩ ∧
    (∀ r ∈ db2.ratings, r ≠ ⟨1, 3, 1, 5, 10, 10⟩ →
      r ∈ (ratingController.submitRating db2 alice 1 2).2.ratings) ∧
    (ratingController.submitRating db2 alice 1 2).2.ratings.length = db2.ratings.length ∧
    (ratingController.submitRating db2 alice 1 2).2.nextRatingId = db2.nextRatingId) ∧
    (ratingController.submitRating db2 alice 1 2).2.ratings =
      [⟨1, 3, 1, 2, 10, 50⟩, ⟨2, 4, 1, 3, 20, 20⟩] :=
  ⟨by decide, by decide, by decide, by decide,
    submitRating_update_frame db2 (by decide) alice 1 shop2 2 ⟨1, 3, 1, 5, 10, 10⟩ (by decide)
      (by decide) (by decide) (by decide) (by decide),
    by decide⟩

/-! ## A failed recomputation -/

/-- A failed `updateRatingStats` is a failed validation and writes nothing. -/
theorem updateRatingStats_error (db : Database) (S : Store) (err : DbError)
    (h : (Store.updateRatingStats db S).1 = .error err) :
    Store.updateRatingStats db S = (.error .validation, db) := by
  rw [updateRatingStats_eq] at h ⊢
  split_ifs at h ⊢ with hc
  rfl

/-- A hook whose `updateRatingStats` fails throws and writes nothing. -/
theorem hook_error (db : Database) (r : Rating) (S : Store) (err : DbError)
    (hS : Store.findByPk db r.store_id = some S)
    (h : (Store.updateRatingStats db S).1 = .error err) :
    Rating.afterCreate db r = (.error .validation, db) := by
  unfold Rating.afterCreate
  rw [hS]
  simp only [updateRatingStats_error db S err h]
  rfl

/-- C16, as amended. If the aggregate recomputation fails during
`submitRating` or `deleteRating`, the operation is reported as failed (400
"Validation failed" by `submitRating`, 500 by `deleteRating`) and no store
aggregate is written, but the rating mutation is not rolled back: the database
after the call is the one before it with the row inserted, updated or deleted. -/
theorem recompute_failure_keeps_mutation (db : Database) (user : User) :
    (∀ (t : Nat) (T : Store) (v : Int) (err : DbError),
      Store.findByPk db t = some T → T.owner_id ≠ user.id →
      Rating.findOne db user.id t = none → 1 ≤ v → v ≤ 5 →
      (Store.updateRatingStats (db.insertRating user.id t v.toNat) T).1 = .error err →
      ratingController.submitRating db user t v =
        (⟨400, false, "Validation failed", .none⟩, db.insertRating user.id t v.toNat)) ∧
    (∀ (t : Nat) (T : Store) (v : Int) (e : Rating) (err : DbError),
      Store.findByPk db t = some T → T.owner_id ≠ user.id →
      Rating.findOne db user.id t = some e → 1 ≤ v → v ≤ 5 → (e.rating : Int) ≠ v →
      (Store.updateRatingStats (db.setRating e.id v.toNat) T).1 = .error err →
      ratingController.submitRating db user t v =
        (⟨400, false, "Validation failed", .none⟩, db.setRating e.id v.toNat)) ∧
    (∀ (id : IdParam) (r : Rating) (S : Store) (err : DbError),
      Rating.findByParam db id = .ok (some r) →
      (user.role = Role.admin ∨ r.user_id = user.id) →
      Store.findByPk db r.store_id = some S →
      (Store.updateRatingStats (db.deleteRating r.id) S).1 = .error err →
      ratingController.deleteRating db user id =
        (⟨500, false, "Internal server error while deleting rating.", .none⟩,
          db.deleteRating r.id)) := by
  refine ⟨?_, ?_, ?_⟩
  · intro t T v err hT hown hnone h1 h5 hfail
    have hhook := hook_error (db.insertRating user.id t v.toNat)
      ⟨db.nextRatingId, user.id, t, v.toNat, db.now, db.now⟩ T err hT hfail
    unfold ratingController.submitRating
    rw [hT]
    simp only
    rw [if_neg hown, hnone]
    simp only [Rating.create]
    rw [if_neg (by omega)]
    simp only [hhook]
    rfl
  · intro t T v e err hT hown hex h1 h5 hne hfail
    obtain ⟨-, -, het⟩ := findOne_some db _ _ e hex
    have hhook : Rating.afterUpdate (db.setRating e.id v.toNat)
        { e with rating := v.toNat, updated_at := db.now }
        = (.error .validation, db.setRating e.id v.toNat) :=
      hook_error (db.setRating e.id v.toNat) { e with rating := v.toNat, updated_at := db.now }
        T err
        (by rw [← hT, ← het]; rfl) hfail
    unfold ratingController.submitRating
    rw [hT]
    simp only
    rw [if_neg hown, hex]
    simp only [Rating.save]
    rw [if_neg hne, if_neg (by omega)]
    simp only [hhook]
    rfl
  · intro id r S err hr hallow hS hfail
    have hhook : Rating.afterDestroy (db.deleteRating r.id) r
        = (.error .validation, db.deleteRating r.id) :=
      hook_error (db.deleteRating r.id) r S err hS hfail
    unfold ratingController.deleteRating
    rw [hr]
    simp only
    rw [if_neg (by tauto)]
    simp only [Rating.destroy, hhook]

/-- C16 fails as stated: in `oddDb` the recomputation after the submission of
`alice` fails and the call answers 400, yet her row stays inserted; in `oddDb2`
the recomputation after the administrator's deletion of her row fails and the
call answers 500, yet the row stays deleted.  The store's aggregate is as
before in both. -/
theorem recompute_failure_not_rolled_back :
    (ratingController.submitRating oddDb alice 1 5).1
      = ⟨400, false, "Validation failed", .none⟩ ∧
    oddDb.ratings = [⟨1, 4, 1, 9, 10, 10⟩] ∧
    (ratingController.submitRating oddDb alice 1 5).2.ratings
      = [⟨1, 4, 1, 9, 10, 10⟩, ⟨2, 3, 1, 5, 50, 50⟩] ∧
    (ratingController.submitRating oddDb alice 1 5).2.stores = oddDb.stores ∧
    (ratingController.deleteRating oddDb2 admin0 (IdParam.ofNat 2)).1
      = ⟨500, false, "Internal server error while deleting rating.", .none⟩ ∧
    oddDb2.ratings = [⟨1, 4, 1, 9, 10, 10⟩, ⟨2, 3, 1, 9, 20, 20⟩] ∧
    (ratingController.deleteRating oddDb2 admin0 (IdParam.ofNat 2)).2.ratings
      = [⟨1, 4, 1, 9, 10, 10⟩] ∧
    (ratingController.deleteRating oddDb2 admin0 (IdParam.ofNat 2)).2.stores = oddDb2.stores := by
  decide

/-- The failed recomputation of C16 on `oddDb`: the row of `alice` stays. -/
theorem recompute_failure_keeps_mutation_witness :
    Store.findByPk oddDb 1 = some shop ∧ Rating.findOne oddDb alice.id 1 = none ∧
    (Store.updateRatingStats (oddDb.insertRating alice.id 1 (5 : Int).toNat) shop).1
      = .error .validation ∧
    ratingController.submitRating oddDb alice 1 5 =
      (⟨400, false, "Validation failed", .none⟩, oddDb.insertRating alice.id 1 (5 : Int).toNat) :=
  ⟨by decide, by decide, by decide,
    (recompute_failure_keeps_mutation oddDb alice).1 1 shop 5 .validation (by decide)
      (by decide) (by decide) (by decide) (by decide) (by decide)⟩

/-! ## A lost race on the unique index -/

/-- Without a row of the pair the unique index lets the insert through. -/
theorem createUnique_eq_create (db : Database) (u t : Nat) (v : Int)
    (hnone : Rating.findOne db u t = none) :
    Rating.createUnique db u t v = Rating.create db u t v := by
  unfold Rating.createUnique
  by_cases hbad : v < 1 ∨ 5 < v
  · rw [if_pos hbad]
    unfold Rating.create
    rw [if_pos hbad]
  · rw [if_neg hbad, hnone]
    rfl

/-- When no other request runs between the lookups and the write,
`submitRatingAt` is `submitRating`. -/
theorem submitRatingAt_self (db : Database) (user : User) (t : Nat) (v : Int) :
    ratingController.submitRatingAt db db user t v
      = ratingController.submitRating db user t v := by
  unfold ratingController.submitRatingAt ratingController.submitRating
  cases hS : Store.findByPk db t with
  | none => rfl
  | some S =>
    simp only
    split_ifs
    · rfl
    · cases hex : Rating.findOne db user.id t with
      | none => simp only [createUnique_eq_create db user.id t v hex]
      | some e => rfl

/-- C17, as amended. When the insert performed by `submitRating` is rejected
by the (user_id, store_id) uniqueness constraint (a row for the pair appeared
after the existence check), `submitRating` does not retry: it answers 500
"Internal server error while submitting rating." and writes no row and no
aggregate, so the row that won the race keeps its value; the rejected insert
has used up one id of the sequence. -/
theorem submitRatingAt_conflict (db db' : Database) (user : User) (t : Nat) (T : Store)
    (v : Int) (e : Rating) (hT : Store.findByPk db t = some T) (hown : T.owner_id ≠ user.id)
    (hnone : Rating.findOne db user.id t = none)
    (hrace : Rating.findOne db' user.id t = some e) (h1 : 1 ≤ v) (h5 : v ≤ 5) :
    ratingController.submitRatingAt db db' user t v =
      (⟨500, false, "Internal server error while submitting rating.", .none⟩,
        { db' with nextRatingId := db'.nextRatingId + 1 }) := by
  unfold ratingController.submitRatingAt
  rw [hT]
  simp only
  rw [if_neg hown, hnone]
  simp only [Rating.createUnique]
  rw [if_neg (by omega), hrace]
  rfl

/-- C17 fails as stated: `alice` finds no row of hers for `shop` in `db0`; by
the time of her insert of the value 5 a concurrent request has stored her
rating 2 (`raceDb`); the insert is rejected and the call answers 500 instead
of updating the row, which still holds 2. -/
theorem submitRating_conflict_not_retried :
    Rating.findOne db0 alice.id 1 = none ∧
    Rating.findOne raceDb alice.id 1 = some ⟨1, 3, 1, 2, 40, 40⟩ ∧
    (ratingController.submitRatingAt db0 raceDb alice 1 5).1
      = ⟨500, false, "Internal server error while submitting rating.", .none⟩ ∧
    (ratingController.submitRatingAt db0 raceDb alice 1 5).1.success = false ∧
    (ratingController.submitRatingAt db0 raceDb alice 1 5).2.ratings = raceDb.ratings ∧
    (ratingController.submitRatingAt db0 raceDb alice 1 5).2.stores = raceDb.stores ∧
    raceDb.nextRatingId = 2 ∧
    (ratingController.submitRatingAt db0 raceDb alice 1 5).2.nextRatingId = 3 ∧
    Rating.findOne (ratingController.submitRatingAt db0 raceDb alice 1 5).2 alice.id 1
      = some ⟨1, 3, 1, 2, 40, 40⟩ := by
  decide

/-- The lost race of C17 for `alice` between `db0` and `raceDb`. -/
theorem submitRatingAt_conflict_witness :
    Store.findByPk db0 1 = some shop ∧ shop.owner_id ≠ alice.id ∧
    Rating.findOne db0 alice.id 1 = none ∧
    Rating.findOne raceDb alice.id 1 = some ⟨1, 3, 1, 2, 40, 40⟩ ∧
    ratingController.submitRatingAt db0 raceDb alice 1 5 =
      (⟨500, false, "Internal server error while submitting rating.", .none⟩,
        { raceDb with nextRatingId := raceDb.nextRatingId + 1 }) :=
  ⟨by decide, by decide, by decide, by decide,
    submitRatingAt_conflict db0 raceDb alice 1 shop 5 ⟨1, 3, 1, 2, 40, 40⟩ (by decide)
      (by decide) (by decide) (by decide) (by decide) (by decide)⟩

/-! ## The store controller and the aggregate fields -/

/-- The controller `createStore` never creates a store: the validators of the
two aggregate fields refuse their defaults. -/
theorem createStore_db (isEmail : String → Bool) (db : Database) (body : StoreBody) :
    (storeController.createStore isEmail db body).2 = db ∧
      (storeController.createStore isEmail db body).1.status ≠ 201 := by
  unfold storeController.createStore
  cases User.findByPk db body.owner_id with
  | none => exact ⟨rfl, by simp⟩
  | some owner =>
    simp only [(store_validators_refuse 0).1, Bool.and_false, Bool.false_and, Bool.not_false,
      if_true]
    split_ifs <;> exact ⟨rfl, by simp⟩

/-- C19. The store controller does not produce a store at all: for every
request body `createStore` leaves the database as it was and never answers
201, because `Store.create` validates the defaults `0.00` and `0` of the two
aggregate fields and the validator `min` refuses them; on `db0` the body
`pushyCreate`, whose owner is a store owner, whose email is free and whose
name and email are valid, is answered 400 'Validation failed'.  The other half
holds: `updateStore` leaves the id, `owner_id`, `average_rating` and
`total_ratings` of every store, and the users and the ratings, exactly as they
were. -/
theorem createStore_never_creates :
    (∀ (isEmail : String → Bool) (db : Database) (req : CreateStoreRequest),
      (storeController.createStore isEmail db req.body).2 = db ∧
        (storeController.createStore isEmail db req.body).1.status ≠ 201) ∧
    User.findByPk db0 pushyCreate.owner_id = some carol ∧ carol.role = Role.store_owner ∧
    db0.stores.find? (fun s => s.email == pushyCreate.email) = none ∧
    Store.nameValid pushyCreate.name = true ∧ hasAt pushyCreate.email = true ∧
    Store.addressValid pushyCreate.address = true ∧
    storeController.createStore hasAt db0 pushyCreate.body =
      (⟨400, false, "Validation failed", .none⟩, db0) ∧
    (∀ (isEmail : String → Bool) (db : Database) (user : User) (id : Nat)
        (req : UpdateStoreRequest),
      (storeController.updateStore isEmail db user id req.body).2.stores.map
          (fun s => (s.id, s.owner_id, s.average_rating, s.total_ratings))
        = db.stores.map (fun s => (s.id, s.owner_id, s.average_rating, s.total_ratings)) ∧
      (storeController.updateStore isEmail db user id req.body).2.ratings = db.ratings ∧
      (storeController.updateStore isEmail db user id req.body).2.users = db.users) ∧
    (storeController.updateStore hasAt db2 owner0 1 pushyUpdate.body).1.status = 200 ∧
    Store.findByPk (storeController.updateStore hasAt db2 owner0 1 pushyUpdate.body).2 1
      = some ⟨1, "The Corner Bookshop Limited", "books@example.com", none, 2, 400, 2⟩ := by
  refine ⟨fun isEmail db req => createStore_db isEmail db req.body, by decide, by decide,
    by decide, by decide, by decide, by decide, by decide, ?_, by decide, by decide⟩
  intro isEmail db user id req
  rcases updateStore_effect isEmail db user id req.body with he | ⟨i, name, email, address, he⟩
  · rw [he]
    exact ⟨rfl, rfl, rfl⟩
  · rw [he]
    refine ⟨?_, rfl, rfl⟩
    simp only [List.map_map]
    apply List.map_congr_left
    intro s _
    by_cases h : s.id = i <;> simp [h]

/-! ## Deleting a user -/

/-- C20 fails on the code: in `db2` every store agrees with its rating rows;
the administrator deletes `alice`, the call answers 200, her rating of `shop`
is removed by the cascade, no hook runs, and `shop` still shows `(4.00, 2)`
although its only remaining rating is the 3 of `bob`. -/
theorem deleteUser_leaves_stale_aggregate :
    AggregateConsistent db2 ∧
    (userController.deleteUser db2 admin0 (IdParam.ofNat 3)).1
      = ⟨200, true, "User deleted successfully.", .none⟩ ∧
    (userController.deleteUser db2 admin0 (IdParam.ofNat 3)).2.users
      = [admin0, owner0, bob, carol] ∧
    (userController.deleteUser db2 admin0 (IdParam.ofNat 3)).2.ratings
      = [⟨2, 4, 1, 3, 20, 20⟩] ∧
    Store.findByPk (userController.deleteUser db2 admin0 (IdParam.ofNat 3)).2 1
      = some { shop with average_rating := 400, total_ratings := 2 } ∧
    ¬ AggregateConsistent (userController.deleteUser db2 admin0 (IdParam.ofNat 3)).2 := by
  decide

/-! ## The role gate -/

/-- C22. The gate `authorize(...allowedRoles)` calls `next` exactly when
`req.user` is present and its role is one of `allowedRoles`; an absent
`req.user` is answered 401, a role that is not listed is answered 403, and the
outcome is a function of `allowedRoles` and `req.user` that reads only the
role of the user. -/
theorem authorize_decision (allowedRoles : List Role) (user : Option User) :
    (authorize allowedRoles user = .ok () ↔ ∃ u, user = some u ∧ u.role ∈ allowedRoles) ∧
      (user = none →
        authorize allowedRoles user =
          .error ⟨401, false, "Access denied. User not authenticated.", .none⟩) ∧
      (∀ u, user = some u → u.role ∉ allowedRoles →
        authorize allowedRoles user =
          .error ⟨403, false,
            "Access denied. Required role: " ++
              String.intercalate " or " (allowedRoles.map Role.toString) ++
              ". Your role: " ++ u.role.toString, .none⟩) ∧
      (∀ u u' : User, u.role = u'.role →
        authorize allowedRoles (some u) = authorize allowedRoles (some u')) := by
  refine ⟨?_, ?_, ?_, ?_⟩
  · cases user with
    | none => simp [authorize]
    | some u =>
      by_cases h : u.role ∈ allowedRoles
      · simp [authorize, h]
      · simp [authorize, h]
  · rintro rfl
    rfl
  · rintro u rfl h
    simp [authorize, h]
  · intro u u' h
    simp [authorize, h]

/-- The gate of `POST /ratings` on `db0`: no user is answered 401, the store
owner `carol` is answered 403 with both roles named, and `alice` passes; the
admin passes like any other admin. -/
theorem authorize_decision_witness :
    authorize [Role.user, Role.admin] none =
        .error ⟨401, false, "Access denied. User not authenticated.", .none⟩ ∧
      authorize [Role.user, Role.admin] (some carol) =
        .error ⟨403, false,
          "Access denied. Required role: user or admin. Your role: store_owner", .none⟩ ∧
      (authorize [Role.user, Role.admin] (some alice) = .ok () ↔
        ∃ u, some alice = some u ∧ u.role ∈ [Role.user, Role.admin]) ∧
      authorize [Role.user, Role.admin] (some alice) = .ok () ∧
      authorize [Role.user, Role.admin] (some alice) =
        authorize [Role.user, Role.admin] (some bob) :=
  ⟨(authorize_decision [Role.user, Role.admin] none).2.1 rfl,
    ((authorize_decision [Role.user, Role.admin] (some carol)).2.2.1 carol rfl
      (by decide)).trans (by decide),
    (authorize_decision [Role.user, Role.admin] (some alice)).1,
    (authorize_decision [Role.user, Role.admin] (some alice)).1.mpr ⟨alice, rfl, by decide⟩,
    (authorize_decision [Role.user, Role.admin] (some alice)).2.2.2 alice bob rfl⟩

/-! ## The owner check of `createStore` -/

/-- C25. The controller `createStore` creates a store only when a user with
id `owner_id` exists and has role `store_owner` or `admin`: when no such user
exists it answers 404, when the user has role `user` it answers 400, and in
both cases the database is unchanged.  An owner with one of the two roles gets
past the check, to the answers of the later steps. -/
theorem createStore_owner_check (isEmail : String → Bool) (db : Database) (body : StoreBody) :
    ((storeController.createStore isEmail db body).2 ≠ db →
        ∃ owner, User.findByPk db body.owner_id = some owner ∧
          (owner.role = Role.store_owner ∨ owner.role = Role.admin)) ∧
      ((storeController.createStore isEmail db body).1.status = 201 →
        ∃ owner, User.findByPk db body.owner_id = some owner ∧
          (owner.role = Role.store_owner ∨ owner.role = Role.admin)) ∧
      (User.findByPk db body.owner_id = none →
        storeController.createStore isEmail db body =
          (⟨404, false, "Store owner not found.", .none⟩, db)) ∧
      (∀ owner, User.findByPk db body.owner_id = some owner → owner.role = Role.user →
        storeController.createStore isEmail db body =
          (⟨400, false, "Only users with store_owner or admin role can own a store.", .none⟩,
            db)) ∧
      (∀ owner, User.findByPk db body.owner_id = some owner →
        (owner.role = Role.store_owner ∨ owner.role = Role.admin) →
        (storeController.createStore isEmail db body).1 =
            ⟨409, false, "Store with this email already exists.", .none⟩ ∨
          (storeController.createStore isEmail db body).1 =
            ⟨400, false, "Validation failed", .none⟩) := by
  unfold storeController.createStore
  cases hfind : User.findByPk db body.owner_id with
  | none => simp
  | some owner =>
    have hv := (store_validators_refuse 0).1
    cases hrole : owner.role with
    | user => simp [hrole]
    | admin =>
      by_cases h : (db.stores.find? (fun s => s.email == body.email)).isSome <;>
        simp [hrole, hv, h]
    | store_owner =>
      by_cases h : (db.stores.find? (fun s => s.email == body.email)).isSome <;>
        simp [hrole, hv, h]

/-- On `db0` no user has id 77, `alice` has role `user`, and `carol` is a store
owner, for whom the request gets past the owner check. -/
theorem createStore_owner_check_witness :
    storeController.createStore hasAt db0
        ⟨"The Second Hand Record Shop", "records@example.com", none, 77⟩ =
        (⟨404, false, "Store owner not found.", .none⟩, db0) ∧
      storeController.createStore hasAt db0
        ⟨"The Second Hand Record Shop", "records@example.com", none, 3⟩ =
        (⟨400, false, "Only users with store_owner or admin role can own a store.", .none⟩,
          db0) ∧
      User.findByPk db0 5 = some carol ∧ carol.role = Role.store_owner ∧
      ((storeController.createStore hasAt db0
          ⟨"The Second Hand Record Shop", "records@example.com", none, 5⟩).1 =
            ⟨409, false, "Store with this email already exists.", .none⟩ ∨
        (storeController.createStore hasAt db0
          ⟨"The Second Hand Record Shop", "records@example.com", none, 5⟩).1 =
            ⟨400, false, "Validation failed", .none⟩) :=
  ⟨(createStore_owner_check hasAt db0
      ⟨"The Second Hand Record Shop", "records@example.com", none, 77⟩).2.2.1 (by decide),
    (createStore_owner_check hasAt db0
      ⟨"The Second Hand Record Shop", "records@example.com", none, 3⟩).2.2.2.1 alice (by decide)
      (by decide),
    by decide, by decide,
    (createStore_owner_check hasAt db0
      ⟨"The Second Hand Record Shop", "records@example.com", none, 5⟩).2.2.2.2 carol (by decide)
      (Or.inl (by decide))⟩

/-! ## The permission check of `updateStore` -/

/-- C26. For an existing store, `updateStore` gets past its permission check
exactly when the caller is an admin or the owner of the store; every other
caller is answered 403 with the message of the check and the database is
unchanged.  The route admits every authenticated caller to the controller. -/
theorem updateStore_permission (isEmail : String → Bool) (db : Database) (user : User)
    (id : Nat) (body : StoreUpdateBody) (store : Store)
    (hstore : Store.findByPk db id = some store) :
    ((storeController.updateStore isEmail db user id body).1.status ≠ 403 ↔
        (user.role = Role.admin ∨ user.id = store.owner_id)) ∧
      (¬ (user.role = Role.admin ∨ user.id = store.owner_id) →
        storeController.updateStore isEmail db user id body =
          (⟨403, false, "You can only update your own store.", .none⟩, db)) ∧
      (∀ cred, authenticate db cred = .ok user →
        putStoresId isEmail db cred id body =
          storeController.updateStore isEmail db user id body.sanitizeInput) := by
  refine ⟨?_, ?_, ?_⟩
  · unfold storeController.updateStore
    rw [hstore]
    simp only
    by_cases hden : user.role ≠ Role.admin ∧ user.id ≠ store.owner_id
    · rw [if_pos hden]
      simp only [ne_eq, not_true_eq_false, false_iff, not_or]
      exact hden
    · rw [if_neg hden]
      have hperm : user.role = Role.admin ∨ user.id = store.owner_id := by
        by_contra hno
        exact hden ⟨fun h => hno (Or.inl h), fun h => hno (Or.inr h)⟩
      simp only [hperm, iff_true]
      split_ifs <;> simp
  · intro hno
    unfold storeController.updateStore
    rw [hstore]
    simp only
    rw [if_pos ⟨fun h => hno (Or.inl h), fun h => hno (Or.inr h)⟩]
  · intro cred hcred
    unfold putStoresId
    rw [hcred]
    simp only
    rw [requireUserOrStoreOwner_ok]

/-- The user `carol`, who is neither admin nor the owner of `shop`, is refused
on `db0`. -/
theorem updateStore_permission_witness :
    Store.findByPk db0 1 = some shop ∧
      (((storeController.updateStore hasAt db0 carol 1
            ⟨some "The Corner Bookshop Limited", none, none⟩).1.status ≠ 403 ↔
          (carol.role = Role.admin ∨ carol.id = shop.owner_id)) ∧
        (¬ (carol.role = Role.admin ∨ carol.id = shop.owner_id) →
          storeController.updateStore hasAt db0 carol 1
              ⟨some "The Corner Bookshop Limited", none, none⟩ =
            (⟨403, false, "You can only update your own store.", .none⟩, db0)) ∧
        (∀ cred, authenticate db0 cred = .ok carol →
          putStoresId hasAt db0 cred 1 ⟨some "The Corner Bookshop Limited", none, none⟩ =
            storeController.updateStore hasAt db0 carol 1
              (StoreUpdateBody.sanitizeInput
                ⟨some "The Corner Bookshop Limited", none, none⟩))) :=
  ⟨by decide, updateStore_permission hasAt db0 carol 1
    ⟨some "The Corner Bookshop Limited", none, none⟩ shop (by decide)⟩

/-! ## Deleting one's own account -/

/-- C27. For every caller and every `id` parameter for which `parseInt(id)`
is the caller's id, `deleteUser` answers 400 'You cannot delete your own
account.' and returns the database as it was, whatever the database makes of
the parameter and whether or not a user with that id exists. -/
theorem deleteUser_own_account (db : Database) (user : User) (id : String) (pk : Option Int)
    (h : parseInt id = some (user.id : Int)) :
    userController.deleteUser db user ⟨parseInt id, pk⟩ =
        (⟨400, false, "You cannot delete your own account.", .none⟩, db) ∧
      (userController.deleteUser db user ⟨parseInt id, pk⟩).2.users = db.users := by
  have hres : userController.deleteUser db user ⟨parseInt id, pk⟩ =
      (⟨400, false, "You cannot delete your own account.", .none⟩, db) := by
    unfold userController.deleteUser
    rw [if_pos h]
  exact ⟨hres, by rw [hres]⟩

/-- The admin of `db0` with the parameter `1`, and a caller with id 9, which no
user of `db0` has, with the parameter `9abc`. -/
theorem deleteUser_own_account_witness :
    parseInt "1" = some (admin0.id : Int) ∧
      (userController.deleteUser db0 admin0 ⟨parseInt "1", some 1⟩ =
          (⟨400, false, "You cannot delete your own account.", .none⟩, db0) ∧
        (userController.deleteUser db0 admin0 ⟨parseInt "1", some 1⟩).2.users = db0.users) ∧
      User.findByPk db0 9 = none ∧
      parseInt " 9abc" = some (({ admin0 with id := 9 } : User).id : Int) ∧
      (userController.deleteUser db0 { admin0 with id := 9 } ⟨parseInt " 9abc", none⟩ =
          (⟨400, false, "You cannot delete your own account.", .none⟩, db0) ∧
        (userController.deleteUser db0 { admin0 with id := 9 } ⟨parseInt " 9abc", none⟩).2.users =
          db0.users) :=
  ⟨by decide, deleteUser_own_account db0 admin0 "1" (some 1) (by decide), by decide, by decide,
    deleteUser_own_account db0 { admin0 with id := 9 } " 9abc" none (by decide)⟩

/-! ## Locality of a rating mutation -/

/-- Nothing changed is local to every store. -/
theorem localTo_refl (t : Nat) (db : Database) : LocalTo t db db := ⟨rfl, rfl, rfl⟩

/-- Changes local to one store compose. -/
theorem localTo_trans (t : Nat) (a b c : Database) (hab : LocalTo t a b) (hbc : LocalTo t b c) :
    LocalTo t a c :=
  ⟨hbc.1.trans hab.1, hbc.2.1.trans hab.2.1, hbc.2.2.trans hab.2.2⟩

/-- Writing the aggregate of store `t` is local to `t`. -/
theorem localTo_setStoreStats (t a n : Nat) (db : Database) :
    LocalTo t db (db.setStoreStats t a n) := by
  refine ⟨rfl, rfl, ?_⟩
  simp only [Database.setStoreStats, List.map_map]
  apply List.map_congr_left
  intro s _
  by_cases h : s.id = t <;> simp [h]

/-- Inserting a row of store `t` is local to `t`. -/
theorem localTo_insertRating (db : Database) (u t v : Nat) :
    LocalTo t db (db.insertRating u t v) := by
  refine ⟨rfl, ?_, rfl⟩
  simp [Database.insertRating, List.filter_append]

/-- A filter does not see a map that fixes the rows it keeps and keeps the
test of every row. -/
theorem filter_map_of_fix {α : Type} (p : α → Bool) (f : α → α) (l : List α)
    (h : ∀ r ∈ l, p (f r) = p r ∧ (p r = true → f r = r)) :
    (l.map f).filter p = l.filter p := by
  induction l with
  | nil => rfl
  | cons a l ih =>
    have ha := h a (List.mem_cons_self a l)
    have ih' := ih (fun r hr => h r (List.mem_cons_of_mem a hr))
    simp only [List.map_cons, List.filter_cons, ha.1, ih']
    by_cases hp : p a = true
    · simp [hp, ha.2 hp]
    · simp [hp]

/-- Updating the row with the primary key of a row of store `t` is local to `t`. -/
theorem localTo_setRating (db : Database) (hkeys : RatingKeysDistinct db) (e : Rating)
    (he : e ∈ db.ratings) (v : Nat) : LocalTo e.store_id db (db.setRating e.id v) := by
  refine ⟨rfl, ?_, rfl⟩
  simp only [Database.setRating]
  apply filter_map_of_fix
  intro r hr
  by_cases hid : r.id = e.id
  · have hre : r = e := eq_of_id_eq db hkeys r e hr he hid
    subst hre
    simp
  · simp [hid]

/-- Deleting the row with the primary key of a row of store `t` is local to `t`. -/
theorem localTo_deleteRating (db : Database) (hkeys : RatingKeysDistinct db) (r : Rating)
    (hr : r ∈ db.ratings) : LocalTo r.store_id db (db.deleteRating r.id) := by
  refine ⟨rfl, ?_, rfl⟩
  simp only [Database.deleteRating, List.filter_filter]
  apply List.filter_congr
  intro x hx
  by_cases hid : x.id = r.id
  · have hxr : x = r := eq_of_id_eq db hkeys x r hx hr hid
    subst hxr
    simp
  · simp [hid]

/-- The method `updateRatingStats` of a store is local to that store. -/
theorem updateRatingStats_local (db : Database) (S : Store) :
    LocalTo S.id db (Store.updateRatingStats db S).2 := by
  rw [updateRatingStats_db]
  exact localTo_refl _ _

/-- The hook of a rating is local to the store of the rating. -/
theorem hook_local (db : Database) (r : Rating) :
    LocalTo r.store_id db (Rating.afterCreate db r).2 := by
  unfold Rating.afterCreate
  cases h : Store.findByPk db r.store_id with
  | none => exact localTo_refl _ _
  | some S =>
    have hid := findByPk_id db r.store_id S h
    have := updateRatingStats_local db S
    rw [hid] at this
    exact this

/-- The call `Rating.create` for store `t` is local to `t`. -/
theorem create_local (db : Database) (u t : Nat) (v : Int) :
    LocalTo t db (Rating.create db u t v).2 := by
  unfold Rating.create
  by_cases hbad : v < 1 ∨ 5 < v
  · rw [if_pos hbad]; exact localTo_refl _ _
  · rw [if_neg hbad]
    exact localTo_trans t _ _ _ (localTo_insertRating db u t v.toNat)
      (hook_local (db.insertRating u t v.toNat) ⟨db.nextRatingId, u, t, v.toNat, db.now, db.now⟩)

/-- The save of a row of the table is local to the store of the row. -/
theorem save_local (db : Database) (hkeys : RatingKeysDistinct db) (e : Rating)
    (he : e ∈ db.ratings) (v : Int) : LocalTo e.store_id db (Rating.save db e v).2 := by
  unfold Rating.save
  by_cases hsame : (e.rating : Int) = v
  · rw [if_pos hsame]; exact localTo_refl _ _
  · rw [if_neg hsame]
    by_cases hbad : v < 1 ∨ 5 < v
    · rw [if_pos hbad]; exact localTo_refl _ _
    · rw [if_neg hbad]
      exact localTo_trans e.store_id _ _ _ (localTo_setRating db hkeys e he v.toNat)
        (hook_local (db.setRating e.id v.toNat) { e with rating := v.toNat })

/-- The destruction of a row of the table is local to the store of the row. -/
theorem destroy_local (db : Database) (hkeys : RatingKeysDistinct db) (r : Rating)
    (hr : r ∈ db.ratings) : LocalTo r.store_id db (Rating.destroy db r).2 :=
  localTo_trans r.store_id _ _ _ (localTo_deleteRating db hkeys r hr)
    (hook_local (db.deleteRating r.id) r)

/-- C28. With rating ids a primary key, a `submitRating` call for store `t`
and a `deleteRating` call for a rating of store `t` change at most the rating
rows of `t` and the two aggregate fields of `t`: the users, every rating row
of every other store and every other store's record are as before, and so are
the remaining fields of `t`.  A `deleteRating` call whose parameter identifies
no rating changes nothing. -/
theorem rating_mutation_local (db : Database) (hkeys : RatingKeysDistinct db) (user : User) :
    (∀ (t : Nat) (v : Int), LocalTo t db (ratingController.submitRating db user t v).2) ∧
      (∀ (id : IdParam) (r : Rating), Rating.findByParam db id = .ok (some r) →
        LocalTo r.store_id db (ratingController.deleteRating db user id).2) ∧
      (∀ id : IdParam, (∀ r, Rating.findByParam db id ≠ .ok (some r)) →
        (ratingController.deleteRating db user id).2 = db) := by
  refine ⟨?_, ?_, ?_⟩
  · intro t v
    unfold ratingController.submitRating
    cases hS : Store.findByPk db t with
    | none => exact localTo_refl _ _
    | some S =>
      simp only
      by_cases hown : S.owner_id = user.id
      · rw [if_pos hown]; exact localTo_refl _ _
      · rw [if_neg hown]
        cases hex : Rating.findOne db user.id t with
        | none => exact create_local db user.id t v
        | some e =>
          obtain ⟨he, -, het⟩ := findOne_some db user.id t e hex
          have := save_local db hkeys e he v
          rw [het] at this
          exact this
  · intro id r hr
    obtain ⟨hmem, -⟩ := findByParam_some db id r hr
    unfold ratingController.deleteRating
    rw [hr]
    simp only
    by_cases hden : user.role ≠ Role.admin ∧ r.user_id ≠ user.id
    · rw [if_pos hden]; exact localTo_refl _ _
    · rw [if_neg hden]
      exact destroy_local db hkeys r hmem
  · intro id hr
    rcases deleteRating_effect db user id with he | ⟨r, -, hfound, -⟩
    · exact he
    · exact absurd hfound (hr r)

/-- The state `twoShops` has two stores with a rating each; `alice` rates
store 1 anew and deletes her rating of it, which changes store 1 and leaves
store 2. -/
theorem rating_mutation_local_witness :
    RatingKeysDistinct twoShops ∧
      ((∀ (t : Nat) (v : Int),
          LocalTo t twoShops (ratingController.submitRating twoShops alice t v).2) ∧
        (∀ (id : IdParam) (r : Rating), Rating.findByParam twoShops id = .ok (some r) →
          LocalTo r.store_id twoShops (ratingController.deleteRating twoShops alice id).2) ∧
        (∀ id : IdParam, (∀ r, Rating.findByParam twoShops id ≠ .ok (some r)) →
          (ratingController.deleteRating twoShops alice id).2 = twoShops)) ∧
      (ratingController.submitRating twoShops alice 1 2).2 ≠ twoShops ∧
      (ratingController.deleteRating twoShops alice (IdParam.ofNat 1)).2 ≠ twoShops :=
  ⟨by decide, rating_mutation_local twoShops (by decide) alice, by decide, by decide⟩

/-! ## Registration and login -/

/-- The validator `isAlpha` refuses every string that holds a character other
than a letter. -/
theorem isAlpha_false_of_mem (str : String) (c : Char) (hc : c ∈ str.toList)
    (hnot : isLetter c = false) : isAlpha str = false := by
  unfold isAlpha
  have : str.toList.all isLetter = false := by
    rw [List.all_eq_false]
    exact ⟨c, hc, by simp [hnot]⟩
  rw [this, Bool.and_false]

/-- The role that `Role.ofString` reads is the role the string names. -/
theorem ofString_eq_some (s : String) (role : Role) (h : Role.ofString s = some role) :
    s = role.toString := by
  unfold Role.ofString at h
  split_ifs at h with h1 h2 h3
  · cases h; exact h1
  · cases h; exact h2
  · cases h; exact h3

/-- An accepted body yields its sanitized members, with the role it names or
`user` when it names none. -/
theorem userRegistrationSchema_some (joiEmail : String → Bool) (body : RegisterBody)
    (value : Registration) (h : userRegistrationSchema joiEmail body = some value) :
    body.name = some value.name ∧ body.email = some value.email ∧
      body.password = some value.password ∧ body.address = value.address ∧
      ∃ role, value.role = some role ∧ (body.role = none → role = Role.user) ∧
        (∀ r, body.role = some r → Role.ofString r = some role) := by
  unfold userRegistrationSchema at h
  cases hn : body.name with
  | none => simp [hn] at h
  | some name =>
    cases he : body.email with
    | none => simp [hn, he] at h
    | some email =>
      cases hp : body.password with
      | none => simp [hn, he, hp] at h
      | some password =>
        simp only [hn, he, hp] at h
        split_ifs at h
        cases hr : body.role with
        | none =>
          simp only [hr, Option.some.injEq] at h
          subst h
          exact ⟨rfl, rfl, rfl, rfl, Role.user, rfl, fun _ => rfl, fun r hr' => (by cases hr')⟩
        | some r =>
          simp only [hr, Option.map_eq_some'] at h
          obtain ⟨role, hrole, hval⟩ := h
          subst hval
          exact ⟨rfl, rfl, rfl, rfl, role, rfl, fun hr' => (by cases hr'),
            fun r' hr' => (by cases hr'; exact hrole)⟩

/-- C23. The name rule of `userRegistrationSchema` accepts the name
'Dora Dalton Of Dorchester', 25 letters and spaces, and the schema accepts the
body that carries it, but the validator `isAlpha` of `User.name` refuses it, so
`User.create` fails and the registration is answered 400 with nothing stored.
The model refuses every name that holds a space, although its message says
'Name can only contain letters and spaces'. -/
theorem register_rejects_name_with_spaces :
    joiName "Dora Dalton Of Dorchester" = true ∧
      (userRegistrationSchema hasAt doraBody.sanitizeInput).isSome = true ∧
      User.nameValid "Dora Dalton Of Dorchester" = false ∧
      (∀ hash : String → String,
        postRegister hasAt hasAt hash db0 doraBody =
          (⟨400, false, "Validation failed", none⟩, db0)) ∧
      (∀ name : String, ' ' ∈ name.toList → User.nameValid name = false) := by
  refine ⟨by decide, by decide, by decide, fun hash => ?_, ?_⟩
  · have hs : userRegistrationSchema hasAt doraBody.sanitizeInput =
        some ⟨"Dora Dalton Of Dorchester", "dora@example.com", "Dora#2024", none,
          some Role.user⟩ := by decide
    have hf : User.findOne db0 "dora@example.com" = none := by decide
    have hv : User.validate hasAt "Dora Dalton Of Dorchester" "dora@example.com" "Dora#2024"
        none = false := by decide
    simp [postRegister, hs, authController.register, hf, hv]
  · intro name hmem
    unfold User.nameValid
    rw [isAlpha_false_of_mem name ' ' hmem (by decide)]
    simp

/-- C24. The client's `validatePassword` accepts the password 'Secret<Key>'
(11 characters, uppercase letters, the special characters `<` and `>`), and
so do the password rule of the schema and the validators of `User.password`
on the password as typed; but `sanitizeInput` turns it into 'SecretKey', which
has no special character, so the registration pipeline answers 400 whatever
the other members of the body are. -/
theorem register_rejects_angle_password :
    validatePassword "Secret<Key>" = true ∧
      joiPassword "Secret<Key>" = true ∧
      User.passwordValid "Secret<Key>" = true ∧
      sanitizeString "Secret<Key>" = "SecretKey" ∧
      joiPassword (sanitizeString "Secret<Key>") = false ∧
      (∀ (joiEmail isEmail : String → Bool) (hash : String → String) (db : Database)
          (name email address role : Option String),
        postRegister joiEmail isEmail hash db ⟨name, email, some "Secret<Key>", address, role⟩ =
          (⟨400, false, "Validation failed", none⟩, db)) := by
  refine ⟨by decide, by decide, by decide, by decide, by decide, ?_⟩
  intro joiEmail isEmail hash db name email address role
  have hp : joiPassword (sanitizeString "Secret<Key>") = false := by decide
  have hs : userRegistrationSchema joiEmail
      (RegisterBody.sanitizeInput ⟨name, email, some "Secret<Key>", address, role⟩) = none := by
    unfold userRegistrationSchema RegisterBody.sanitizeInput
    cases name <;> cases email <;> simp [hp]
  simp [postRegister, hs]

/-- The schema accepts a body that asks for the role `admin` under an email
that is registered already; `register` answers 409 and creates no user. -/
theorem register_taken_email_refused :
    userRegistrationSchema hasAt takenBody.sanitizeInput =
        some ⟨"AliceAndersonOfAvalon", "alice@example.com", "Alice#2024", none,
          some Role.admin⟩ ∧
      ∀ hash : String → String,
        postRegister hasAt hasAt hash db0 takenBody =
          (⟨409, false, "User with this email already exists.", none⟩, db0) := by
  refine ⟨by decide, fun hash => ?_⟩
  have hs : userRegistrationSchema hasAt takenBody.sanitizeInput =
      some ⟨"AliceAndersonOfAvalon", "alice@example.com", "Alice#2024", none,
        some Role.admin⟩ := by decide
  have hf : (User.findOne db0 "alice@example.com").isSome = true := by decide
  simp [postRegister, hs, authController.register, hf]

/-- C29, amended. For every body that `userRegistrationSchema` accepts, with
no credential read anywhere in the route: the role of the validated value is
the role the body names, or `user` when the body names none; when the email is
registered already the answer is 409 and no user is created; when it is not
and the validators of the User model accept the values, `register` answers 201
and appends one user with that role, the next id and the hashed password. -/
theorem register_assigns_requested_role (joiEmail isEmail : String → Bool)
    (hash : String → String) (db : Database) (body : RegisterBody) (value : Registration)
    (haccept : userRegistrationSchema joiEmail body.sanitizeInput = some value) :
    ∃ role : Role,
      (body.role = none → role = Role.user) ∧
      (∀ r, body.role = some r → sanitizeString r = role.toString) ∧
      ((User.findOne db value.email).isSome = true →
        postRegister joiEmail isEmail hash db body =
          (⟨409, false, "User with this email already exists.", none⟩, db)) ∧
      (User.findOne db value.email = none →
        User.validate isEmail value.name value.email value.password value.address = true →
        postRegister joiEmail isEmail hash db body =
          (⟨201, true, "User registered successfully.",
              some ⟨db.nextUserId, value.name, value.email, value.address, role⟩⟩,
            { db with
              users := db.users ++
                [⟨db.nextUserId, value.name, value.email, hash value.password, value.address,
                  role⟩]
              nextUserId := db.nextUserId + 1 })) := by
  obtain ⟨-, -, -, -, role, hrole, hnone, hsome⟩ :=
    userRegistrationSchema_some joiEmail _ value haccept
  refine ⟨role, ?_, ?_, ?_, ?_⟩
  · intro hb
    exact hnone (by simp [RegisterBody.sanitizeInput, hb])
  · intro r hb
    exact ofString_eq_some _ _ (hsome (sanitizeString r) (by simp [RegisterBody.sanitizeInput, hb]))
  · intro htaken
    simp [postRegister, haccept, authController.register, htaken]
  · intro hfresh hvalid
    simp [postRegister, haccept, authController.register, hfresh, hvalid, hrole]

/-- The body `eveBody`, sent without any credential, creates an administrator
in `db0`. -/
theorem register_assigns_requested_role_witness :
    userRegistrationSchema hasAt eveBody.sanitizeInput =
        some ⟨"EvelynEverettOfEvesham", "eve@example.com", "Eve#2024!", none, some Role.admin⟩ ∧
      (∃ role : Role,
        (eveBody.role = none → role = Role.user) ∧
        (∀ r, eveBody.role = some r → sanitizeString r = role.toString) ∧
        ((User.findOne db0 "eve@example.com").isSome = true →
          postRegister hasAt hasAt hash0 db0 eveBody =
            (⟨409, false, "User with this email already exists.", none⟩, db0)) ∧
        (User.findOne db0 "eve@example.com" = none →
          User.validate hasAt "EvelynEverettOfEvesham" "eve@example.com" "Eve#2024!" none = true →
          postRegister hasAt hasAt hash0 db0 eveBody =
            (⟨201, true, "User registered successfully.",
                some ⟨db0.nextUserId, "EvelynEverettOfEvesham", "eve@example.com", none, role⟩⟩,
              { db0 with
                users := db0.users ++
                  [⟨db0.nextUserId, "EvelynEverettOfEvesham", "eve@example.com",
                    hash0 "Eve#2024!", none, role⟩]
                nextUserId := db0.nextUserId + 1 }))) ∧
      User.findOne db0 "eve@example.com" = none ∧
      User.validate hasAt "EvelynEverettOfEvesham" "eve@example.com" "Eve#2024!" none = true ∧
      (postRegister hasAt hasAt hash0 db0 eveBody).2.users =
        db0.users ++
          [⟨6, "EvelynEverettOfEvesham", "eve@example.com", "bcrypt:Eve#2024!", none,
            Role.admin⟩] :=
  ⟨by decide,
    register_assigns_requested_role hasAt hasAt hash0 db0 eveBody
      ⟨"EvelynEverettOfEvesham", "eve@example.com", "Eve#2024!", none, some Role.admin⟩
      (by decide),
    by decide, by decide, by decide⟩

/-- C30. A login with an email no user has and a login with the email of a
user and a password that `comparePassword` refuses get the same response:
status 401 and the message 'Invalid email or password.', with no data.  The
same holds for the route, for two bodies that its schema accepts. -/
theorem login_failures_identical (compare : String → String → Bool) (db : Database)
    (email1 password1 email2 password2 : String) (known : User)
    (hunknown : User.findOne db email1 = none)
    (hknown : User.findOne db email2 = some known)
    (hwrong : compare password2 known.password = false) :
    authController.login compare db email1 password1 =
        ⟨401, false, "Invalid email or password.", none⟩ ∧
      authController.login compare db email2 password2 =
        ⟨401, false, "Invalid email or password.", none⟩ ∧
      (∀ (joiEmail : String → Bool) (body1 body2 : LoginBody),
        userLoginSchema joiEmail body1.sanitizeInput = some (email1, password1) →
        userLoginSchema joiEmail body2.sanitizeInput = some (email2, password2) →
        postLogin joiEmail compare db body1 = postLogin joiEmail compare db body2) := by
  have h1 : authController.login compare db email1 password1 =
      ⟨401, false, "Invalid email or password.", none⟩ := by
    simp [authController.login, hunknown]
  have h2 : authController.login compare db email2 password2 =
      ⟨401, false, "Invalid email or password.", none⟩ := by
    simp [authController.login, hknown, hwrong]
  refine ⟨h1, h2, ?_⟩
  intro joiEmail body1 body2 hb1 hb2
  simp only [postLogin, hb1, hb2, h1, h2]

/-- On `db0` nobody has the email of `zed`, and `alice` has another password
than the one sent. -/
theorem login_failures_identical_witness :
    User.findOne db0 "zed@example.com" = none ∧
      User.findOne db0 "alice@example.com" = some alice ∧
      compare0 "Wrong#2024" alice.password = false ∧
      (authController.login compare0 db0 "zed@example.com" "Zed#2024" =
          ⟨401, false, "Invalid email or password.", none⟩ ∧
        authController.login compare0 db0 "alice@example.com" "Wrong#2024" =
          ⟨401, false, "Invalid email or password.", none⟩ ∧
        (∀ (joiEmail : String → Bool) (body1 body2 : LoginBody),
          userLoginSchema joiEmail body1.sanitizeInput = some ("zed@example.com", "Zed#2024") →
          userLoginSchema joiEmail body2.sanitizeInput =
            some ("alice@example.com", "Wrong#2024") →
          postLogin joiEmail compare0 db0 body1 = postLogin joiEmail compare0 db0 body2)) ∧
      (authController.login compare0 db0 "alice@example.com" "Alice#2024").status = 200 :=
  ⟨by decide, by decide, by decide,
    login_failures_identical compare0 db0 "zed@example.com" "Zed#2024" "alice@example.com"
      "Wrong#2024" alice (by decide) (by decide) (by decide),
    by decide⟩

end Roxiler
